import Mathlib

/-!
# Thunar application core: job launcher, device event coalescer, launch queue

A shallow embedding of the parts of `thunar/thunar-application.c` that launch
jobs into the shared progress dialog (`thunar_application_launch`,
`thunar_application_show_dialogs`, the operations `thunar_application_move_into`,
`thunar_application_unlink_files`, `thunar_application_restore_files`), that
coordinate hot-plug events (`thunar_application_uevent`,
`thunar_application_volman_idle`, `thunar_application_volman_watch`) and that run
the deferred file launch queue (`thunar_application_process_filenames`,
`thunar_application_process_files`, `thunar_application_process_files_finish`).

Callbacks of the GLib main loop become pure functions on the application
record; what the outside world decides (the preference value, whether a spawn
succeeds, how a resolve finishes, what the user answers) is an explicit
argument.
-/

namespace Thunar

/-! ## GLib primitives used by the code -/

/-- Comparison of two UTF-8 strings as `g_utf8_collate` performs it in the
codepoint ("C") collation: `0` exactly for equal strings, negative when the
first sorts before the second, positive otherwise. -/
def g_utf8_collate (str1 str2 : String) : Int :=
  if str1 = str2 then 0 else if str1.toList < str2.toList then -1 else 1

/-- Position of the first link of the list whose data compares equal (result
`0`) to `data` under `func (link_data, data)`; `none` stands for `NULL`. -/
def g_slist_find_custom (list : List String) (data : String)
    (func : String → String → Int) : Option Nat :=
  match list with
  | [] => none
  | x :: rest =>
    if func x data = 0 then some 0
    else (g_slist_find_custom rest data func).map (· + 1)

/-- Removal of the link at the given position; the other links keep their order. -/
def g_slist_delete_link (list : List String) (link : Nat) : List String :=
  list.eraseIdx link

/-- Prepending a new link. -/
def g_slist_prepend (list : List String) (data : String) : List String :=
  data :: list

/-! ## Files and errors -/

/-- A `GError`: the domain quark (by its string), the code and the message. -/
structure GError where
  domain : String
  code : Int
  message : String
  deriving DecidableEq, Repr

/-- The quark string of the GIO error domain. -/
def G_IO_ERROR : String := "g-io-error-quark"

/-- The value of `G_IO_ERROR_CANCELLED` in `GIOErrorEnum`. -/
def G_IO_ERROR_CANCELLED : Int := 19

/-- A `ThunarFile` object, identified by the location it stands for. -/
structure ThunarFile where
  uri : String
  deriving DecidableEq, Repr

/-- A `GFile`, identified by its URI. -/
structure GFile where
  uri : String
  deriving DecidableEq, Repr

/-! ## Jobs and the progress dialog -/

/-- The job constructors of the operation catalog. -/
inductive JobKind where
  | copy_files
  | link_files
  | move_files
  | unlink_files
  | trash_files
  | create_files
  | make_directories
  | restore_files
  deriving DecidableEq, Repr

/-- Modelled from the spec: the job constructors `thunar_io_jobs_*` are not part
of the sources at hand. A job is "opaque", a "unit of asynchronous work
produced by a constructor from source/target path lists": it is kept as the
record of which constructor built it and from which lists. -/
structure ThunarJob where
  constructor : JobKind
  source_file_list : List GFile
  target_file_list : List GFile
  deriving DecidableEq, Repr

/-- Modelled from the spec: `thunar-progress-dialog.c` is not part of the sources
at hand. The progress surface is its "set of active Jobs" and its
"visible/hidden state". -/
structure ThunarProgressDialog where
  jobs : List ThunarJob := []
  visible : Bool := false
  deriving DecidableEq, Repr

/-- The windows the application controls: the shared progress dialog or a
window of its own, told apart by a number. -/
inductive GtkWindow where
  | progress_dialog
  | window (id : Nat)
  deriving DecidableEq, Repr

/-! ## The application record -/

/-- The fields of `struct _ThunarApplication` that the progress dialog, the
device coalescer and the launch queue use. `source_seq` is not a field of the C struct: it is the
counter of the default `GMainContext`, from which source ids are handed out
(a source id is never `0`). -/
structure ThunarApplication where
  progress_dialog : Option ThunarProgressDialog := none
  windows : List GtkWindow := []
  daemon : Bool := false
  show_dialogs_timer_id : Nat := 0
  volman_udis : List String := []
  volman_idle_id : Nat := 0
  volman_watch_id : Nat := 0
  files_to_launch : List ThunarFile := []
  source_seq : Nat := 0
  deriving DecidableEq, Repr

/-- The application as `thunar_application_init` leaves it: nothing pending,
no idle source, no child watch, nothing to launch. -/
def thunar_application_init : ThunarApplication := {}

/-- Attaching a source to the main context (`g_idle_add_full`,
`g_child_watch_add_full`): the id returned is the successor of the counter,
hence positive. -/
def g_source_attach (application : ThunarApplication) : Nat × ThunarApplication :=
  (application.source_seq + 1, { application with source_seq := application.source_seq + 1 })

/-! ## Device event coalescer -/

/-- The uevent handler: `thunar_application_uevent`, for the action string and
the sysfs path of the device. -/
def thunar_application_uevent (action sysfs_path : String)
    (application : ThunarApplication) : ThunarApplication :=
  if action = "add" then
    -- only insert the path if we don't have it already
    if g_slist_find_custom application.volman_udis sysfs_path g_utf8_collate = none then
      let application := { application with
        volman_udis := g_slist_prepend application.volman_udis sysfs_path }
      -- check if there's currently no active or scheduled handler
      if application.volman_idle_id = 0 ∧ application.volman_watch_id = 0 then
        let (id, application) := g_source_attach application
        { application with volman_idle_id := id }
      else application
    else application
  else if action = "remove" then
    -- look for the sysfs path in the list of pending paths
    match g_slist_find_custom application.volman_udis sysfs_path g_utf8_collate with
    | some lp =>
      { application with volman_udis := g_slist_delete_link application.volman_udis lp }
    | none => application
  else application

/-- What one run of the idle callback yields: the application afterwards, the
callback's return value (`true` keeps the idle source alive) and the argument
vector handed to `gdk_spawn_on_screen`, if a spawn was attempted. -/
structure VolmanIdleResult where
  application : ThunarApplication
  keep : Bool
  spawned : Option (List String)
  deriving DecidableEq, Repr

/-- The idle callback `thunar_application_volman_idle`. `misc_volume_management`
is the preference value read at the start; `spawn_ok` tells whether
`gdk_spawn_on_screen` succeeds, should it be called. -/
def thunar_application_volman_idle (misc_volume_management spawn_ok : Bool)
    (application : ThunarApplication) : VolmanIdleResult :=
  let (application, spawned) :=
    if misc_volume_management then
      -- check if we don't already have a handler, and we have a pending UDI
      if application.volman_watch_id = 0 then
        match application.volman_udis with
        | udi :: rest =>
          let argv := ["thunar-volman", "--device-added", udi]
          -- remove the first list item from the pending list
          let application := { application with volman_udis := rest }
          if spawn_ok then
            -- add a child watch for the volman handler
            let (id, application) := g_source_attach application
            ({ application with volman_watch_id := id }, some argv)
          else
            (application, some argv)
        | [] => (application, none)
      else (application, none)
    else
      -- drop all pending device UDIs
      ({ application with volman_udis := [] }, none)
  { application := application
    keep := decide (application.volman_watch_id = 0) && !application.volman_udis.isEmpty
    spawned := spawned }

/-- The destroy notification of the idle source. -/
def thunar_application_volman_idle_destroy (application : ThunarApplication) :
    ThunarApplication :=
  { application with volman_idle_id := 0 }

/-- The child watch callback `thunar_application_volman_watch`. -/
def thunar_application_volman_watch (application : ThunarApplication) :
    ThunarApplication :=
  -- check if the idle source isn't active, but we have pending UDIs
  if application.volman_idle_id = 0 ∧ application.volman_udis ≠ [] then
    let (id, application) := g_source_attach application
    { application with volman_idle_id := id }
  else application

/-- The destroy notification of the child watch source. -/
def thunar_application_volman_watch_destroy (application : ThunarApplication) :
    ThunarApplication :=
  { application with volman_watch_id := 0 }

/-- The events that drive the coalescer: a uevent of the udev client, the main
loop dispatching the idle source (with the preference value and the spawn
outcome of that run), and the exit of the watched handler process. -/
inductive VolmanEvent where
  | uevent (action sysfs_path : String)
  | idle (misc_volume_management spawn_ok : Bool)
  | child_exit
  deriving DecidableEq, Repr

/-- One step of the main loop: the callback of the event together with the
destroy notification that follows it. An idle source is dispatched only while
it is attached (`volman_idle_id` non-zero) and is destroyed when its callback
returns `false`; a child watch is dispatched only while attached and is
always destroyed after its callback. The second component is the argument
vector of the spawn attempted during the step, if any. -/
def volman_step (event : VolmanEvent) (application : ThunarApplication) :
    ThunarApplication × Option (List String) :=
  match event with
  | .uevent action sysfs_path =>
    (thunar_application_uevent action sysfs_path application, none)
  | .idle misc_volume_management spawn_ok =>
    if application.volman_idle_id = 0 then (application, none)
    else
      let r := thunar_application_volman_idle misc_volume_management spawn_ok application
      if r.keep then (r.application, r.spawned)
      else (thunar_application_volman_idle_destroy r.application, r.spawned)
  | .child_exit =>
    if application.volman_watch_id = 0 then (application, none)
    else
      (thunar_application_volman_watch_destroy
        (thunar_application_volman_watch application), none)

/-- The application after a sequence of events. -/
def volman_run : List VolmanEvent → ThunarApplication → ThunarApplication
  | [], application => application
  | event :: events, application => volman_run events (volman_step event application).1

/-- The argument vectors of all spawns attempted during a sequence of events,
oldest first. -/
def volman_spawns : List VolmanEvent → ThunarApplication → List (List String)
  | [], _ => []
  | event :: events, application =>
    let r := volman_step event application
    r.2.toList ++ volman_spawns events r.1

/-- The insertion stamps after one event, `clock` being the number of events
seen before it: an `add` uevent for an id that is not pending at that moment
stamps the id with the event's 1-based position; no other event changes a
stamp. -/
def volman_stamp (event : VolmanEvent) (application : ThunarApplication) (clock : Nat)
    (stamps : String → Nat) : String → Nat :=
  match event with
  | .uevent action sysfs_path =>
    if action = "add" ∧
        g_slist_find_custom application.volman_udis sysfs_path g_utf8_collate = none then
      fun udi => if udi = sysfs_path then clock + 1 else stamps udi
    else stamps
  | _ => stamps

/-- The time at which each device id was last inserted into the pending list
during a sequence of events (`0`, the initial stamp, for an id never
inserted). -/
def volman_insert_times : List VolmanEvent → ThunarApplication → Nat →
    (String → Nat) → (String → Nat)
  | [], _, _, stamps => stamps
  | event :: events, application, clock, stamps =>
    volman_insert_times events (volman_step event application).1 (clock + 1)
      (volman_stamp event application clock stamps)

/-! ## Launch queue -/

/-- What the launch queue asks of its collaborators, in the order asked: an
error dialog for a filename that names no file, an error dialog for a file
that could not be resolved, the start of an asynchronous resolve-and-mount of
a file (`thunar_browser_poke_file`), and the open action on a resolved target
(`thunar_file_launch`). -/
inductive LaunchEffect where
  | show_error_filename (filename : String) (error : GError)
  | show_error_file (file : ThunarFile) (error : GError)
  | poke_file (file : ThunarFile)
  | file_launch (target_file : Option ThunarFile)
  deriving DecidableEq, Repr

/-- The functions outside this file that `thunar_application_process_filenames`
calls, and whether the `_thunar_return_val_if_fail` checks are compiled in. -/
structure LaunchEnv where
  g_path_is_absolute : String → Bool
  exo_str_looks_like_an_uri : String → Bool
  g_build_filename : String → String → String
  thunar_file_get_for_uri : String → Except GError ThunarFile
  debug_checks : Bool

/-- The body of the first loop of `thunar_application_process_filenames` for one
filename: absolute paths and URIs are looked up directly, other names after
being joined to the working directory. -/
def process_filenames_lookup (env : LaunchEnv) (working_directory filename : String) :
    Except GError ThunarFile :=
  if env.g_path_is_absolute filename || env.exo_str_looks_like_an_uri filename then
    env.thunar_file_get_for_uri filename
  else
    env.thunar_file_get_for_uri (env.g_build_filename working_directory filename)

/-- The first loop of `thunar_application_process_filenames`: the filenames are
looked up in order and the files appended to `file_list`; the loop stops at
the first filename without a file, yielding that filename and the error. -/
def process_filenames_collect (env : LaunchEnv) (working_directory : String) :
    List String → List ThunarFile → Except (String × GError) (List ThunarFile)
  | [], file_list => .ok file_list
  | filename :: filenames, file_list =>
    match process_filenames_lookup env working_directory filename with
    | .ok file =>
      process_filenames_collect env working_directory filenames (file_list ++ [file])
    | .error derror => .error (filename, derror)

/-- The function `thunar_application_process_files`: nothing for an empty queue,
otherwise a poke of the file at the head of the queue. -/
def thunar_application_process_files (application : ThunarApplication) :
    ThunarApplication × List LaunchEffect :=
  match application.files_to_launch with
  | [] => (application, [])
  | file :: _ => (application, [.poke_file file])

/-- The completion callback `thunar_application_process_files_finish`, for the
poked `file`, the resolved `target_file` and the `error` of the poke;
`_launch_error` is what `thunar_file_launch` stores in `error` (the code never
reads it). -/
def thunar_application_process_files_finish (file : ThunarFile)
    (target_file : Option ThunarFile) (error : Option GError) (_launch_error : Option GError)
    (application : ThunarApplication) : ThunarApplication × List LaunchEffect :=
  match error with
  | some error =>
    -- don't display cancel errors
    let shown : List LaunchEffect :=
      if error.domain ≠ G_IO_ERROR ∨ error.code ≠ G_IO_ERROR_CANCELLED then
        [.show_error_file file error]
      else []
    -- stop processing files
    ({ application with files_to_launch := [] }, shown)
  | none =>
    -- try to open the file or directory; the error of the open action,
    -- `_launch_error`, is stored in the local `error` and not looked at again
    -- remove the file from the list
    let application := { application with
      files_to_launch := application.files_to_launch.tail }
    -- check if we have more files to process
    if application.files_to_launch ≠ [] then
      let r := thunar_application_process_files application
      (r.1, LaunchEffect.file_launch target_file :: r.2)
    else (application, [.file_launch target_file])

/-- What `thunar_application_process_filenames` yields: the application
afterwards, the return value, the error stored in the caller's location (if
any) and what was asked of the collaborators. -/
structure ProcessFilenamesResult where
  application : ThunarApplication
  result : Bool
  error : Option GError
  effects : List LaunchEffect
  deriving DecidableEq, Repr

/-- The function `thunar_application_process_filenames`. `error_location` tells
whether the caller passed a location for the error (`error != NULL`). -/
def thunar_application_process_filenames (env : LaunchEnv) (working_directory : String)
    (filenames : List String) (error_location : Bool) (application : ThunarApplication) :
    ProcessFilenamesResult :=
  if env.debug_checks ∧ filenames = [] then
    { application := application, result := false, error := none, effects := [] }
  else
    -- try to process all filenames and convert them to the appropriate file objects
    match process_filenames_collect env working_directory filenames [] with
    | .error (filename, derror) =>
      { application := application
        result := false
        error :=
          if error_location then
            some { domain := derror.domain
                   code := derror.code
                   message := "Failed to open \"" ++ filename ++ "\": " ++ derror.message }
          else none
        effects := [.show_error_filename filename derror] }
    | .ok file_list =>
      -- append the files to the list of files we need to launch
      let application := { application with
        files_to_launch :=
          file_list.foldl (fun queue file => queue ++ [file]) application.files_to_launch }
      -- start processing files if we have any to launch
      let r :=
        if application.files_to_launch ≠ [] then thunar_application_process_files application
        else (application, [])
      { application := r.1, result := true, error := none, effects := r.2 }

/-- How a poke ends: the resolved target, the error (if the resolve or mount
failed), and the error of the open action that follows a successful resolve. -/
structure PokeOutcome where
  target_file : Option ThunarFile
  error : Option GError
  launch_error : Option GError
  deriving DecidableEq, Repr

/-- The launch queue together with its surroundings: the pokes that were
started and have not finished yet (oldest first) and everything asked of the
collaborators so far. -/
structure LaunchState where
  application : ThunarApplication := {}
  pokes : List ThunarFile := []
  log : List LaunchEffect := []
  deriving DecidableEq, Repr

/-- The files of the pokes started by a list of effects. -/
def started_pokes : List LaunchEffect → List ThunarFile
  | [] => []
  | .poke_file file :: effects => file :: started_pokes effects
  | _ :: effects => started_pokes effects

/-- The events of the launch queue: a call of
`thunar_application_process_filenames` and the end of the oldest running poke. -/
inductive LaunchEvent where
  | process_filenames (working_directory : String) (filenames : List String)
  | poke_finished (outcome : PokeOutcome)
  deriving DecidableEq, Repr

/-- Modelled from the spec: `thunar_browser_poke_file` is not part of the
sources at hand; following the contract of the file resolver
(`resolveAndMount (fileRef, displayContext, callback)`, where the "callback
receives either a resolved target reference or an error"), every poke that was
started ends once by calling `thunar_application_process_files_finish` with the
poked file and its outcome. A `poke_finished` event with no poke running does
nothing. -/
def launch_step (env : LaunchEnv) (event : LaunchEvent) (state : LaunchState) : LaunchState :=
  match event with
  | .process_filenames working_directory filenames =>
    let r := thunar_application_process_filenames env working_directory filenames true
      state.application
    { application := r.application
      pokes := state.pokes ++ started_pokes r.effects
      log := state.log ++ r.effects }
  | .poke_finished outcome =>
    match state.pokes with
    | [] => state
    | file :: pokes =>
      let r := thunar_application_process_files_finish file outcome.target_file outcome.error
        outcome.launch_error state.application
      { application := r.1
        pokes := pokes ++ started_pokes r.2
        log := state.log ++ r.2 }

/-- The state after a sequence of launch queue events. -/
def launch_run (env : LaunchEnv) : List LaunchEvent → LaunchState → LaunchState
  | [], state => state
  | event :: events, state => launch_run env events (launch_step env event state)

/-- The targets handed to the open action by a list of effects, in order. -/
def launched_targets : List LaunchEffect → List (Option ThunarFile)
  | [] => []
  | .file_launch target_file :: effects => target_file :: launched_targets effects
  | _ :: effects => launched_targets effects

/-- The resolve errors shown to the user by a list of effects, in order. -/
def shown_file_errors : List LaunchEffect → List (ThunarFile × GError)
  | [] => []
  | .show_error_file file error :: effects => (file, error) :: shown_file_errors effects
  | _ :: effects => shown_file_errors effects

/-- Whether an error is the cancellation of the GIO domain. -/
def is_cancelled (error : GError) : Bool :=
  decide (error.domain = G_IO_ERROR ∧ error.code = G_IO_ERROR_CANCELLED)

/-- The launch queue as the specification words it, for entries paired with
their resolve outcomes: the head entry is resolved; on success it is opened
and the next entry is processed; on failure the error is shown unless it is a
cancellation, and no further entry is touched. -/
def launch_spec_log : List (ThunarFile × PokeOutcome) → List LaunchEffect
  | [] => []
  | (file, outcome) :: entries =>
    match outcome.error with
    | some error =>
      if is_cancelled error then [.poke_file file]
      else [.poke_file file, .show_error_file file error]
    | none =>
      .poke_file file :: .file_launch outcome.target_file :: launch_spec_log entries

/-- The entries before the first entry whose resolve fails. -/
def resolved_entries (entries : List (ThunarFile × PokeOutcome)) :
    List (ThunarFile × PokeOutcome) :=
  entries.takeWhile (fun entry => entry.2.error.isNone)

/-- The error to surface for the first entry whose resolve fails: the entry and
its error, unless there is no such entry or the error is a cancellation. -/
def surfaced_error (entries : List (ThunarFile × PokeOutcome)) : List (ThunarFile × GError) :=
  match entries.find? (fun entry => entry.2.error.isSome) with
  | some (file, outcome) =>
    match outcome.error with
    | some error => if is_cancelled error then [] else [(file, error)]
    | none => []
  | none => []

/-- A small world to run the launch queue in: every filename is taken as
absolute, and every location but `/missing` has a file. -/
def example_launch_env : LaunchEnv where
  g_path_is_absolute := fun _ => true
  exo_str_looks_like_an_uri := fun _ => false
  g_build_filename := fun directory name => directory ++ "/" ++ name
  thunar_file_get_for_uri := fun uri =>
    if uri = "/missing" then
      .error { domain := "g-file-error-quark", code := 4, message := "No such file or directory" }
    else .ok { uri := uri }
  debug_checks := true

/-! ## Job launcher and progress dialog -/

/-- The type of the `launcher` argument of `thunar_application_launch`: a job
constructor taking the source and the target list. -/
abbrev Launcher := List GFile → List GFile → ThunarJob

/-- Modelled from the spec: `thunar_io_jobs_copy_files`, not part of the sources
at hand, "direct 1:1 mapping to a constructor". -/
def thunar_io_jobs_copy_files : Launcher :=
  fun source_file_list target_file_list =>
    { constructor := .copy_files
      source_file_list := source_file_list
      target_file_list := target_file_list }

/-- Modelled from the spec: `thunar_io_jobs_link_files`, not part of the sources
at hand, "direct 1:1 mapping to a constructor". -/
def thunar_io_jobs_link_files : Launcher :=
  fun source_file_list target_file_list =>
    { constructor := .link_files
      source_file_list := source_file_list
      target_file_list := target_file_list }

/-- Modelled from the spec: `thunar_io_jobs_move_files`, not part of the sources
at hand, the constructor of the "generic move job". -/
def thunar_io_jobs_move_files : Launcher :=
  fun source_file_list target_file_list =>
    { constructor := .move_files
      source_file_list := source_file_list
      target_file_list := target_file_list }

/-- Modelled from the spec: `thunar_io_jobs_restore_files`, not part of the
sources at hand, the constructor of the restore job. -/
def thunar_io_jobs_restore_files : Launcher :=
  fun source_file_list target_file_list =>
    { constructor := .restore_files
      source_file_list := source_file_list
      target_file_list := target_file_list }

/-- Modelled from the spec: `thunar_io_jobs_unlink_files`, not part of the
sources at hand, the constructor of the permanent delete job, from one list. -/
def thunar_io_jobs_unlink_files (file_list : List GFile) : ThunarJob :=
  { constructor := .unlink_files, source_file_list := file_list, target_file_list := [] }

/-- Modelled from the spec: `thunar_io_jobs_trash_files`, not part of the sources
at hand, the constructor of the trash job, from one list. -/
def thunar_io_jobs_trash_files (file_list : List GFile) : ThunarJob :=
  { constructor := .trash_files, source_file_list := file_list, target_file_list := [] }

/-- The launcher `unlink_stub`: the target list is dropped. -/
def unlink_stub : Launcher :=
  fun source_path_list _target_path_list => thunar_io_jobs_unlink_files source_path_list

/-- The launcher `trash_stub`: the target list is dropped. -/
def trash_stub : Launcher :=
  fun source_file_list _target_file_list => thunar_io_jobs_trash_files source_file_list

/-- Modelled from the spec: `thunar_progress_dialog_new`, not part of the sources
at hand: a surface with no job, not visible. -/
def thunar_progress_dialog_new : ThunarProgressDialog := {}

/-- Modelled from the spec: `thunar_progress_dialog_has_jobs`, not part of the
sources at hand, "`hasActiveJobs() -> bool`". -/
def thunar_progress_dialog_has_jobs (dialog : ThunarProgressDialog) : Bool :=
  !dialog.jobs.isEmpty

/-- Modelled from the spec: `thunar_progress_dialog_add_job`, not part of the
sources at hand, "`addJob(job, icon, title)`": the job joins the set of active
jobs. -/
def thunar_progress_dialog_add_job (dialog : ThunarProgressDialog) (job : ThunarJob) :
    ThunarProgressDialog :=
  { dialog with jobs := dialog.jobs ++ [job] }

/-- Presenting a window makes it visible; the surface "must tolerate being asked
to present when already visible". -/
def gtk_window_present (dialog : ThunarProgressDialog) : ThunarProgressDialog :=
  { dialog with visible := true }

/-- What the job launcher and the operations of the catalog do to the outside,
in the order done: a job is built by a launcher, the progress dialog is
presented, a timeout source is added (interval in milliseconds, source id), an
error dialog is shown, a question is put to the user, termination of the main
loop is requested. -/
inductive AppEffect where
  | job_created (job : ThunarJob)
  | present
  | timeout_add (interval : Nat) (id : Nat)
  | show_error (error : GError) (text : String)
  | question (message : String)
  | main_quit
  deriving DecidableEq, Repr

/-- The function `thunar_application_take_window`: the window is put in front of
the list of controlled windows. (The window must not be in the list yet; a
window that was just created never is.) -/
def thunar_application_take_window (window : GtkWindow) (application : ThunarApplication) :
    ThunarApplication :=
  { application with windows := window :: application.windows }

/-- The handler `thunar_application_window_destroyed` of the "destroy" signal of
a controlled window: the window leaves the list, and the main loop is asked
to quit if no window is left and the application is no daemon. (The window
is one of the list: the handler is connected to controlled windows only.) -/
def thunar_application_window_destroyed (window : GtkWindow)
    (application : ThunarApplication) : ThunarApplication × List AppEffect :=
  let application := { application with windows := application.windows.erase window }
  if application.windows = [] ∧ application.daemon = false then (application, [.main_quit])
  else (application, [])

/-- The function `thunar_application_get_progress_dialog`: the shared dialog,
created and taken over as a window if there is none. -/
def thunar_application_get_progress_dialog (application : ThunarApplication) :
    ThunarProgressDialog × ThunarApplication :=
  match application.progress_dialog with
  | none =>
    (thunar_progress_dialog_new,
      thunar_application_take_window .progress_dialog
        { application with progress_dialog := some thunar_progress_dialog_new })
  | some dialog => (dialog, application)

/-- What the timeout callback yields: the application afterwards, whether the
dialog was presented, and the return value (`true` would repeat the timer). -/
structure ShowDialogsResult where
  application : ThunarApplication
  presented : Bool
  keep : Bool
  deriving DecidableEq, Repr

/-- The timeout callback `thunar_application_show_dialogs`: the progress dialog is
presented if there is one; the return value is `FALSE`. -/
def thunar_application_show_dialogs (application : ThunarApplication) : ShowDialogsResult :=
  match application.progress_dialog with
  | some dialog =>
    { application := { application with progress_dialog := some (gtk_window_present dialog) }
      presented := true
      keep := false }
  | none => { application := application, presented := false, keep := false }

/-- The destroy notification of the timeout source. -/
def thunar_application_show_dialogs_destroy (application : ThunarApplication) :
    ThunarApplication :=
  { application with show_dialogs_timer_id := 0 }

/-- The delay of the timer that shows the progress dialog, in milliseconds. -/
def show_dialogs_delay : Nat := 750

/-- The function `thunar_application_launch`, for the launcher and the two lists
(the parent, the icon, the title and the closure of the C function have no
part in what is decided here). -/
def thunar_application_launch (launcher : Launcher)
    (source_file_list target_file_list : List GFile) (application : ThunarApplication) :
    ThunarApplication × List AppEffect :=
  -- try to allocate a new job for the operation
  let job := launcher source_file_list target_file_list
  -- get the shared progress dialog
  let (dialog, application) := thunar_application_get_progress_dialog application
  if thunar_progress_dialog_has_jobs dialog then
    -- add the job to the dialog
    let application := { application with
      progress_dialog := some (thunar_progress_dialog_add_job dialog job) }
    -- show the dialog immediately
    let r := thunar_application_show_dialogs application
    (r.application, .job_created job :: (if r.presented then [.present] else []))
  else
    -- add the job to the dialog
    let application := { application with
      progress_dialog := some (thunar_progress_dialog_add_job dialog job) }
    -- set up a timer to show the dialog
    if application.show_dialogs_timer_id = 0 then
      let (id, application) := g_source_attach application
      ({ application with show_dialogs_timer_id := id },
        [.job_created job, .timeout_add show_dialogs_delay id])
    else (application, [.job_created job])

/-- Modelled from the spec: what happens when a job ends is decided in
`thunar-progress-dialog.c`, which is not part of the sources at hand. "Once
terminal, it is removed from the ProgressSurface's active set"; a surface that
is visible "remains visible until the user dismisses it, independent of the
active-job count"; a surface that was never made visible and has no job left
is disposed of with its last job ("a Job completing within 750 ms of becoming
the sole active job never causes the surface to become visible"; in the words
of `thunar_application_launch`, the show timer is there so that "we don't just
popup and destroy a dialog for a very short job"). The result is the dialog
that stays, if one does. -/
def thunar_progress_dialog_job_finished (dialog : ThunarProgressDialog) (job : ThunarJob) :
    Option ThunarProgressDialog :=
  let dialog := { dialog with jobs := dialog.jobs.erase job }
  if dialog.jobs = [] ∧ dialog.visible = false then none else some dialog

/-- The events of the progress dialog: a launch, the show timer firing, and a job
of the dialog coming to its end. -/
inductive ProgressEvent where
  | launch (launcher : Launcher) (source_file_list target_file_list : List GFile)
  | show_timeout
  | job_finished (job : ThunarJob)

/-- One step of the progress dialog. A launch is `thunar_application_launch`. The
show timer fires only while it is attached (`show_dialogs_timer_id` non-zero);
its callback returns `FALSE`, so the source is destroyed right after. The end
of a job is handled by the dialog; when the dialog goes, the weak pointer
set up in `thunar_application_get_progress_dialog` clears `progress_dialog` and
the "destroy" signal runs `thunar_application_window_destroyed`. -/
def progress_step (event : ProgressEvent) (application : ThunarApplication) :
    ThunarApplication × List AppEffect :=
  match event with
  | .launch launcher source_file_list target_file_list =>
    thunar_application_launch launcher source_file_list target_file_list application
  | .show_timeout =>
    if application.show_dialogs_timer_id = 0 then (application, [])
    else
      let r := thunar_application_show_dialogs application
      if r.keep then (r.application, if r.presented then [.present] else [])
      else (thunar_application_show_dialogs_destroy r.application,
        if r.presented then [.present] else [])
  | .job_finished job =>
    match application.progress_dialog with
    | none => (application, [])
    | some dialog =>
      match thunar_progress_dialog_job_finished dialog job with
      | some dialog => ({ application with progress_dialog := some dialog }, [])
      | none =>
        thunar_application_window_destroyed .progress_dialog
          { application with progress_dialog := none }

/-- The application after a sequence of progress events. -/
def progress_run : List ProgressEvent → ThunarApplication → ThunarApplication
  | [], application => application
  | event :: events, application => progress_run events (progress_step event application).1

/-- Everything done to the outside during a sequence of progress events. -/
def progress_effects : List ProgressEvent → ThunarApplication → List AppEffect
  | [], _ => []
  | event :: events, application =>
    (progress_step event application).2 ++
      progress_effects events (progress_step event application).1

/-- The jobs built by a list of effects, in order. -/
def created_jobs : List AppEffect → List ThunarJob
  | [] => []
  | .job_created job :: effects => job :: created_jobs effects
  | _ :: effects => created_jobs effects

/-- How often the progress dialog is presented by a list of effects. -/
def count_presents : List AppEffect → Nat
  | [] => 0
  | .present :: effects => count_presents effects + 1
  | _ :: effects => count_presents effects

/-- The jobs shown in the progress dialog (none if there is no dialog). -/
def active_jobs (application : ThunarApplication) : List ThunarJob :=
  match application.progress_dialog with
  | some dialog => dialog.jobs
  | none => []

/-- Whether the progress dialog exists and is visible. -/
def dialog_visible (application : ThunarApplication) : Bool :=
  match application.progress_dialog with
  | some dialog => dialog.visible
  | none => false

/-! ## Operation catalog -/

/-- The quark string of the GLib file error domain. -/
def G_FILE_ERROR : String := "g-file-error-quark"

/-- The value of `G_FILE_ERROR_INVAL` in `GFileError`. -/
def G_FILE_ERROR_INVAL : Int := 17

/-- The value of `GTK_RESPONSE_YES` in `GtkResponseType`. -/
def GTK_RESPONSE_YES : Int := -8

/-- The value of `GTK_RESPONSE_CANCEL` in `GtkResponseType`. -/
def GTK_RESPONSE_CANCEL : Int := -6

/-- The functions outside this file that the operations of the catalog call on
files, and whether the `_thunar_return_if_fail` checks are compiled in. -/
structure CatalogEnv where
  thunar_g_file_is_root : GFile → Bool
  thunar_g_file_is_trashed : GFile → Bool
  g_file_get_basename : GFile → String
  g_file_resolve_relative_path : GFile → String → GFile
  g_file_new_for_commandline_arg : String → GFile
  thunar_file_get_file : ThunarFile → GFile
  thunar_file_is_local : ThunarFile → Bool
  thunar_file_get_original_path : ThunarFile → Option String
  thunar_file_get_display_name : ThunarFile → String
  debug_checks : Bool
  thunar_g_file_new_for_trash : GFile := { uri := "trash:///" }

/-- The loop of `thunar_application_collect_and_launch`. The first list holds the
source files still to visit, the last one of the source list first; a root
node ends the loop with the error, any other file puts its target (the target
directory resolved with the base name of the file) in front of the target
list. -/
def collect_target_files (env : CatalogEnv) (target_file : GFile) :
    List GFile → List GFile → Except GError (List GFile)
  | [], target_file_list => .ok target_file_list
  | file :: files, target_file_list =>
    if env.thunar_g_file_is_root file then
      .error { domain := G_FILE_ERROR, code := G_FILE_ERROR_INVAL, message := "Invalid argument" }
    else
      collect_target_files env target_file files
        (env.g_file_resolve_relative_path target_file (env.g_file_get_basename file) ::
          target_file_list)

/-- The function `thunar_application_collect_and_launch`. -/
def thunar_application_collect_and_launch (env : CatalogEnv) (launcher : Launcher)
    (source_file_list : List GFile) (target_file : GFile) (application : ThunarApplication) :
    ThunarApplication × List AppEffect :=
  -- check if we have anything to operate on
  if source_file_list = [] then (application, [])
  else
    -- generate the target path list
    match collect_target_files env target_file source_file_list.reverse [] with
    | .error err =>
      -- display an error message to the user
      (application, [.show_error err "Failed to launch operation"])
    | .ok target_file_list =>
      -- launch the operation
      thunar_application_launch launcher source_file_list target_file_list application

/-- The function `thunar_application_trash`. -/
def thunar_application_trash (env : CatalogEnv) (file_list : List GFile)
    (application : ThunarApplication) : ThunarApplication × List AppEffect :=
  if env.debug_checks ∧ file_list = [] then (application, [])
  else thunar_application_launch trash_stub file_list [] application

/-- The function `thunar_application_move_into`. -/
def thunar_application_move_into (env : CatalogEnv) (source_file_list : List GFile)
    (target_file : GFile) (application : ThunarApplication) :
    ThunarApplication × List AppEffect :=
  -- launch the appropriate operation depending on the target file
  if env.thunar_g_file_is_trashed target_file then
    thunar_application_trash env source_file_list application
  else
    thunar_application_collect_and_launch env thunar_io_jobs_move_files source_file_list
      target_file application

/-- The loop of `thunar_application_unlink_files`. The first list holds the files
still to visit, the last one of the file list first; the state is the path
list, the `permanently` flag and the counter `n_path_list`. -/
def unlink_collect (env : CatalogEnv) :
    List ThunarFile → List GFile × Bool × Nat → List GFile × Bool × Nat
  | [], state => state
  | file :: files, (path_list, permanently, n_path_list) =>
    unlink_collect env files
      (env.thunar_file_get_file file :: path_list,
        -- permanently delete if at least one of the files is not a local file
        (if env.thunar_file_is_local file then permanently else true),
        n_path_list + 1)

/-- The question of `thunar_application_unlink_files`, by the number of paths. -/
def unlink_message (env : CatalogEnv) (file_list : List ThunarFile) (n_path_list : Nat) :
    String :=
  if n_path_list = 1 then
    match file_list with
    | file :: _ =>
      "Are you sure that you want to\npermanently delete \"" ++
        env.thunar_file_get_display_name file ++ "\"?"
    | [] => ""
  else
    "Are you sure that you want to permanently\ndelete the " ++ toString n_path_list ++
      " selected files?"

/-- The function `thunar_application_unlink_files`. `shift_held` tells whether the
current event carries the shift modifier; `response` is what the
confirmation dialog returns, should it be run. -/
def thunar_application_unlink_files (env : CatalogEnv) (shift_held : Bool) (response : Int)
    (file_list : List ThunarFile) (application : ThunarApplication) :
    ThunarApplication × List AppEffect :=
  -- determine the paths for the files
  match unlink_collect env file_list.reverse ([], shift_held, 0) with
  | (path_list, permanently, n_path_list) =>
    -- nothing to do if we don't have any paths
    if n_path_list = 0 then (application, [])
    else if permanently then
      -- ask the user to confirm the delete operation
      let asked := AppEffect.question (unlink_message env file_list n_path_list)
      if response = GTK_RESPONSE_YES then
        -- launch the "Delete" operation
        let r := thunar_application_launch unlink_stub path_list path_list application
        (r.1, asked :: r.2)
      else (application, [asked])
    else
      -- launch the "Move to Trash" operation
      thunar_application_trash env path_list application

/-- The loop of `thunar_application_restore_files`: the files are visited in list
order, each adds its path to the source list and its original path to the
target list; the first file without an original path ends the loop with that
file and the error. -/
def restore_collect (env : CatalogEnv) :
    List ThunarFile → List GFile → List GFile →
      Except (ThunarFile × GError) (List GFile × List GFile)
  | [], source_path_list, target_path_list => .ok (source_path_list, target_path_list)
  | file :: files, source_path_list, target_path_list =>
    match env.thunar_file_get_original_path file with
    | none =>
      -- no OriginalPath, impossible to continue
      .error (file,
        { domain := G_FILE_ERROR
          code := G_FILE_ERROR_INVAL
          message := "Failed to determine the original path for \"" ++
            env.thunar_file_get_display_name file ++ "\"" })
    | some original_uri =>
      restore_collect env files
        (source_path_list ++ [env.thunar_file_get_file file])
        (target_path_list ++ [env.g_file_new_for_commandline_arg original_uri])

/-- The function `thunar_application_restore_files`. -/
def thunar_application_restore_files (env : CatalogEnv) (trash_file_list : List ThunarFile)
    (application : ThunarApplication) : ThunarApplication × List AppEffect :=
  match restore_collect env trash_file_list [] [] with
  | .error (file, err) =>
    -- display an error dialog
    (application,
      [.show_error err
        ("Could not restore \"" ++ env.thunar_file_get_display_name file ++ "\"")])
  | .ok (source_path_list, target_path_list) =>
    -- launch the operation
    thunar_application_launch thunar_io_jobs_restore_files source_path_list target_path_list
      application

/-- The questions put to the user by a list of effects, in order. -/
def asked_questions : List AppEffect → List String
  | [] => []
  | .question message :: effects => message :: asked_questions effects
  | _ :: effects => asked_questions effects

/-- The errors shown to the user by a list of effects, in order. -/
def shown_errors : List AppEffect → List (GError × String)
  | [] => []
  | .show_error error text :: effects => (error, text) :: shown_errors effects
  | _ :: effects => shown_errors effects

/-- A small world to run the catalog in: `file:///` is the only root, `trash:///`
is the trash, the base name of a file is its whole URI, a name is resolved by
appending it to the directory; files under `trash:///` are not local, and of
those `trash:///a` and `trash:///b` know where they came from. -/
def example_catalog_env : CatalogEnv where
  thunar_g_file_is_root := fun file => decide (file.uri = "file:///")
  thunar_g_file_is_trashed := fun file => decide (file.uri = "trash:///")
  g_file_get_basename := fun file => file.uri
  g_file_resolve_relative_path := fun directory name => { uri := directory.uri ++ name }
  g_file_new_for_commandline_arg := fun arg => { uri := arg }
  thunar_file_get_file := fun file => { uri := file.uri }
  thunar_file_is_local := fun file =>
    decide (file.uri ≠ "trash:///a" ∧ file.uri ≠ "trash:///b" ∧ file.uri ≠ "trash:///c")
  thunar_file_get_original_path := fun file =>
    if file.uri = "trash:///a" then some "/home/a"
    else if file.uri = "trash:///b" then some "/home/b"
    else none
  thunar_file_get_display_name := fun file => file.uri
  debug_checks := true

/-- The files a sequence of launch queue events puts into the queue, oldest
first: those named by the filenames of every call of
`thunar_application_process_filenames` whose filenames all name files. -/
def enqueued_files (env : LaunchEnv) : List LaunchEvent → List ThunarFile
  | [] => []
  | .process_filenames working_directory filenames :: events =>
    (if env.debug_checks ∧ filenames = [] then []
     else
      match process_filenames_collect env working_directory filenames [] with
      | .ok file_list => file_list
      | .error _ => []) ++ enqueued_files env events
  | .poke_finished _ :: events => enqueued_files env events

/-- A job in a dialog that is not visible has the show timer pending. -/
def hidden_job_has_timer (application : ThunarApplication) : Prop :=
  active_jobs application ≠ [] → dialog_visible application = false →
    application.show_dialogs_timer_id ≠ 0

/-! ## Further operations of the catalog -/

/-- The function `thunar_application_copy_to`. The check that both lists have the
same length is a `_thunar_return_if_fail` check. -/
def thunar_application_copy_to (env : CatalogEnv) (source_file_list target_file_list : List GFile)
    (application : ThunarApplication) : ThunarApplication × List AppEffect :=
  if env.debug_checks ∧ source_file_list.length ≠ target_file_list.length then (application, [])
  else
    -- launch the operation
    thunar_application_launch thunar_io_jobs_copy_files source_file_list target_file_list
      application

/-- The function `thunar_application_copy_into`. -/
def thunar_application_copy_into (env : CatalogEnv) (source_file_list : List GFile)
    (target_file : GFile) (application : ThunarApplication) :
    ThunarApplication × List AppEffect :=
  -- collect the target files and launch the job
  thunar_application_collect_and_launch env thunar_io_jobs_copy_files source_file_list
    target_file application

/-- The function `thunar_application_link_into`. -/
def thunar_application_link_into (env : CatalogEnv) (source_file_list : List GFile)
    (target_file : GFile) (application : ThunarApplication) :
    ThunarApplication × List AppEffect :=
  -- collect the target files and launch the job
  thunar_application_collect_and_launch env thunar_io_jobs_link_files source_file_list
    target_file application

/-- The function `thunar_application_empty_trash`; `response` is what the
confirmation dialog returns. -/
def thunar_application_empty_trash (env : CatalogEnv) (response : Int)
    (application : ThunarApplication) : ThunarApplication × List AppEffect :=
  -- ask the user to confirm the operation
  let asked := AppEffect.question "Remove all files and folders from the Trash?"
  -- check if the user confirmed
  if response = GTK_RESPONSE_YES then
    -- fake a path list with only the trash root, and launch the operation
    let r := thunar_application_launch unlink_stub [env.thunar_g_file_new_for_trash] []
      application
    (r.1, asked :: r.2)
  else (application, [asked])

/-- How many timeout sources a list of effects adds. -/
def count_timeouts : List AppEffect → Nat
  | [] => 0
  | .timeout_add _ _ :: effects => count_timeouts effects + 1
  | _ :: effects => count_timeouts effects

/-- The number of show timers attached to the main loop after a sequence of
progress events, `pending` being the number before: a step attaches as many
as it adds timeout sources, and a show timer that fires goes unless its
callback returns `true`. -/
def pending_show_timers : List ProgressEvent → ThunarApplication → Nat → Nat
  | [], _, pending => pending
  | event :: events, application, pending =>
    let fired : Nat :=
      match event with
      | .show_timeout =>
        if application.show_dialogs_timer_id = 0 then 0
        else if (thunar_application_show_dialogs application).keep then 0 else 1
      | _ => 0
    pending_show_timers events (progress_step event application).1
      (pending + count_timeouts (progress_step event application).2 - fired)

/-- The runs of the idle callback when the main loop dispatches the idle source
again and again, volume management being enabled and every spawn failing: the
number of runs of the callback and the application at the end. The loop ends
when the idle source is gone; `fuel` bounds the number of dispatches. -/
def volman_idle_runs : Nat → ThunarApplication → Nat × ThunarApplication
  | 0, application => (0, application)
  | fuel + 1, application =>
    if application.volman_idle_id = 0 then (0, application)
    else
      let r := volman_idle_runs fuel (volman_step (.idle true false) application).1
      (r.1 + 1, r.2)

/-- The progress dialog, if there is one, is among the controlled windows. -/
def dialog_registered (application : ThunarApplication) : Prop :=
  application.progress_dialog ≠ none → GtkWindow.progress_dialog ∈ application.windows

/-- The small world of `example_catalog_env` in a build that compiles the
`_thunar_return_if_fail` checks out. -/
def example_unchecked_env : CatalogEnv :=
  { example_catalog_env with debug_checks := false }

/-! ## Invariants of the coalescer -/

/-- The two scheduler handles are not both set. -/
def one_handle (application : ThunarApplication) : Prop :=
  ¬ (application.volman_idle_id ≠ 0 ∧ application.volman_watch_id ≠ 0)

/-- A non-empty pending list is watched over by one of the two handles. -/
def not_stranded (application : ThunarApplication) : Prop :=
  application.volman_udis ≠ [] →
    application.volman_idle_id ≠ 0 ∨ application.volman_watch_id ≠ 0

/-- The stamps of the pending ids decrease strictly from the head of the list
on, and none exceeds the clock. -/
def stamps_sorted (application : ThunarApplication) (clock : Nat) (stamps : String → Nat) :
    Prop :=
  application.volman_udis.Pairwise (fun a b => stamps b < stamps a) ∧
  ∀ udi ∈ application.volman_udis, stamps udi ≤ clock

/-! ## Facts about the list primitives -/

theorem g_utf8_collate_eq_zero (a b : String) : g_utf8_collate a b = 0 ↔ a = b := by
  unfold g_utf8_collate
  by_cases h : a = b
  · simp [h]
  · simp only [h, if_false, iff_false]
    split <;> decide

theorem g_slist_find_custom_none (list : List String) (data : String) :
    g_slist_find_custom list data g_utf8_collate = none ↔ data ∉ list := by
  induction list with
  | nil => simp [g_slist_find_custom]
  | cons x rest ih =>
    unfold g_slist_find_custom
    by_cases h : x = data
    · subst h
      simp [(g_utf8_collate_eq_zero x x).2 rfl]
    · have h0 : ¬ g_utf8_collate x data = 0 := fun e => h ((g_utf8_collate_eq_zero x data).1 e)
      have h' : ¬ data = x := fun e => h e.symm
      simp [h0, ih, h']

theorem g_slist_find_custom_some (list : List String) (data : String) (lp : Nat)
    (h : g_slist_find_custom list data g_utf8_collate = some lp) :
    g_slist_delete_link list lp = list.erase data := by
  induction list generalizing lp with
  | nil => simp [g_slist_find_custom] at h
  | cons x rest ih =>
    unfold g_slist_find_custom at h
    by_cases hx : x = data
    · simp [(g_utf8_collate_eq_zero x data).2 hx] at h
      subst h; subst hx
      simp [g_slist_delete_link]
    · have h0 : ¬ g_utf8_collate x data = 0 := fun e => hx ((g_utf8_collate_eq_zero x data).1 e)
      simp only [h0, if_false, Option.map_eq_some'] at h
      obtain ⟨j, hj, rfl⟩ := h
      have := ih j hj
      simp only [g_slist_delete_link] at this ⊢
      simp [List.eraseIdx_cons_succ, this, List.erase_cons_tail, hx]

/-! ## The uevent handler, case by case -/

theorem uevent_add_new (sysfs_path : String) (application : ThunarApplication)
    (h : sysfs_path ∉ application.volman_udis) :
    thunar_application_uevent "add" sysfs_path application =
      if application.volman_idle_id = 0 ∧ application.volman_watch_id = 0 then
        { application with
          volman_udis := sysfs_path :: application.volman_udis
          volman_idle_id := application.source_seq + 1
          source_seq := application.source_seq + 1 }
      else { application with volman_udis := sysfs_path :: application.volman_udis } := by
  simp [thunar_application_uevent, (g_slist_find_custom_none _ _).2 h, g_slist_prepend,
    g_source_attach]

theorem uevent_add_old (sysfs_path : String) (application : ThunarApplication)
    (h : sysfs_path ∈ application.volman_udis) :
    thunar_application_uevent "add" sysfs_path application = application := by
  have : ¬ g_slist_find_custom application.volman_udis sysfs_path g_utf8_collate = none :=
    fun e => (g_slist_find_custom_none _ _).1 e h
  simp [thunar_application_uevent, this]

theorem uevent_remove (sysfs_path : String) (application : ThunarApplication) :
    thunar_application_uevent "remove" sysfs_path application =
      { application with volman_udis := application.volman_udis.erase sysfs_path } := by
  have hne : ¬ ("remove" = "add") := by decide
  simp only [thunar_application_uevent, hne, if_false, if_true]
  cases hf : g_slist_find_custom application.volman_udis sysfs_path g_utf8_collate with
  | none =>
    have := (g_slist_find_custom_none _ _).1 hf
    simp [List.erase_of_not_mem this]
  | some lp => simp [g_slist_find_custom_some _ _ _ hf]

theorem uevent_other (action sysfs_path : String) (application : ThunarApplication)
    (h1 : action ≠ "add") (h2 : action ≠ "remove") :
    thunar_application_uevent action sysfs_path application = application := by
  simp [thunar_application_uevent, h1, h2]

theorem uevent_udis (action sysfs_path : String) (application : ThunarApplication) :
    (thunar_application_uevent action sysfs_path application).volman_udis =
      if action = "add" then
        if sysfs_path ∈ application.volman_udis then application.volman_udis
        else sysfs_path :: application.volman_udis
      else if action = "remove" then application.volman_udis.erase sysfs_path
      else application.volman_udis := by
  by_cases h1 : action = "add"
  · subst h1
    by_cases hm : sysfs_path ∈ application.volman_udis
    · simp [uevent_add_old _ _ hm, hm]
    · rw [uevent_add_new _ _ hm]
      split <;> simp [hm]
  · by_cases h2 : action = "remove"
    · subst h2
      simp [uevent_remove]
    · simp [uevent_other _ _ _ h1 h2, h1, h2]

/-! ## The idle callback, field by field -/

theorem idle_udis (m ok : Bool) (application : ThunarApplication) :
    (thunar_application_volman_idle m ok application).application.volman_udis =
      if m = true then
        if application.volman_watch_id = 0 then application.volman_udis.tail
        else application.volman_udis
      else [] := by
  unfold thunar_application_volman_idle
  cases m <;> cases ok <;> by_cases hw : application.volman_watch_id = 0 <;>
    cases hq : application.volman_udis <;> simp [hw, hq, g_source_attach]

theorem idle_watch_id (m ok : Bool) (application : ThunarApplication) :
    (thunar_application_volman_idle m ok application).application.volman_watch_id =
      if m = true ∧ ok = true ∧ application.volman_watch_id = 0 ∧ application.volman_udis ≠ []
      then application.source_seq + 1 else application.volman_watch_id := by
  unfold thunar_application_volman_idle
  cases m <;> cases ok <;> by_cases hw : application.volman_watch_id = 0 <;>
    cases hq : application.volman_udis <;> simp [hw, hq, g_source_attach]

theorem idle_idle_id (m ok : Bool) (application : ThunarApplication) :
    (thunar_application_volman_idle m ok application).application.volman_idle_id =
      application.volman_idle_id := by
  unfold thunar_application_volman_idle
  cases m <;> cases ok <;> by_cases hw : application.volman_watch_id = 0 <;>
    cases hq : application.volman_udis <;> simp [hw, hq, g_source_attach]

theorem idle_files (m ok : Bool) (application : ThunarApplication) :
    (thunar_application_volman_idle m ok application).application.files_to_launch =
      application.files_to_launch := by
  unfold thunar_application_volman_idle
  cases m <;> cases ok <;> by_cases hw : application.volman_watch_id = 0 <;>
    cases hq : application.volman_udis <;> simp [hw, hq, g_source_attach]

theorem idle_keep (m ok : Bool) (application : ThunarApplication) :
    (thunar_application_volman_idle m ok application).keep = true ↔
      (thunar_application_volman_idle m ok application).application.volman_watch_id = 0 ∧
      (thunar_application_volman_idle m ok application).application.volman_udis ≠ [] := by
  unfold thunar_application_volman_idle
  cases m <;> cases ok <;> by_cases hw : application.volman_watch_id = 0 <;>
    cases hq : application.volman_udis <;> simp [hw, hq, g_source_attach]

theorem idle_spawned (m ok : Bool) (application : ThunarApplication) :
    (thunar_application_volman_idle m ok application).spawned =
      if m = true ∧ application.volman_watch_id = 0 then
        application.volman_udis.head?.map
          (fun udi => ["thunar-volman", "--device-added", udi])
      else none := by
  unfold thunar_application_volman_idle
  cases m <;> cases ok <;> by_cases hw : application.volman_watch_id = 0 <;>
    cases hq : application.volman_udis <;> simp [hw, hq, g_source_attach]

/-! ## One step of the main loop, field by field -/

theorem step_udis (event : VolmanEvent) (application : ThunarApplication) :
    (volman_step event application).1.volman_udis =
      match event with
      | .uevent action sysfs_path =>
        (thunar_application_uevent action sysfs_path application).volman_udis
      | .idle m _ =>
        if application.volman_idle_id = 0 then application.volman_udis
        else if m = true then
          if application.volman_watch_id = 0 then application.volman_udis.tail
          else application.volman_udis
        else []
      | .child_exit => application.volman_udis := by
  cases event with
  | uevent action sysfs_path => rfl
  | idle m ok =>
    simp only [volman_step]
    by_cases hi : application.volman_idle_id = 0
    · simp [hi]
    · simp only [hi, if_false]
      split <;> simp [thunar_application_volman_idle_destroy, idle_udis]
  | child_exit =>
    simp only [volman_step]
    split
    · rfl
    · simp only [thunar_application_volman_watch_destroy, thunar_application_volman_watch]
      split <;> simp [g_source_attach]

/-- The pending list after a step is the old one with a new id in front (the
step being an `add` of an id that was not pending), or a sublist of the old
one (the step being anything else). -/
theorem step_udis_cases (event : VolmanEvent) (application : ThunarApplication) :
    (∃ udi, event = .uevent "add" udi ∧ udi ∉ application.volman_udis ∧
      (volman_step event application).1.volman_udis = udi :: application.volman_udis) ∨
    ((∀ udi, event = .uevent "add" udi → udi ∈ application.volman_udis) ∧
      List.Sublist (volman_step event application).1.volman_udis application.volman_udis) := by
  rw [step_udis]
  cases event with
  | uevent action sysfs_path =>
    simp only [uevent_udis]
    by_cases h1 : action = "add"
    · by_cases hm : sysfs_path ∈ application.volman_udis
      · right
        refine ⟨?_, by simp [h1, hm]⟩
        intro udi he
        injection he with _ h2
        rw [← h2]; exact hm
      · left; exact ⟨sysfs_path, by rw [h1], hm, by simp [h1, hm]⟩
    · right
      refine ⟨?_, ?_⟩
      · intro udi he
        injection he with h2 _
        exact absurd h2 h1
      · simp only [h1, if_false]
        split
        · exact List.erase_sublist _ _
        · exact List.Sublist.refl _
  | idle m ok =>
    right
    refine ⟨fun udi he => (by cases he), ?_⟩
    simp only
    split
    · exact List.Sublist.refl _
    · split
      · split
        · exact List.tail_sublist _
        · exact List.Sublist.refl _
      · exact List.nil_sublist _
  | child_exit => right; exact ⟨fun udi he => (by cases he), List.Sublist.refl _⟩

theorem step_nodup (event : VolmanEvent) (application : ThunarApplication)
    (h : application.volman_udis.Nodup) :
    (volman_step event application).1.volman_udis.Nodup := by
  rcases step_udis_cases event application with ⟨udi, _, hnew, heq⟩ | ⟨_, hsub⟩
  · rw [heq]; exact List.nodup_cons.2 ⟨hnew, h⟩
  · exact h.sublist hsub

theorem run_nodup (events : List VolmanEvent) (application : ThunarApplication)
    (h : application.volman_udis.Nodup) :
    (volman_run events application).volman_udis.Nodup := by
  induction events generalizing application with
  | nil => exact h
  | cons event events ih => exact ih _ (step_nodup event application h)

theorem watch_udis (application : ThunarApplication) :
    (thunar_application_volman_watch application).volman_udis = application.volman_udis := by
  unfold thunar_application_volman_watch
  split <;> simp [g_source_attach]

theorem watch_watch_id (application : ThunarApplication) :
    (thunar_application_volman_watch application).volman_watch_id =
      application.volman_watch_id := by
  unfold thunar_application_volman_watch
  split <;> simp [g_source_attach]

theorem watch_idle_id (application : ThunarApplication) :
    (thunar_application_volman_watch application).volman_idle_id =
      if application.volman_idle_id = 0 ∧ application.volman_udis ≠ []
      then application.source_seq + 1 else application.volman_idle_id := by
  unfold thunar_application_volman_watch
  split <;> simp [g_source_attach]

theorem step_one_handle (event : VolmanEvent) (application : ThunarApplication)
    (h : one_handle application) : one_handle (volman_step event application).1 := by
  unfold one_handle at h ⊢
  cases event with
  | uevent action sysfs_path =>
    simp only [volman_step]
    by_cases h1 : action = "add"
    · subst h1
      by_cases hm : sysfs_path ∈ application.volman_udis
      · rw [uevent_add_old _ _ hm]; exact h
      · rw [uevent_add_new _ _ hm]
        split
        · rename_i h0; simp [h0.2]
        · exact h
    · by_cases h2 : action = "remove"
      · subst h2; rw [uevent_remove]; exact h
      · rw [uevent_other _ _ _ h1 h2]; exact h
  | idle m ok =>
    simp only [volman_step]
    by_cases hi : application.volman_idle_id = 0
    · simp only [hi, if_true]; simp [hi]
    · simp only [hi, if_false]
      by_cases hk : (thunar_application_volman_idle m ok application).keep = true
      · simp only [hk, if_true]
        have := ((idle_keep m ok application).1 hk).1
        simp [this]
      · simp [hk, thunar_application_volman_idle_destroy]
  | child_exit =>
    simp only [volman_step]
    split
    · exact h
    · simp [thunar_application_volman_watch_destroy]

theorem run_one_handle (events : List VolmanEvent) (application : ThunarApplication)
    (h : one_handle application) : one_handle (volman_run events application) := by
  induction events generalizing application with
  | nil => exact h
  | cons event events ih => exact ih _ (step_one_handle event application h)

theorem step_not_stranded (event : VolmanEvent) (application : ThunarApplication)
    (h : not_stranded application) : not_stranded (volman_step event application).1 := by
  unfold not_stranded at h ⊢
  cases event with
  | uevent action sysfs_path =>
    simp only [volman_step]
    by_cases h1 : action = "add"
    · subst h1
      by_cases hm : sysfs_path ∈ application.volman_udis
      · rw [uevent_add_old _ _ hm]; exact h
      · rw [uevent_add_new _ _ hm]
        split
        · intro _; left; simp
        · rename_i h0
          intro _
          simp only
          by_contra hc
          exact h0 ⟨by omega, by omega⟩
    · by_cases h2 : action = "remove"
      · subst h2; rw [uevent_remove]
        simp only
        intro hne
        exact h (fun e => hne (by simp [e]))
      · rw [uevent_other _ _ _ h1 h2]; exact h
  | idle m ok =>
    simp only [volman_step]
    by_cases hi : application.volman_idle_id = 0
    · simp only [hi, if_true]; simpa [hi] using h
    · simp only [hi, if_false]
      by_cases hk : (thunar_application_volman_idle m ok application).keep = true
      · simp only [hk, if_true]
        intro _; left; rw [idle_idle_id]; exact hi
      · simp only [hk]
        intro hne
        simp only [thunar_application_volman_idle_destroy] at hne ⊢
        right
        intro hw
        exact hk ((idle_keep m ok application).2 ⟨hw, hne⟩)
  | child_exit =>
    simp only [volman_step]
    split
    · exact h
    · intro hne
      simp only [thunar_application_volman_watch_destroy, watch_udis, watch_idle_id] at hne ⊢
      left
      split
      · omega
      · rename_i hc
        intro h0
        exact hc ⟨h0, hne⟩

theorem run_not_stranded (events : List VolmanEvent) (application : ThunarApplication)
    (h : not_stranded application) : not_stranded (volman_run events application) := by
  induction events generalizing application with
  | nil => exact h
  | cons event events ih => exact ih _ (step_not_stranded event application h)

theorem run_append (events events' : List VolmanEvent) (application : ThunarApplication) :
    volman_run (events ++ events') application =
      volman_run events' (volman_run events application) := by
  induction events generalizing application with
  | nil => rfl
  | cons event events ih => exact ih _

theorem step_absent (event : VolmanEvent) (application : ThunarApplication) (udi : String)
    (hp : udi ∉ application.volman_udis) (he : event ≠ .uevent "add" udi) :
    udi ∉ (volman_step event application).1.volman_udis := by
  rcases step_udis_cases event application with ⟨new, hev, _, heq⟩ | ⟨_, hsub⟩
  · rw [heq]
    intro hmem
    rcases List.mem_cons.1 hmem with h | h
    · exact he (by rw [hev, h])
    · exact hp h
  · exact fun hmem => hp (hsub.subset hmem)

theorem step_spawn (event : VolmanEvent) (application : ThunarApplication)
    (argv : List String) (h : (volman_step event application).2 = some argv) :
    ∃ udi ∈ application.volman_udis, argv = ["thunar-volman", "--device-added", udi] := by
  cases event with
  | uevent action sysfs_path => simp [volman_step] at h
  | idle m ok =>
    simp only [volman_step] at h
    have hs : (thunar_application_volman_idle m ok application).spawned = some argv := by
      by_cases hi : application.volman_idle_id = 0
      · simp [hi] at h
      · simp only [hi, if_false] at h
        split at h <;> exact h
    rw [idle_spawned] at hs
    split at hs
    · cases hq : application.volman_udis with
      | nil => simp [hq] at hs
      | cons udi rest =>
        simp only [hq, List.head?_cons, Option.map_some', Option.some.injEq] at hs
        exact ⟨udi, by simp, hs.symm⟩
    · cases hs
  | child_exit =>
    simp only [volman_step] at h
    split at h <;> cases h

theorem spawns_absent (events : List VolmanEvent) (application : ThunarApplication)
    (udi : String) (hp : udi ∉ application.volman_udis)
    (hno : VolmanEvent.uevent "add" udi ∉ events) :
    ["thunar-volman", "--device-added", udi] ∉ volman_spawns events application := by
  induction events generalizing application with
  | nil => simp [volman_spawns]
  | cons event events ih =>
    have hne : event ≠ .uevent "add" udi := fun e => hno (by simp [e])
    have hno' : VolmanEvent.uevent "add" udi ∉ events := fun e => hno (by simp [e])
    simp only [volman_spawns, List.mem_append, not_or]
    refine ⟨?_, ih _ (step_absent event application udi hp hne) hno'⟩
    intro hmem
    rw [Option.mem_toList] at hmem
    obtain ⟨other, hother, heq⟩ := step_spawn event application _ hmem
    simp only [List.cons.injEq, and_true, true_and] at heq
    exact hp (heq ▸ hother)

theorem step_stamps_sorted (event : VolmanEvent) (application : ThunarApplication)
    (clock : Nat) (stamps : String → Nat) (h : stamps_sorted application clock stamps) :
    stamps_sorted (volman_step event application).1 (clock + 1)
      (volman_stamp event application clock stamps) := by
  obtain ⟨hpw, hle⟩ := h
  rcases step_udis_cases event application with ⟨new, hev, hnew, heq⟩ | ⟨hold, hsub⟩
  · have hst : volman_stamp event application clock stamps =
        fun udi => if udi = new then clock + 1 else stamps udi := by
      rw [hev]
      simp [volman_stamp, (g_slist_find_custom_none _ _).2 hnew]
    have hsame : ∀ x ∈ application.volman_udis,
        (fun udi => if udi = new then clock + 1 else stamps udi) x = stamps x := by
      intro x hx
      have : x ≠ new := fun e => hnew (e ▸ hx)
      simp [this]
    unfold stamps_sorted
    rw [heq, hst]
    refine ⟨List.pairwise_cons.2 ⟨?_, ?_⟩, ?_⟩
    · intro x hx
      have := hle x hx
      rw [hsame x hx]
      simp only [if_true]
      omega
    · refine hpw.imp_of_mem ?_
      intro a b ha hb hab
      rw [hsame a ha, hsame b hb]; exact hab
    · intro x hx
      rcases List.mem_cons.1 hx with h | h
      · simp [h]
      · rw [hsame x h]
        have := hle x h
        omega
  · have hst : volman_stamp event application clock stamps = stamps := by
      cases event with
      | uevent action sysfs_path =>
        simp only [volman_stamp]
        split
        · rename_i hc
          have hm := hold sysfs_path (by rw [hc.1])
          exact absurd hm ((g_slist_find_custom_none _ _).1 hc.2)
        · rfl
      | idle m ok => rfl
      | child_exit => rfl
    unfold stamps_sorted
    rw [hst]
    refine ⟨hpw.sublist hsub, ?_⟩
    intro x hx
    have := hle x (hsub.subset hx)
    omega

theorem run_stamps_sorted (events : List VolmanEvent) (application : ThunarApplication)
    (clock : Nat) (stamps : String → Nat) (h : stamps_sorted application clock stamps) :
    stamps_sorted (volman_run events application) (clock + events.length)
      (volman_insert_times events application clock stamps) := by
  induction events generalizing application clock stamps with
  | nil => exact h
  | cons event events ih =>
    have := ih _ _ _ (step_stamps_sorted event application clock stamps h)
    simp only [volman_run, volman_insert_times, List.length_cons]
    rw [show clock + (events.length + 1) = clock + 1 + events.length by omega]
    exact this

/-! ## Claims on the device event coalescer -/

/-- C1: in every state reached from the initial state by any sequence of
uevents, idle dispatches (any preference value, any spawn outcome) and handler
exits, each callback taken together with its destroy notification, the idle
handle and the watch handle are not both non-zero. -/
theorem C1_handles_never_both_active (events : List VolmanEvent) :
    ¬ ((volman_run events thunar_application_init).volman_idle_id ≠ 0 ∧
       (volman_run events thunar_application_init).volman_watch_id ≠ 0) :=
  run_one_handle events thunar_application_init (by simp [one_handle, thunar_application_init])

/-- C2: the pending list holds no device id twice: this is so initially, it is
kept by the uevent handler (whatever the action), by the idle callback, by the
child watch callback, by every step of the main loop, and hence it holds after
every sequence of events. -/
theorem C2_pending_queue_nodup :
    thunar_application_init.volman_udis.Nodup ∧
    (∀ application : ThunarApplication, application.volman_udis.Nodup →
      (∀ action sysfs_path,
        (thunar_application_uevent action sysfs_path application).volman_udis.Nodup) ∧
      (∀ m ok,
        (thunar_application_volman_idle m ok application).application.volman_udis.Nodup) ∧
      (thunar_application_volman_watch application).volman_udis.Nodup ∧
      (∀ event, (volman_step event application).1.volman_udis.Nodup)) ∧
    (∀ events, (volman_run events thunar_application_init).volman_udis.Nodup) := by
  refine ⟨by simp [thunar_application_init], ?_, ?_⟩
  · intro application h
    refine ⟨?_, ?_, ?_, ?_⟩
    · intro action sysfs_path
      exact step_nodup (.uevent action sysfs_path) application h
    · intro m ok
      rw [idle_udis]
      split
      · split
        · exact h.sublist (List.tail_sublist _)
        · exact h
      · exact List.nodup_nil
    · rw [watch_udis]; exact h
    · intro event
      exact step_nodup event application h
  · intro events
    exact run_nodup events _ (by simp [thunar_application_init])

/-- C2 at a concrete state: a second `add` of a pending id leaves the list
duplicate-free. -/
theorem C2_pending_queue_nodup_witness :
    (thunar_application_uevent "add" "/sys/b"
      { volman_udis := ["/sys/a", "/sys/b"], volman_idle_id := 1 }).volman_udis.Nodup :=
  ((C2_pending_queue_nodup.2.1 { volman_udis := ["/sys/a", "/sys/b"], volman_idle_id := 1 }
    (by decide)).1 "add" "/sys/b")

/-- C3: an id that gets a `remove` uevent is not pending afterwards, and no
later step spawns the handler for it as long as no later `add` uevent names it
again: for every sequence of events `before`, and every sequence `after`
without an `add` of that id, the argument vector for the id is not among the
spawns of `after`. An idle run only ever spawns for an id that was pending
when it started. -/
theorem C3_removed_id_never_spawned (before after : List VolmanEvent) (sysfs_path : String)
    (hno : VolmanEvent.uevent "add" sysfs_path ∉ after) :
    sysfs_path ∉
      (volman_run (before ++ [.uevent "remove" sysfs_path])
        thunar_application_init).volman_udis ∧
    ["thunar-volman", "--device-added", sysfs_path] ∉
      volman_spawns after
        (volman_run (before ++ [.uevent "remove" sysfs_path]) thunar_application_init) ∧
    (∀ (application : ThunarApplication) (m ok : Bool) (argv : List String),
      (thunar_application_volman_idle m ok application).spawned = some argv →
      ∃ udi ∈ application.volman_udis, argv = ["thunar-volman", "--device-added", udi]) := by
  have habs : sysfs_path ∉
      (volman_run (before ++ [.uevent "remove" sysfs_path])
        thunar_application_init).volman_udis := by
    rw [run_append]
    simp only [volman_run, volman_step, uevent_remove]
    exact List.Nodup.not_mem_erase
      (run_nodup before _ (by simp [thunar_application_init]))
  refine ⟨habs, spawns_absent after _ sysfs_path habs hno, ?_⟩
  intro application m ok argv h
  rw [idle_spawned] at h
  split at h
  · cases hq : application.volman_udis with
    | nil => simp [hq] at h
    | cons udi rest =>
      simp only [hq, List.head?_cons, Option.map_some', Option.some.injEq] at h
      exact ⟨udi, by simp, h.symm⟩
  · cases h

/-- C3 on a concrete run: `a` and `b` are added, `a` is removed while pending,
and the two dispatches that follow never spawn the handler for `a`. -/
theorem C3_removed_id_never_spawned_witness :
    "/sys/a" ∉
      (volman_run ([.uevent "add" "/sys/a", .uevent "add" "/sys/b"] ++
        [.uevent "remove" "/sys/a"]) thunar_application_init).volman_udis ∧
    ["thunar-volman", "--device-added", "/sys/a"] ∉
      volman_spawns [.idle true true, .child_exit, .idle true true]
        (volman_run ([.uevent "add" "/sys/a", .uevent "add" "/sys/b"] ++
          [.uevent "remove" "/sys/a"]) thunar_application_init) :=
  let h := C3_removed_id_never_spawned [.uevent "add" "/sys/a", .uevent "add" "/sys/b"]
    [.idle true true, .child_exit, .idle true true] "/sys/a" (by decide)
  ⟨h.1, h.2.1⟩

/-- C4: dispatch is last-in first-out. When the idle callback runs with volume
management enabled, no child watch set and the pending list `udi :: rest`, it
hands `["thunar-volman", "--device-added", udi]` to the spawn and leaves
exactly `rest` pending (whatever the spawn outcome); and in every state
reached from the initial one, the head `udi` was inserted into the list later
than every other pending id. -/
theorem C4_dispatch_is_lifo (events : List VolmanEvent) (ok : Bool)
    (udi : String) (rest : List String)
    (hw : (volman_run events thunar_application_init).volman_watch_id = 0)
    (hq : (volman_run events thunar_application_init).volman_udis = udi :: rest) :
    (thunar_application_volman_idle true ok
      (volman_run events thunar_application_init)).spawned =
        some ["thunar-volman", "--device-added", udi] ∧
    (thunar_application_volman_idle true ok
      (volman_run events thunar_application_init)).application.volman_udis = rest ∧
    (∀ other ∈ rest,
      volman_insert_times events thunar_application_init 0 (fun _ => 0) other <
        volman_insert_times events thunar_application_init 0 (fun _ => 0) udi) ∧
    (∀ application : ThunarApplication, application.volman_watch_id = 0 →
      application.volman_udis = udi :: rest →
      (thunar_application_volman_idle true ok application).spawned =
        some ["thunar-volman", "--device-added", udi] ∧
      (thunar_application_volman_idle true ok application).application.volman_udis = rest) := by
  have hgen : ∀ application : ThunarApplication, application.volman_watch_id = 0 →
      application.volman_udis = udi :: rest →
      (thunar_application_volman_idle true ok application).spawned =
        some ["thunar-volman", "--device-added", udi] ∧
      (thunar_application_volman_idle true ok application).application.volman_udis = rest := by
    intro application hw' hq'
    rw [idle_spawned, idle_udis]
    simp [hw', hq']
  have hs := run_stamps_sorted events thunar_application_init 0 (fun _ => 0)
    ⟨by simp [thunar_application_init], by simp [thunar_application_init]⟩
  refine ⟨(hgen _ hw hq).1, (hgen _ hw hq).2, ?_, hgen⟩
  have := hs.1
  rw [hq, List.pairwise_cons] at this
  exact this.1

/-- C4 on a concrete run: `a` is added, then `b`, then `a` once more (ignored,
`a` being pending); the dispatch takes `b`, the id inserted last. -/
theorem C4_dispatch_is_lifo_witness :
    (thunar_application_volman_idle true true
      (volman_run [.uevent "add" "/sys/a", .uevent "add" "/sys/b", .uevent "add" "/sys/a"]
        thunar_application_init)).spawned =
        some ["thunar-volman", "--device-added", "/sys/b"] ∧
    (thunar_application_volman_idle true true
      (volman_run [.uevent "add" "/sys/a", .uevent "add" "/sys/b", .uevent "add" "/sys/a"]
        thunar_application_init)).application.volman_udis = ["/sys/a"] :=
  let h := C4_dispatch_is_lifo
    [.uevent "add" "/sys/a", .uevent "add" "/sys/b", .uevent "add" "/sys/a"] true
    "/sys/b" ["/sys/a"] (by decide) (by decide)
  ⟨h.1, h.2.1⟩

/-- C5: when the preference is off at the time the idle callback runs, then
from every state the pending list is empty afterwards, nothing is spawned, no
source is attached (the watch handle and every other field keep their value)
and the callback returns `false`, "do not reschedule". -/
theorem C5_disabled_policy_clears_queue (ok : Bool) (application : ThunarApplication) :
    (thunar_application_volman_idle false ok application).application.volman_udis = [] ∧
    (thunar_application_volman_idle false ok application).spawned = none ∧
    (thunar_application_volman_idle false ok application).application =
      { application with volman_udis := [] } ∧
    (thunar_application_volman_idle false ok application).application.volman_watch_id =
      application.volman_watch_id ∧
    (thunar_application_volman_idle false ok application).keep = false := by
  simp [thunar_application_volman_idle]

/-- C6: the idle callback returns `true` ("reschedule") exactly when, after its
body, no child watch is set and the pending list is non-empty. When the spawn
fails (preference on, no watch set, list `udi :: rest`) the state afterwards is
the old one with `rest` pending: the popped id is not put back (and, the list
being duplicate-free, is no longer pending), no source is attached, the watch
handle stays `0`, and the callback returns `true` iff `rest` is non-empty. -/
theorem C6_reschedule_iff_idle_and_pending (m ok : Bool) (application : ThunarApplication) :
    ((thunar_application_volman_idle m ok application).keep = true ↔
      (thunar_application_volman_idle m ok application).application.volman_watch_id = 0 ∧
      (thunar_application_volman_idle m ok application).application.volman_udis ≠ []) ∧
    (∀ (udi : String) (rest : List String),
      application.volman_watch_id = 0 → application.volman_udis = udi :: rest →
      (thunar_application_volman_idle true false application).spawned =
        some ["thunar-volman", "--device-added", udi] ∧
      (thunar_application_volman_idle true false application).application =
        { application with volman_udis := rest } ∧
      (thunar_application_volman_idle true false application).application.volman_watch_id = 0 ∧
      ((thunar_application_volman_idle true false application).keep = true ↔ rest ≠ []) ∧
      (application.volman_udis.Nodup →
        udi ∉ (thunar_application_volman_idle true false application).application.volman_udis)) := by
  refine ⟨idle_keep m ok application, ?_⟩
  intro udi rest hw hq
  have happ : (thunar_application_volman_idle true false application).application =
      { application with volman_udis := rest } := by
    simp [thunar_application_volman_idle, hw, hq]
  refine ⟨by rw [idle_spawned]; simp [hw, hq], happ, by rw [happ]; exact hw, ?_, ?_⟩
  · rw [idle_keep, happ]
    simp [hw]
  · intro hnd
    rw [happ]
    rw [hq] at hnd
    exact (List.nodup_cons.1 hnd).1

/-- C6 at a concrete state: two ids pending, the spawn for the head fails; the
head is gone, the other id stays, and the task is rescheduled. -/
theorem C6_reschedule_iff_idle_and_pending_witness :
    (thunar_application_volman_idle true false
      { volman_udis := ["/sys/b", "/sys/a"], volman_idle_id := 1 }).application =
      { volman_udis := ["/sys/a"], volman_idle_id := 1 } ∧
    (thunar_application_volman_idle true false
      { volman_udis := ["/sys/b", "/sys/a"], volman_idle_id := 1 }).keep = true :=
  let h := (C6_reschedule_iff_idle_and_pending true false
    { volman_udis := ["/sys/b", "/sys/a"], volman_idle_id := 1 }).2 "/sys/b" ["/sys/a"] rfl rfl
  ⟨h.2.1, h.2.2.2.1.2 (by decide)⟩

/-- C7: the `add` uevent. For an id that is not pending, the id is put in front
of the pending list; if neither handle was set, the idle task is attached
(the idle handle gets the fresh, non-zero source id) and nothing else changes;
if a handle was set, only the list changes. For an id that is pending nothing
changes. And in every state reached from the initial one, after the `add` the
id is pending and one of the two handles is set. -/
theorem C7_add_inserts_front_and_schedules (sysfs_path : String)
    (application : ThunarApplication) :
    (sysfs_path ∉ application.volman_udis →
      (thunar_application_uevent "add" sysfs_path application).volman_udis =
        sysfs_path :: application.volman_udis ∧
      (application.volman_idle_id = 0 ∧ application.volman_watch_id = 0 →
        thunar_application_uevent "add" sysfs_path application =
          { application with
            volman_udis := sysfs_path :: application.volman_udis
            volman_idle_id := application.source_seq + 1
            source_seq := application.source_seq + 1 }) ∧
      (¬ (application.volman_idle_id = 0 ∧ application.volman_watch_id = 0) →
        thunar_application_uevent "add" sysfs_path application =
          { application with volman_udis := sysfs_path :: application.volman_udis })) ∧
    (sysfs_path ∈ application.volman_udis →
      thunar_application_uevent "add" sysfs_path application = application) ∧
    (∀ events : List VolmanEvent,
      sysfs_path ∈ (thunar_application_uevent "add" sysfs_path
        (volman_run events thunar_application_init)).volman_udis ∧
      ((thunar_application_uevent "add" sysfs_path
        (volman_run events thunar_application_init)).volman_idle_id ≠ 0 ∨
       (thunar_application_uevent "add" sysfs_path
        (volman_run events thunar_application_init)).volman_watch_id ≠ 0)) := by
  refine ⟨?_, uevent_add_old sysfs_path application, ?_⟩
  · intro hm
    refine ⟨by rw [uevent_udis]; simp [hm], ?_, ?_⟩
    · intro h0
      rw [uevent_add_new _ _ hm, if_pos h0]
    · intro h0
      rw [uevent_add_new _ _ hm, if_neg h0]
  · intro events
    have hmem : sysfs_path ∈ (thunar_application_uevent "add" sysfs_path
        (volman_run events thunar_application_init)).volman_udis := by
      rw [uevent_udis]
      by_cases hm : sysfs_path ∈ (volman_run events thunar_application_init).volman_udis
      · simp [hm]
      · simp [hm]
    refine ⟨hmem, ?_⟩
    have hns := step_not_stranded (.uevent "add" sysfs_path) _
      (run_not_stranded events thunar_application_init
        (by simp [not_stranded, thunar_application_init]))
    exact hns (List.ne_nil_of_mem hmem)

/-- C7 at a concrete state: a handler is running (watch set) and `b` arrives;
`b` goes in front and no idle task is attached. -/
theorem C7_add_inserts_front_and_schedules_witness :
    thunar_application_uevent "add" "/sys/b"
      { volman_udis := ["/sys/a"], volman_watch_id := 3, source_seq := 3 } =
      { volman_udis := ["/sys/b", "/sys/a"], volman_watch_id := 3, source_seq := 3 } :=
  ((C7_add_inserts_front_and_schedules "/sys/b"
    { volman_udis := ["/sys/a"], volman_watch_id := 3, source_seq := 3 }).1
      (by decide)).2.2 (by decide)

/-- C8: the `remove` uevent and the ignored actions. A `remove` changes nothing
but the pending list, which loses the first entry equal to the id while all
other entries keep their order: for a pending id the list splits as
`front ++ id :: back` with the id not in `front` and becomes `front ++ back`
(for a duplicate-free list: the list of all entries other than the id); for an
id that is not pending the state is unchanged. Both handles and the source
counter keep their value: nothing is scheduled or cancelled. Every action
other than `add` and `remove` leaves the state unchanged. -/
theorem C8_remove_only_deletes_id (action sysfs_path : String)
    (application : ThunarApplication) :
    thunar_application_uevent "remove" sysfs_path application =
      { application with volman_udis := application.volman_udis.erase sysfs_path } ∧
    (sysfs_path ∈ application.volman_udis →
      ∃ front back, application.volman_udis = front ++ sysfs_path :: back ∧
        sysfs_path ∉ front ∧
        (thunar_application_uevent "remove" sysfs_path application).volman_udis =
          front ++ back) ∧
    (application.volman_udis.Nodup →
      (thunar_application_uevent "remove" sysfs_path application).volman_udis =
        application.volman_udis.filter (fun udi => udi ≠ sysfs_path)) ∧
    (sysfs_path ∉ application.volman_udis →
      thunar_application_uevent "remove" sysfs_path application = application) ∧
    (thunar_application_uevent "remove" sysfs_path application).volman_idle_id =
      application.volman_idle_id ∧
    (thunar_application_uevent "remove" sysfs_path application).volman_watch_id =
      application.volman_watch_id ∧
    (thunar_application_uevent "remove" sysfs_path application).source_seq =
      application.source_seq ∧
    (action ≠ "add" → action ≠ "remove" →
      thunar_application_uevent action sysfs_path application = application) := by
  refine ⟨uevent_remove _ _, ?_, ?_, ?_, by rw [uevent_remove], by rw [uevent_remove],
    by rw [uevent_remove], uevent_other action sysfs_path application⟩
  · intro hm
    obtain ⟨front, back, hnf, hsplit, herase⟩ := List.exists_erase_eq hm
    exact ⟨front, back, hsplit, hnf, by rw [uevent_remove]; exact herase⟩
  · intro hnd
    rw [uevent_remove]
    simp only
    rw [List.Nodup.erase_eq_filter hnd]
    congr 1
    funext udi
    by_cases h : udi = sysfs_path <;> simp [h]
  · intro hm
    rw [uevent_remove, List.erase_of_not_mem hm]

/-- C8 at a concrete state: removing the middle one of three pending ids keeps
the other two in order and touches no handle. -/
theorem C8_remove_only_deletes_id_witness :
    thunar_application_uevent "remove" "/sys/b"
      { volman_udis := ["/sys/c", "/sys/b", "/sys/a"], volman_idle_id := 2, source_seq := 2 } =
      { volman_udis := ["/sys/c", "/sys/a"], volman_idle_id := 2, source_seq := 2 } ∧
    thunar_application_uevent "change" "/sys/b"
      { volman_udis := ["/sys/c", "/sys/b", "/sys/a"], volman_idle_id := 2, source_seq := 2 } =
      { volman_udis := ["/sys/c", "/sys/b", "/sys/a"], volman_idle_id := 2, source_seq := 2 } :=
  let h := C8_remove_only_deletes_id "change" "/sys/b"
    { volman_udis := ["/sys/c", "/sys/b", "/sys/a"], volman_idle_id := 2, source_seq := 2 }
  ⟨h.1.trans (by decide), h.2.2.2.2.2.2.2 (by decide) (by decide)⟩

/-! ## Facts about the launch queue -/

theorem foldl_append_queue (file_list queue : List ThunarFile) :
    file_list.foldl (fun queue file => queue ++ [file]) queue = queue ++ file_list := by
  induction file_list generalizing queue with
  | nil => simp
  | cons file file_list ih => simp [ih]

theorem launch_run_no_pokes (env : LaunchEnv) (outcomes : List PokeOutcome)
    (state : LaunchState) (h : state.pokes = []) :
    launch_run env (outcomes.map .poke_finished) state = state := by
  induction outcomes with
  | nil => rfl
  | cons outcome outcomes ih =>
    simp only [List.map_cons, launch_run, launch_step, h]
    exact ih

theorem launch_spec_log_cons (file : ThunarFile) (outcome : PokeOutcome)
    (entries : List (ThunarFile × PokeOutcome)) :
    launch_spec_log ((file, outcome) :: entries) =
      .poke_file file :: (launch_spec_log ((file, outcome) :: entries)).tail := by
  simp only [launch_spec_log]
  cases outcome.error with
  | none => simp
  | some error => by_cases hc : is_cancelled error = true <;> simp [hc]

theorem launch_spec_log_success (file : ThunarFile) (outcome : PokeOutcome)
    (entries : List (ThunarFile × PokeOutcome)) (he : outcome.error = none) :
    launch_spec_log ((file, outcome) :: entries) =
      .poke_file file :: .file_launch outcome.target_file :: launch_spec_log entries := by
  rw [launch_spec_log]
  simp only [he]

theorem finish_error (file : ThunarFile) (target_file : Option ThunarFile) (error : GError)
    (launch_error : Option GError) (application : ThunarApplication) :
    thunar_application_process_files_finish file target_file (some error) launch_error
        application =
      ({ application with files_to_launch := [] },
        if is_cancelled error then [] else [.show_error_file file error]) := by
  simp only [thunar_application_process_files_finish, is_cancelled]
  by_cases hd : error.domain = G_IO_ERROR <;> by_cases hc : error.code = G_IO_ERROR_CANCELLED <;>
    simp [hd, hc]

theorem finish_success (file : ThunarFile) (target_file : Option ThunarFile)
    (launch_error : Option GError) (application : ThunarApplication) :
    thunar_application_process_files_finish file target_file none launch_error application =
      ({ application with files_to_launch := application.files_to_launch.tail },
        .file_launch target_file ::
          (match application.files_to_launch.tail with
           | [] => []
           | next :: _ => [.poke_file next])) := by
  simp only [thunar_application_process_files_finish, thunar_application_process_files]
  cases h : application.files_to_launch.tail <;> simp [h]

/-- Draining a queue whose head is being poked: the pokes finish one by one
with the given outcomes, and the log grows by the specification's log (less
its first entry, the poke already started). -/
theorem launch_run_drain (env : LaunchEnv) (files : List ThunarFile) :
    ∀ (file : ThunarFile) (outcomes : List PokeOutcome) (application : ThunarApplication)
      (log : List LaunchEffect),
      outcomes.length = files.length + 1 →
      application.files_to_launch = file :: files →
      launch_run env (outcomes.map .poke_finished)
          { application := application, pokes := [file], log := log } =
        { application := { application with files_to_launch := [] }
          pokes := []
          log := log ++ (launch_spec_log ((file :: files).zip outcomes)).tail } := by
  induction files with
  | nil =>
    intro file outcomes application log hlen hq
    match outcomes, hlen with
    | [outcome], _ =>
      simp only [List.map_cons, List.map_nil, launch_run, launch_step, List.zip_cons_cons,
        List.zip_nil_right, launch_spec_log]
      cases he : outcome.error with
      | some error =>
        rw [finish_error]
        by_cases hc : is_cancelled error = true <;> simp [hc, started_pokes]
      | none =>
        rw [finish_success]
        simp [hq, started_pokes]
  | cons next files ih =>
    intro file outcomes application log hlen hq
    match outcomes, hlen with
    | outcome :: outcomes, hlen =>
      have hlen' : outcomes.length = files.length + 1 := by simpa using hlen
      simp only [List.map_cons, launch_run, launch_step, List.zip_cons_cons]
      cases he : outcome.error with
      | some error =>
        rw [finish_error]
        have hnil : started_pokes
            (if is_cancelled error = true then []
             else [LaunchEffect.show_error_file file error]) = [] := by
          by_cases hc : is_cancelled error = true <;> simp [hc, started_pokes]
        simp only [hnil, List.append_nil]
        rw [launch_run_no_pokes env outcomes _ rfl]
        simp only [launch_spec_log, he]
        by_cases hc : is_cancelled error = true <;> simp [hc]
      | none =>
        rw [finish_success]
        simp only [hq, List.tail_cons]
        simp only [started_pokes, List.nil_append]
        rw [ih next outcomes _ _ hlen' rfl]
        match outcomes, hlen' with
        | outcome' :: outcomes', _ =>
          rw [launch_spec_log_success _ _ _ he, List.tail_cons, List.zip_cons_cons]
          have h1 := launch_spec_log_cons next outcome' (files.zip outcomes')
          generalize launch_spec_log ((next, outcome') :: files.zip outcomes') = tailLog at h1 ⊢
          rw [h1]
          simp

theorem launched_targets_spec (entries : List (ThunarFile × PokeOutcome)) :
    launched_targets (launch_spec_log entries) =
      (resolved_entries entries).map (fun entry => entry.2.target_file) := by
  induction entries with
  | nil => rfl
  | cons entry entries ih =>
    obtain ⟨file, outcome⟩ := entry
    simp only [launch_spec_log, resolved_entries, List.takeWhile_cons]
    cases he : outcome.error with
    | some error =>
      by_cases hc : is_cancelled error = true <;> simp [hc, launched_targets]
    | none =>
      simp only [launched_targets, Option.isNone_none, if_true, List.map_cons]
      rw [ih]; rfl

theorem started_pokes_spec (entries : List (ThunarFile × PokeOutcome)) :
    started_pokes (launch_spec_log entries) =
      (entries.map (fun entry => entry.1)).take ((resolved_entries entries).length + 1) := by
  induction entries with
  | nil => rfl
  | cons entry entries ih =>
    obtain ⟨file, outcome⟩ := entry
    simp only [launch_spec_log, resolved_entries, List.takeWhile_cons]
    cases he : outcome.error with
    | some error =>
      by_cases hc : is_cancelled error = true <;> simp [hc, started_pokes]
    | none =>
      simp only [started_pokes, Option.isNone_none, if_true, List.map_cons, List.length_cons,
        List.take_succ_cons]
      rw [ih]; rfl

theorem shown_file_errors_spec (entries : List (ThunarFile × PokeOutcome)) :
    shown_file_errors (launch_spec_log entries) = surfaced_error entries := by
  induction entries with
  | nil => rfl
  | cons entry entries ih =>
    obtain ⟨file, outcome⟩ := entry
    simp only [launch_spec_log, surfaced_error, List.find?_cons]
    cases he : outcome.error with
    | some error =>
      by_cases hc : is_cancelled error = true <;> simp [hc, shown_file_errors, he]
    | none =>
      simp only [shown_file_errors, Option.isSome_none]
      rw [ih]; rfl

theorem launch_batch_final (env : LaunchEnv) (working_directory : String)
    (filenames : List String) (files : List ThunarFile) (outcomes : List PokeOutcome)
    (hres : process_filenames_collect env working_directory filenames [] = .ok files)
    (hlen : outcomes.length = files.length) :
    launch_run env
        (.process_filenames working_directory filenames :: outcomes.map .poke_finished) {} =
      { application := {}, pokes := [], log := launch_spec_log (files.zip outcomes) } := by
  simp only [launch_run, launch_step, thunar_application_process_filenames]
  by_cases hd : env.debug_checks = true ∧ filenames = []
  · rw [hd.2, process_filenames_collect] at hres
    injection hres with hres
    subst hres
    have : outcomes = [] := List.length_eq_zero.1 hlen
    subst this
    simp [hd, launch_run, started_pokes, launch_spec_log]
  · simp only [hd, if_false, hres, foldl_append_queue, List.nil_append]
    cases files with
    | nil =>
      have : outcomes = [] := List.length_eq_zero.1 hlen
      subst this
      simp [launch_run, started_pokes, launch_spec_log]
    | cons file files =>
      simp only [ne_eq, reduceCtorEq, not_false_eq_true, if_true,
        thunar_application_process_files, started_pokes, List.nil_append]
      rw [launch_run_drain env files file outcomes _ _ hlen rfl]
      match outcomes, hlen with
      | outcome :: outcomes, _ =>
        rw [List.zip_cons_cons, launch_spec_log_cons file outcome (files.zip outcomes)]
        simp

theorem collect_fails (env : LaunchEnv) (working_directory : String) (filenames : List String)
    (hfail : ∃ filename ∈ filenames, ∃ derror,
      process_filenames_lookup env working_directory filename = .error derror)
    (file_list : List ThunarFile) :
    ∃ filename derror,
      process_filenames_collect env working_directory filenames file_list =
        .error (filename, derror) ∧
      filename ∈ filenames ∧
      process_filenames_lookup env working_directory filename = .error derror := by
  induction filenames generalizing file_list with
  | nil =>
    obtain ⟨_, hmem, _⟩ := hfail
    cases hmem
  | cons first filenames ih =>
    cases hl : process_filenames_lookup env working_directory first with
    | error derror =>
      exact ⟨first, derror, by simp [process_filenames_collect, hl], by simp, hl⟩
    | ok file =>
      have hfail' : ∃ filename ∈ filenames, ∃ derror,
          process_filenames_lookup env working_directory filename = .error derror := by
        obtain ⟨filename, hmem, derror, he⟩ := hfail
        rcases List.mem_cons.1 hmem with h | h
        · rw [h, hl] at he; cases he
        · exact ⟨filename, h, derror, he⟩
      obtain ⟨filename, derror, hc, hmem, he⟩ := ih hfail' (file_list ++ [file])
      exact ⟨filename, derror, by simp [process_filenames_collect, hl, hc],
        List.mem_cons_of_mem _ hmem, he⟩

/-! ## Claims on the launch queue -/

/-- C9: one call of `thunar_application_process_filenames` on the empty queue,
for filenames that all name files `files`, followed by the completions of the
pokes with any outcomes. The collaborators are asked exactly what the
specification says; the targets opened are those of the entries before the
first entry whose resolve fails, in queue order; the pokes started are those
entries and the first failing one, no entry after it; the error shown is that
of the first failing entry, unless it is a cancellation; and at the end the
queue is empty and no poke is running. -/
theorem C9_launch_stops_at_first_failure (env : LaunchEnv) (working_directory : String)
    (filenames : List String) (files : List ThunarFile) (outcomes : List PokeOutcome)
    (hres : process_filenames_collect env working_directory filenames [] = .ok files)
    (hlen : outcomes.length = files.length) :
    (launch_run env
      (.process_filenames working_directory filenames :: outcomes.map .poke_finished) {}).log =
        launch_spec_log (files.zip outcomes) ∧
    launched_targets (launch_run env
      (.process_filenames working_directory filenames :: outcomes.map .poke_finished) {}).log =
        (resolved_entries (files.zip outcomes)).map (fun entry => entry.2.target_file) ∧
    started_pokes (launch_run env
      (.process_filenames working_directory filenames :: outcomes.map .poke_finished) {}).log =
        files.take ((resolved_entries (files.zip outcomes)).length + 1) ∧
    shown_file_errors (launch_run env
      (.process_filenames working_directory filenames :: outcomes.map .poke_finished) {}).log =
        surfaced_error (files.zip outcomes) ∧
    (launch_run env
      (.process_filenames working_directory filenames :: outcomes.map .poke_finished)
        {}).application.files_to_launch = [] ∧
    (launch_run env
      (.process_filenames working_directory filenames :: outcomes.map .poke_finished)
        {}).pokes = [] := by
  rw [launch_batch_final env working_directory filenames files outcomes hres hlen]
  refine ⟨rfl, launched_targets_spec _, ?_, shown_file_errors_spec _, rfl, rfl⟩
  rw [started_pokes_spec]
  have : (files.zip outcomes).map (fun entry => entry.1) = files := by
    rw [← List.unzip_fst, List.unzip_zip_left (le_of_eq hlen.symm)]
  rw [this]

/-- C9 on the example of the specification: `[A, B, C]` is enqueued and the
resolve of `B` fails; `A` is opened, the failure of `B` is shown, `C` is
neither resolved nor opened, and the queue ends empty. -/
theorem C9_launch_stops_at_first_failure_witness :
    (launch_run example_launch_env
      (.process_filenames "/home" ["/A", "/B", "/C"] ::
        [.poke_finished { target_file := some { uri := "/A" }, error := none,
                          launch_error := none },
         .poke_finished { target_file := none,
                          error := some { domain := G_IO_ERROR, code := 1,
                                          message := "not found" },
                          launch_error := none },
         .poke_finished { target_file := some { uri := "/C" }, error := none,
                          launch_error := none }]) {}).log =
      [.poke_file { uri := "/A" }, .file_launch (some { uri := "/A" }),
       .poke_file { uri := "/B" },
       .show_error_file { uri := "/B" }
          { domain := G_IO_ERROR, code := 1, message := "not found" }] :=
  (C9_launch_stops_at_first_failure example_launch_env "/home" ["/A", "/B", "/C"]
    [{ uri := "/A" }, { uri := "/B" }, { uri := "/C" }]
    [{ target_file := some { uri := "/A" }, error := none, launch_error := none },
     { target_file := none,
       error := some { domain := G_IO_ERROR, code := 1, message := "not found" },
       launch_error := none },
     { target_file := some { uri := "/C" }, error := none, launch_error := none }]
    rfl rfl).1.trans (by decide)

/-- C10: `thunar_application_process_filenames` is all-or-nothing. If one of the
filenames names no file, the call returns `false`; the error of the first such
filename is shown and, prefixed with "Failed to open", stored in the caller's
error location (when there is one); the application, and with it
`files_to_launch`, is what it was before the call; and the call starts no
poke and opens nothing. -/
theorem C10_process_filenames_all_or_nothing (env : LaunchEnv) (working_directory : String)
    (filenames : List String) (error_location : Bool) (application : ThunarApplication)
    (hfail : ∃ filename ∈ filenames, ∃ derror,
      process_filenames_lookup env working_directory filename = .error derror) :
    (thunar_application_process_filenames env working_directory filenames error_location
      application).result = false ∧
    (thunar_application_process_filenames env working_directory filenames error_location
      application).application = application ∧
    started_pokes (thunar_application_process_filenames env working_directory filenames
      error_location application).effects = [] ∧
    launched_targets (thunar_application_process_filenames env working_directory filenames
      error_location application).effects = [] ∧
    (error_location = true →
      (thunar_application_process_filenames env working_directory filenames error_location
        application).error.isSome = true) ∧
    (∃ filename derror, filename ∈ filenames ∧
      process_filenames_lookup env working_directory filename = .error derror ∧
      (thunar_application_process_filenames env working_directory filenames error_location
        application).effects = [.show_error_filename filename derror] ∧
      (thunar_application_process_filenames env working_directory filenames error_location
        application).error =
          if error_location then
            some { domain := derror.domain
                   code := derror.code
                   message := "Failed to open \"" ++ filename ++ "\": " ++ derror.message }
          else none) := by
  obtain ⟨filename, derror, hc, hmem, he⟩ := collect_fails env working_directory filenames hfail []
  have hne : ¬ (env.debug_checks = true ∧ filenames = []) := by
    rintro ⟨_, h⟩
    rw [h] at hmem
    cases hmem
  have hr : thunar_application_process_filenames env working_directory filenames
      error_location application =
      { application := application
        result := false
        error :=
          if error_location then
            some { domain := derror.domain
                   code := derror.code
                   message := "Failed to open \"" ++ filename ++ "\": " ++ derror.message }
          else none
        effects := [.show_error_filename filename derror] } := by
    simp only [thunar_application_process_filenames, hne, if_false, hc]
  rw [hr]
  refine ⟨rfl, rfl, rfl, rfl, ?_, filename, derror, hmem, he, rfl, rfl⟩
  intro h
  simp [h]

/-- C10 at a concrete call: of `/A`, `/missing`, `/C` the second names no file;
the call fails, the queue (one file waiting) is untouched, and only the error
dialog is asked for. -/
theorem C10_process_filenames_all_or_nothing_witness :
    (thunar_application_process_filenames example_launch_env "/home"
      ["/A", "/missing", "/C"] true { files_to_launch := [{ uri := "/Z" }] }).result = false ∧
    (thunar_application_process_filenames example_launch_env "/home"
      ["/A", "/missing", "/C"] true { files_to_launch := [{ uri := "/Z" }] }).application =
        { files_to_launch := [{ uri := "/Z" }] } ∧
    started_pokes (thunar_application_process_filenames example_launch_env "/home"
      ["/A", "/missing", "/C"] true { files_to_launch := [{ uri := "/Z" }] }).effects = [] :=
  let h := C10_process_filenames_all_or_nothing example_launch_env "/home"
    ["/A", "/missing", "/C"] true { files_to_launch := [{ uri := "/Z" }] }
    ⟨"/missing", by decide, _, rfl⟩
  ⟨h.1, h.2.1, h.2.2.1⟩

theorem collect_ok (env : LaunchEnv) (working_directory : String) (filenames : List String)
    (hres : ∀ filename ∈ filenames, ∃ file,
      process_filenames_lookup env working_directory filename = .ok file)
    (file_list : List ThunarFile) :
    ∃ files,
      process_filenames_collect env working_directory filenames file_list =
        .ok (file_list ++ files) ∧
      List.Forall₂
        (fun filename file => process_filenames_lookup env working_directory filename = .ok file)
        filenames files := by
  induction filenames generalizing file_list with
  | nil => exact ⟨[], by simp [process_filenames_collect], List.Forall₂.nil⟩
  | cons filename filenames ih =>
    obtain ⟨file, hfile⟩ := hres filename (by simp)
    obtain ⟨files, hc, hall⟩ :=
      ih (fun other hmem => hres other (List.mem_cons_of_mem _ hmem)) (file_list ++ [file])
    refine ⟨file :: files, ?_, List.Forall₂.cons hfile hall⟩
    simp [process_filenames_collect, hfile, hc]

theorem process_files_pokes_head (application : ThunarApplication) :
    thunar_application_process_files application =
      (application, (application.files_to_launch.head?.map LaunchEffect.poke_file).toList) := by
  unfold thunar_application_process_files
  cases application.files_to_launch <;> rfl

theorem process_filenames_ok (env : LaunchEnv) (working_directory : String)
    (filenames : List String) (error_location : Bool) (application : ThunarApplication)
    (files : List ThunarFile) (hd : ¬ (env.debug_checks = true ∧ filenames = []))
    (hc : process_filenames_collect env working_directory filenames [] = .ok files) :
    thunar_application_process_filenames env working_directory filenames error_location
        application =
      { application := { application with
          files_to_launch := application.files_to_launch ++ files }
        result := true
        error := none
        effects :=
          ((application.files_to_launch ++ files).head?.map LaunchEffect.poke_file).toList } := by
  simp only [thunar_application_process_filenames, hd, if_false, hc, foldl_append_queue]
  cases hq : application.files_to_launch ++ files with
  | nil => simp
  | cons file rest => simp [thunar_application_process_files, hq]

theorem step_queue_suffix (env : LaunchEnv) (event : LaunchEvent) (state : LaunchState) :
    (launch_step env event state).application.files_to_launch <:+
      state.application.files_to_launch ++ enqueued_files env [event] := by
  cases event with
  | process_filenames working_directory filenames =>
    simp only [launch_step, enqueued_files, List.append_nil]
    by_cases hd : env.debug_checks = true ∧ filenames = []
    · simp [thunar_application_process_filenames, hd]
    · simp only [hd, if_false]
      cases hc : process_filenames_collect env working_directory filenames [] with
      | ok files =>
        rw [process_filenames_ok env working_directory filenames true state.application files
          hd hc]
      | error failure =>
        obtain ⟨filename, derror⟩ := failure
        simp [thunar_application_process_filenames, hd, hc]
  | poke_finished outcome =>
    simp only [launch_step, enqueued_files, List.append_nil]
    cases hp : state.pokes with
    | nil => exact List.suffix_refl _
    | cons file pokes =>
      simp only
      cases he : outcome.error with
      | some error =>
        rw [finish_error]
        exact List.nil_suffix
      | none =>
        rw [finish_success]
        exact List.tail_suffix _

theorem enqueued_files_cons (env : LaunchEnv) (event : LaunchEvent)
    (events : List LaunchEvent) :
    enqueued_files env (event :: events) =
      enqueued_files env [event] ++ enqueued_files env events := by
  cases event <;> simp [enqueued_files]

theorem run_queue_suffix (env : LaunchEnv) (events : List LaunchEvent) (state : LaunchState) :
    (launch_run env events state).application.files_to_launch <:+
      state.application.files_to_launch ++ enqueued_files env events := by
  induction events generalizing state with
  | nil => simp [launch_run, enqueued_files]
  | cons event events ih =>
    obtain ⟨front, hfront⟩ := step_queue_suffix env event state
    obtain ⟨front', hfront'⟩ := ih (launch_step env event state)
    refine ⟨front ++ front', ?_⟩
    rw [enqueued_files_cons, launch_run, ← List.append_assoc state.application.files_to_launch,
      ← hfront, List.append_assoc, List.append_assoc, hfront']

/-- C11: when the batch is not empty and every filename names a file,
`thunar_application_process_filenames` returns `true`, sets no error, and the
queue becomes the old queue followed by the files of the batch in the order of
the filenames; nothing else changes. Entries are taken from the head: the
call, and `thunar_application_process_files` in any state, start a poke for the
head of the queue and for nothing else; a successful completion opens the
resolved target, removes the head and pokes the new head. So the queue is
first-in first-out within and across batches: after every sequence of calls
and completions it is the rear part of the sequence of all files enqueued. -/
theorem C11_enqueue_appends_in_order (env : LaunchEnv) (working_directory : String)
    (filenames : List String) (error_location : Bool) (application : ThunarApplication)
    (hne : filenames ≠ [])
    (hres : ∀ filename ∈ filenames, ∃ file,
      process_filenames_lookup env working_directory filename = .ok file) :
    (∃ files,
      List.Forall₂
        (fun filename file => process_filenames_lookup env working_directory filename = .ok file)
        filenames files ∧
      (thunar_application_process_filenames env working_directory filenames error_location
        application).result = true ∧
      (thunar_application_process_filenames env working_directory filenames error_location
        application).error = none ∧
      (thunar_application_process_filenames env working_directory filenames error_location
        application).application =
          { application with files_to_launch := application.files_to_launch ++ files } ∧
      (thunar_application_process_filenames env working_directory filenames error_location
        application).effects =
          ((application.files_to_launch ++ files).head?.map LaunchEffect.poke_file).toList) ∧
    (∀ queued : ThunarApplication,
      thunar_application_process_files queued =
        (queued, (queued.files_to_launch.head?.map LaunchEffect.poke_file).toList)) ∧
    (∀ (file : ThunarFile) (target_file : Option ThunarFile) (launch_error : Option GError)
      (queued : ThunarApplication),
      thunar_application_process_files_finish file target_file none launch_error queued =
        ({ queued with files_to_launch := queued.files_to_launch.tail },
          .file_launch target_file ::
            (queued.files_to_launch.tail.head?.map LaunchEffect.poke_file).toList)) ∧
    (∀ events : List LaunchEvent,
      (launch_run env events {}).application.files_to_launch <:+ enqueued_files env events) := by
  refine ⟨?_, process_files_pokes_head, ?_, ?_⟩
  · obtain ⟨files, hc, hall⟩ := collect_ok env working_directory filenames hres []
    have hd : ¬ (env.debug_checks = true ∧ filenames = []) := fun h => hne h.2
    rw [List.nil_append] at hc
    rw [process_filenames_ok env working_directory filenames error_location application files
      hd hc]
    exact ⟨files, hall, rfl, rfl, rfl, rfl⟩
  · intro file target_file launch_error queued
    rw [finish_success]
    cases queued.files_to_launch.tail <;> rfl
  · intro events
    simpa using run_queue_suffix env events {}

/-- C11 at a concrete call: `/Z` is waiting, `/A` and `/B` are enqueued behind it,
and the poke started is for `/Z`. -/
theorem C11_enqueue_appends_in_order_witness :
    (thunar_application_process_filenames example_launch_env "/home" ["/A", "/B"] true
      { files_to_launch := [{ uri := "/Z" }] }).application.files_to_launch =
      [{ uri := "/Z" }, { uri := "/A" }, { uri := "/B" }] ∧
    (thunar_application_process_filenames example_launch_env "/home" ["/A", "/B"] true
      { files_to_launch := [{ uri := "/Z" }] }).result = true :=
  ⟨by decide,
    (C11_enqueue_appends_in_order example_launch_env "/home" ["/A", "/B"] true
      { files_to_launch := [{ uri := "/Z" }] } (by decide)
      (by
        intro filename hmem
        simp only [List.mem_cons, List.mem_singleton, List.not_mem_nil, or_false] at hmem
        rcases hmem with h | h <;> subst h <;> exact ⟨_, rfl⟩)).1.elim
      (fun _ h => h.2.1)⟩

/-- C12, the code at work: `/A` is enqueued and its poke started; `/B` is enqueued
before that poke has finished, and the call starts a second poke for `/A`. Two
pokes are running. When all pokes have finished well, `/A` has been opened
twice. -/
theorem C12_second_batch_starts_second_poke :
    (launch_run example_launch_env
      [.process_filenames "/home" ["/A"], .process_filenames "/home" ["/B"]] {}).pokes =
        [{ uri := "/A" }, { uri := "/A" }] ∧
    launched_targets (launch_run example_launch_env
      [.process_filenames "/home" ["/A"], .process_filenames "/home" ["/B"],
       .poke_finished { target_file := some { uri := "/A" }, error := none,
                        launch_error := none },
       .poke_finished { target_file := some { uri := "/A" }, error := none,
                        launch_error := none },
       .poke_finished { target_file := some { uri := "/B" }, error := none,
                        launch_error := none }] {}).log =
        [some { uri := "/A" }, some { uri := "/A" }, some { uri := "/B" }] := by
  decide

/-- C13: a completion that carries an error, of whatever kind, leaves the queue
empty and nothing else changed, opens nothing and starts no poke. The error is
shown exactly when it is not the cancellation of the GIO domain: a
cancellation changes the state like any other failure and shows nothing. -/
theorem C13_error_discards_queue (file : ThunarFile) (target_file : Option ThunarFile)
    (error : GError) (launch_error : Option GError) (application : ThunarApplication) :
    (thunar_application_process_files_finish file target_file (some error) launch_error
      application).1 = { application with files_to_launch := [] } ∧
    launched_targets (thunar_application_process_files_finish file target_file (some error)
      launch_error application).2 = [] ∧
    started_pokes (thunar_application_process_files_finish file target_file (some error)
      launch_error application).2 = [] ∧
    (¬ (error.domain = G_IO_ERROR ∧ error.code = G_IO_ERROR_CANCELLED) →
      (thunar_application_process_files_finish file target_file (some error) launch_error
        application).2 = [.show_error_file file error]) ∧
    ((error.domain = G_IO_ERROR ∧ error.code = G_IO_ERROR_CANCELLED) →
      (thunar_application_process_files_finish file target_file (some error) launch_error
        application).2 = []) ∧
    (shown_file_errors (thunar_application_process_files_finish file target_file (some error)
      launch_error application).2 ≠ [] ↔
        ¬ (error.domain = G_IO_ERROR ∧ error.code = G_IO_ERROR_CANCELLED)) := by
  rw [finish_error]
  by_cases hc : error.domain = G_IO_ERROR ∧ error.code = G_IO_ERROR_CANCELLED
  · simp [is_cancelled, hc, launched_targets, started_pokes, shown_file_errors]
  · simp [is_cancelled, hc, launched_targets, started_pokes, shown_file_errors]

/-- C13 at concrete errors: a cancelled resolve empties the queue silently, a
failed one empties it and shows the error. -/
theorem C13_error_discards_queue_witness :
    thunar_application_process_files_finish { uri := "/A" } none
      (some { domain := G_IO_ERROR, code := G_IO_ERROR_CANCELLED, message := "cancelled" }) none
      { files_to_launch := [{ uri := "/A" }, { uri := "/B" }] } = ({}, []) ∧
    thunar_application_process_files_finish { uri := "/A" } none
      (some { domain := G_IO_ERROR, code := 1, message := "not found" }) none
      { files_to_launch := [{ uri := "/A" }, { uri := "/B" }] } =
      ({}, [.show_error_file { uri := "/A" }
              { domain := G_IO_ERROR, code := 1, message := "not found" }]) :=
  ⟨Prod.ext
      ((C13_error_discards_queue { uri := "/A" } none
        { domain := G_IO_ERROR, code := G_IO_ERROR_CANCELLED, message := "cancelled" } none
        { files_to_launch := [{ uri := "/A" }, { uri := "/B" }] }).1)
      ((C13_error_discards_queue { uri := "/A" } none
        { domain := G_IO_ERROR, code := G_IO_ERROR_CANCELLED, message := "cancelled" } none
        { files_to_launch := [{ uri := "/A" }, { uri := "/B" }] }).2.2.2.2.1 ⟨rfl, rfl⟩),
    by decide⟩

/-! ## Facts about the job launcher -/

theorem launch_active_jobs (launcher : Launcher) (source_file_list target_file_list : List GFile)
    (application : ThunarApplication) :
    active_jobs (thunar_application_launch launcher source_file_list target_file_list
      application).1 =
      active_jobs application ++ [launcher source_file_list target_file_list] := by
  unfold thunar_application_launch thunar_application_get_progress_dialog active_jobs
  cases hd : application.progress_dialog with
  | none =>
    by_cases ht : application.show_dialogs_timer_id = 0 <;>
      simp [ht, thunar_progress_dialog_has_jobs, thunar_progress_dialog_new,
        thunar_application_take_window, thunar_progress_dialog_add_job, g_source_attach]
  | some dialog =>
    cases hj : dialog.jobs <;> by_cases ht : application.show_dialogs_timer_id = 0 <;>
      simp [hj, ht, thunar_progress_dialog_has_jobs, thunar_progress_dialog_add_job,
        g_source_attach, thunar_application_show_dialogs, gtk_window_present]

theorem launch_effects (launcher : Launcher) (source_file_list target_file_list : List GFile)
    (application : ThunarApplication) :
    (thunar_application_launch launcher source_file_list target_file_list application).2 =
      if active_jobs application ≠ [] then
        [.job_created (launcher source_file_list target_file_list), .present]
      else if application.show_dialogs_timer_id = 0 then
        [.job_created (launcher source_file_list target_file_list),
         .timeout_add show_dialogs_delay (application.source_seq + 1)]
      else [.job_created (launcher source_file_list target_file_list)] := by
  unfold thunar_application_launch thunar_application_get_progress_dialog active_jobs
  cases hd : application.progress_dialog with
  | none =>
    by_cases ht : application.show_dialogs_timer_id = 0 <;>
      simp [ht, thunar_progress_dialog_has_jobs, thunar_progress_dialog_new,
        thunar_application_take_window, thunar_progress_dialog_add_job, g_source_attach]
  | some dialog =>
    cases hj : dialog.jobs <;> by_cases ht : application.show_dialogs_timer_id = 0 <;>
      simp [hj, ht, thunar_progress_dialog_has_jobs, thunar_progress_dialog_add_job,
        g_source_attach, thunar_application_show_dialogs, gtk_window_present]

theorem launch_timer_id (launcher : Launcher) (source_file_list target_file_list : List GFile)
    (application : ThunarApplication) :
    (thunar_application_launch launcher source_file_list target_file_list
      application).1.show_dialogs_timer_id =
      if active_jobs application = [] ∧ application.show_dialogs_timer_id = 0 then
        application.source_seq + 1
      else application.show_dialogs_timer_id := by
  unfold thunar_application_launch thunar_application_get_progress_dialog active_jobs
  cases hd : application.progress_dialog with
  | none =>
    by_cases ht : application.show_dialogs_timer_id = 0 <;>
      simp [ht, thunar_progress_dialog_has_jobs, thunar_progress_dialog_new,
        thunar_application_take_window, thunar_progress_dialog_add_job, g_source_attach]
  | some dialog =>
    cases hj : dialog.jobs <;> by_cases ht : application.show_dialogs_timer_id = 0 <;>
      simp [hj, ht, thunar_progress_dialog_has_jobs, thunar_progress_dialog_add_job,
        g_source_attach, thunar_application_show_dialogs, gtk_window_present]

theorem launch_visible (launcher : Launcher) (source_file_list target_file_list : List GFile)
    (application : ThunarApplication) :
    dialog_visible (thunar_application_launch launcher source_file_list target_file_list
      application).1 =
      if active_jobs application ≠ [] then true else dialog_visible application := by
  unfold thunar_application_launch thunar_application_get_progress_dialog active_jobs
    dialog_visible
  cases hd : application.progress_dialog with
  | none =>
    by_cases ht : application.show_dialogs_timer_id = 0 <;>
      simp [ht, thunar_progress_dialog_has_jobs, thunar_progress_dialog_new,
        thunar_application_take_window, thunar_progress_dialog_add_job, g_source_attach]
  | some dialog =>
    cases hj : dialog.jobs <;> by_cases ht : application.show_dialogs_timer_id = 0 <;>
      simp [hj, ht, thunar_progress_dialog_has_jobs, thunar_progress_dialog_add_job,
        g_source_attach, thunar_application_show_dialogs, gtk_window_present]

theorem launch_created_jobs (launcher : Launcher)
    (source_file_list target_file_list : List GFile) (application : ThunarApplication) :
    created_jobs (thunar_application_launch launcher source_file_list target_file_list
      application).2 = [launcher source_file_list target_file_list] := by
  rw [launch_effects]
  split
  · rfl
  · split <;> rfl

theorem launch_asked_questions (launcher : Launcher)
    (source_file_list target_file_list : List GFile) (application : ThunarApplication) :
    asked_questions (thunar_application_launch launcher source_file_list target_file_list
      application).2 = [] := by
  rw [launch_effects]
  split
  · rfl
  · split <;> rfl

theorem launch_shown_errors (launcher : Launcher)
    (source_file_list target_file_list : List GFile) (application : ThunarApplication) :
    shown_errors (thunar_application_launch launcher source_file_list target_file_list
      application).2 = [] := by
  rw [launch_effects]
  split
  · rfl
  · split <;> rfl

/-! ## Claims on the job launcher and the progress dialog -/

/-- C14: `thunar_application_launch` builds one job with the launcher and always
adds it to the shared progress dialog. What it does about visibility follows
from the dialog before the add. If the dialog had a job: the dialog is
presented once within the call, is visible afterwards, and the timer handle is
left alone. If it had none: the dialog is not presented, its visibility is as
before, and a show timer is pending when the call returns, namely the one the
call adds with a delay of 750 ms if none was pending, or else the pending
one. -/
theorem C14_launch_adds_job_and_decides_visibility (launcher : Launcher)
    (source_file_list target_file_list : List GFile) (application : ThunarApplication) :
    active_jobs (thunar_application_launch launcher source_file_list target_file_list
      application).1 =
      active_jobs application ++ [launcher source_file_list target_file_list] ∧
    created_jobs (thunar_application_launch launcher source_file_list target_file_list
      application).2 = [launcher source_file_list target_file_list] ∧
    (active_jobs application ≠ [] →
      count_presents (thunar_application_launch launcher source_file_list target_file_list
        application).2 = 1 ∧
      dialog_visible (thunar_application_launch launcher source_file_list target_file_list
        application).1 = true ∧
      (thunar_application_launch launcher source_file_list target_file_list
        application).1.show_dialogs_timer_id = application.show_dialogs_timer_id) ∧
    (active_jobs application = [] →
      count_presents (thunar_application_launch launcher source_file_list target_file_list
        application).2 = 0 ∧
      dialog_visible (thunar_application_launch launcher source_file_list target_file_list
        application).1 = dialog_visible application ∧
      (thunar_application_launch launcher source_file_list target_file_list
        application).1.show_dialogs_timer_id ≠ 0 ∧
      (application.show_dialogs_timer_id = 0 →
        (thunar_application_launch launcher source_file_list target_file_list application).2 =
          [.job_created (launcher source_file_list target_file_list),
           .timeout_add 750
            (thunar_application_launch launcher source_file_list target_file_list
              application).1.show_dialogs_timer_id]) ∧
      (application.show_dialogs_timer_id ≠ 0 →
        (thunar_application_launch launcher source_file_list target_file_list
          application).1.show_dialogs_timer_id = application.show_dialogs_timer_id)) := by
  refine ⟨launch_active_jobs _ _ _ _, launch_created_jobs _ _ _ _, ?_, ?_⟩
  · intro hj
    rw [launch_effects, launch_visible, launch_timer_id]
    simp [hj, count_presents]
  · intro hj
    rw [launch_effects, launch_visible, launch_timer_id]
    by_cases ht : application.show_dialogs_timer_id = 0
    · simp [hj, ht, count_presents, show_dialogs_delay]
    · simp [hj, ht, count_presents]

/-- C14 at concrete states: the first launch adds the job without presenting and
sets the timer; a launch into a dialog that has a job presents at once. -/
theorem C14_launch_adds_job_and_decides_visibility_witness :
    (thunar_application_launch thunar_io_jobs_copy_files [{ uri := "/a" }] [{ uri := "/b" }]
      {}).2 =
      [.job_created (thunar_io_jobs_copy_files [{ uri := "/a" }] [{ uri := "/b" }]),
       .timeout_add 750 1] ∧
    count_presents (thunar_application_launch thunar_io_jobs_copy_files [{ uri := "/c" }]
      [{ uri := "/d" }]
      (thunar_application_launch thunar_io_jobs_copy_files [{ uri := "/a" }] [{ uri := "/b" }]
        {}).1).2 = 1 :=
  ⟨((C14_launch_adds_job_and_decides_visibility thunar_io_jobs_copy_files [{ uri := "/a" }]
      [{ uri := "/b" }] {}).2.2.2 rfl).2.2.2.1 rfl,
    ((C14_launch_adds_job_and_decides_visibility thunar_io_jobs_copy_files [{ uri := "/c" }]
      [{ uri := "/d" }]
      (thunar_application_launch thunar_io_jobs_copy_files [{ uri := "/a" }] [{ uri := "/b" }]
        {}).1).2.2.1 (by decide)).1⟩

theorem window_destroyed_fst (window : GtkWindow) (application : ThunarApplication) :
    (thunar_application_window_destroyed window application).1 =
      { application with windows := application.windows.erase window } := by
  simp only [thunar_application_window_destroyed]
  split <;> rfl

theorem step_hidden_job_has_timer (event : ProgressEvent) (application : ThunarApplication)
    (h : hidden_job_has_timer application) :
    hidden_job_has_timer (progress_step event application).1 := by
  unfold hidden_job_has_timer at h ⊢
  cases event with
  | launch launcher source_file_list target_file_list =>
    simp only [progress_step]
    rw [launch_visible, launch_timer_id]
    intro _ hv
    by_cases hj : active_jobs application = []
    · by_cases ht : application.show_dialogs_timer_id = 0
      · simp [hj, ht]
      · simp [hj, ht]
    · simp [hj] at hv
  | show_timeout =>
    simp only [progress_step]
    by_cases ht : application.show_dialogs_timer_id = 0
    · simp only [ht, if_true]
      intro hj hv
      exact absurd ht (h hj hv)
    · simp only [ht, if_false]
      cases hd : application.progress_dialog with
      | none =>
        simp [thunar_application_show_dialogs, hd, thunar_application_show_dialogs_destroy,
          active_jobs]
      | some dialog =>
        simp [thunar_application_show_dialogs, hd, thunar_application_show_dialogs_destroy,
          active_jobs, dialog_visible, gtk_window_present]
  | job_finished job =>
    simp only [progress_step]
    cases hd : application.progress_dialog with
    | none => simpa [hd] using h
    | some dialog =>
      simp only
      by_cases hgone : (dialog.jobs.erase job = [] ∧ dialog.visible = false)
      · simp only [thunar_progress_dialog_job_finished, hgone, and_self, if_true,
          window_destroyed_fst]
        simp [active_jobs]
      · simp only [thunar_progress_dialog_job_finished, hgone, if_false]
        intro hj hv
        simp only [active_jobs, dialog_visible] at hj hv
        have hj0 : dialog.jobs ≠ [] := by
          intro h0
          rw [h0] at hj
          exact hj rfl
        exact h (by simp [active_jobs, hd, hj0]) (by simp [dialog_visible, hd, hv])

theorem run_hidden_job_has_timer (events : List ProgressEvent)
    (application : ThunarApplication) (h : hidden_job_has_timer application) :
    hidden_job_has_timer (progress_run events application) := by
  induction events generalizing application with
  | nil => exact h
  | cons event events ih => exact ih _ (step_hidden_job_has_timer event application h)

/-- C15, as stated, fails: a first launch sets the show timer, a second launch
finds a job in the dialog and presents it at once; now the timer handle is
non-zero although the dialog is visible. -/
theorem C15_timer_pending_although_visible :
    ¬ ((progress_run
          [.launch thunar_io_jobs_copy_files [{ uri := "/a" }] [{ uri := "/b" }],
           .launch thunar_io_jobs_copy_files [{ uri := "/c" }] [{ uri := "/d" }]]
          thunar_application_init).show_dialogs_timer_id ≠ 0 ↔
        (active_jobs (progress_run
          [.launch thunar_io_jobs_copy_files [{ uri := "/a" }] [{ uri := "/b" }],
           .launch thunar_io_jobs_copy_files [{ uri := "/c" }] [{ uri := "/d" }]]
          thunar_application_init) ≠ [] ∧
         dialog_visible (progress_run
          [.launch thunar_io_jobs_copy_files [{ uri := "/a" }] [{ uri := "/b" }],
           .launch thunar_io_jobs_copy_files [{ uri := "/c" }] [{ uri := "/d" }]]
          thunar_application_init) = false)) := by
  decide

/-- C15, amended: in every state reached from the initial one by launches,
firings of the show timer and ends of jobs, if the progress dialog holds a job
and is not visible, then the handle of the show timer is non-zero. -/
theorem C15_hidden_job_has_timer_pending (events : List ProgressEvent)
    (hjob : active_jobs (progress_run events thunar_application_init) ≠ [])
    (hhidden : dialog_visible (progress_run events thunar_application_init) = false) :
    (progress_run events thunar_application_init).show_dialogs_timer_id ≠ 0 :=
  run_hidden_job_has_timer events thunar_application_init
    (by intro h; exact absurd rfl h) hjob hhidden

/-- C15, amended, on a concrete run: after one launch the job waits in a dialog
that is not visible, and the timer is pending. -/
theorem C15_hidden_job_has_timer_pending_witness :
    (progress_run [.launch thunar_io_jobs_copy_files [{ uri := "/a" }] [{ uri := "/b" }]]
      thunar_application_init).show_dialogs_timer_id ≠ 0 :=
  C15_hidden_job_has_timer_pending
    [.launch thunar_io_jobs_copy_files [{ uri := "/a" }] [{ uri := "/b" }]]
    (by decide) (by decide)

theorem launch_idle_dialog (launcher : Launcher)
    (source_file_list target_file_list : List GFile) (application : ThunarApplication)
    (hidle : active_jobs application = []) :
    (thunar_application_launch launcher source_file_list target_file_list
      application).1.progress_dialog =
      some { jobs := [launcher source_file_list target_file_list]
             visible := dialog_visible application } := by
  unfold thunar_application_launch thunar_application_get_progress_dialog
  unfold active_jobs at hidle
  unfold dialog_visible
  cases hd : application.progress_dialog with
  | none =>
    by_cases ht : application.show_dialogs_timer_id = 0 <;>
      simp [ht, thunar_progress_dialog_has_jobs, thunar_progress_dialog_new,
        thunar_application_take_window, thunar_progress_dialog_add_job, g_source_attach]
  | some dialog =>
    rw [hd] at hidle
    simp only at hidle
    by_cases ht : application.show_dialogs_timer_id = 0 <;>
      simp [hidle, ht, thunar_progress_dialog_has_jobs, thunar_progress_dialog_add_job,
        g_source_attach]

theorem timeouts_without_dialog (later : Nat) (application : ThunarApplication)
    (hd : application.progress_dialog = none) :
    count_presents (progress_effects (List.replicate later .show_timeout) application) = 0 ∧
    (progress_run (List.replicate later .show_timeout) application).progress_dialog = none := by
  induction later generalizing application with
  | zero => exact ⟨rfl, hd⟩
  | succ later ih =>
    simp only [List.replicate_succ, progress_effects, progress_run, progress_step]
    by_cases ht : application.show_dialogs_timer_id = 0
    · simp only [ht, if_true, List.nil_append]
      exact ih application hd
    · simp only [ht, if_false, thunar_application_show_dialogs, hd, Bool.false_eq_true,
        if_false, List.nil_append]
      exact ih _ (by simp [thunar_application_show_dialogs_destroy, hd])

theorem timeouts_without_timer (later : Nat) (application : ThunarApplication)
    (ht : application.show_dialogs_timer_id = 0) :
    count_presents (progress_effects (List.replicate later .show_timeout) application) = 0 := by
  induction later with
  | zero => rfl
  | succ later ih =>
    simp only [List.replicate_succ, progress_effects, progress_step, ht, if_true,
      List.nil_append]
    exact ih

theorem count_presents_append (effects effects' : List AppEffect) :
    count_presents (effects ++ effects') = count_presents effects + count_presents effects' := by
  induction effects with
  | nil => simp [count_presents]
  | cons effect effects ih =>
    cases effect <;> simp [count_presents, ih]
    omega

theorem progress_effects_append (events events' : List ProgressEvent)
    (application : ThunarApplication) :
    progress_effects (events ++ events') application =
      progress_effects events application ++
        progress_effects events' (progress_run events application) := by
  induction events generalizing application with
  | nil => rfl
  | cons event events ih => simp [progress_effects, progress_run, ih]

theorem progress_run_append (events events' : List ProgressEvent)
    (application : ThunarApplication) :
    progress_run (events ++ events') application =
      progress_run events' (progress_run events application) := by
  induction events generalizing application with
  | nil => rfl
  | cons event events ih => exact ih _

/-- C16: a job is launched into a progress dialog without jobs. If the dialog was
not visible and the job, being the only one, ends before the show timer fires,
the dialog is never presented: it is gone with the job, and neither the firing
of the timer nor any later one presents anything. If the timer fires before
the job ends, the dialog is presented exactly once, whatever number of timer
events follow. -/
theorem C16_short_job_never_shown (launcher : Launcher)
    (source_file_list target_file_list : List GFile) (application : ThunarApplication)
    (later : Nat) (hidle : active_jobs application = []) :
    (dialog_visible application = false →
      count_presents (progress_effects
        ([.launch launcher source_file_list target_file_list,
          .job_finished (launcher source_file_list target_file_list)] ++
          List.replicate later .show_timeout) application) = 0 ∧
      (progress_run
        ([.launch launcher source_file_list target_file_list,
          .job_finished (launcher source_file_list target_file_list)] ++
          List.replicate later .show_timeout) application).progress_dialog = none) ∧
    count_presents (progress_effects
      ([.launch launcher source_file_list target_file_list,
        .show_timeout,
        .job_finished (launcher source_file_list target_file_list)] ++
        List.replicate later .show_timeout) application) = 1 := by
  have hdlg := launch_idle_dialog launcher source_file_list target_file_list application hidle
  have heff := launch_effects launcher source_file_list target_file_list application
  have htim := launch_timer_id launcher source_file_list target_file_list application
  have hpres : count_presents
      (thunar_application_launch launcher source_file_list target_file_list application).2 = 0 := by
    rw [heff]
    by_cases ht : application.show_dialogs_timer_id = 0 <;> simp [hidle, ht, count_presents]
  have htne : (thunar_application_launch launcher source_file_list target_file_list
      application).1.show_dialogs_timer_id ≠ 0 := by
    rw [htim]
    by_cases ht : application.show_dialogs_timer_id = 0 <;> simp [hidle, ht]
  constructor
  · intro hnv
    rw [hnv] at hdlg
    have hgone : (progress_run
        [.launch launcher source_file_list target_file_list,
         .job_finished (launcher source_file_list target_file_list)]
        application).progress_dialog = none := by
      simp [progress_run, progress_step, hdlg, thunar_progress_dialog_job_finished,
        window_destroyed_fst]
    have hquiet : count_presents (progress_effects
        [.launch launcher source_file_list target_file_list,
         .job_finished (launcher source_file_list target_file_list)] application) = 0 := by
      simp only [progress_effects, progress_step, hdlg, thunar_progress_dialog_job_finished,
        List.append_nil, count_presents_append, hpres]
      simp [thunar_application_window_destroyed]
      split <;> simp [count_presents]
    rw [progress_effects_append, progress_run_append, count_presents_append, hquiet]
    have := timeouts_without_dialog later _ hgone
    exact ⟨by rw [this.1], this.2⟩
  · have hfired : (progress_run
        [.launch launcher source_file_list target_file_list, .show_timeout,
         .job_finished (launcher source_file_list target_file_list)]
        application).show_dialogs_timer_id = 0 := by
      simp only [progress_run, progress_step, htne, if_false, thunar_application_show_dialogs,
        hdlg, Bool.false_eq_true, thunar_application_show_dialogs_destroy,
        thunar_progress_dialog_job_finished, gtk_window_present]
      simp
    have honce : count_presents (progress_effects
        [.launch launcher source_file_list target_file_list, .show_timeout,
         .job_finished (launcher source_file_list target_file_list)] application) = 1 := by
      simp only [progress_effects, progress_step, htne, if_false,
        thunar_application_show_dialogs, hdlg, Bool.false_eq_true,
        thunar_application_show_dialogs_destroy, thunar_progress_dialog_job_finished,
        gtk_window_present, count_presents_append, hpres]
      simp [count_presents]
    rw [progress_effects_append, count_presents_append, honce,
      timeouts_without_timer later _ hfired]

/-- C16 on concrete runs from the initial state: a job that ends before the timer
fires leaves no dialog and nothing is presented; a job that ends after the
timer has fired is presented once. -/
theorem C16_short_job_never_shown_witness :
    count_presents (progress_effects
      ([.launch thunar_io_jobs_copy_files [{ uri := "/a" }] [{ uri := "/b" }],
        .job_finished (thunar_io_jobs_copy_files [{ uri := "/a" }] [{ uri := "/b" }])] ++
        List.replicate 1 .show_timeout) thunar_application_init) = 0 ∧
    count_presents (progress_effects
      ([.launch thunar_io_jobs_copy_files [{ uri := "/a" }] [{ uri := "/b" }],
        .show_timeout,
        .job_finished (thunar_io_jobs_copy_files [{ uri := "/a" }] [{ uri := "/b" }])] ++
        List.replicate 1 .show_timeout) thunar_application_init) = 1 :=
  let h := C16_short_job_never_shown thunar_io_jobs_copy_files [{ uri := "/a" }]
    [{ uri := "/b" }] thunar_application_init 1 rfl
  ⟨(h.1 rfl).1, h.2⟩

/-! ## Facts about the operation catalog -/

theorem collect_no_root (env : CatalogEnv) (target_file : GFile) (files : List GFile)
    (target_file_list : List GFile)
    (h : ∀ file ∈ files, env.thunar_g_file_is_root file = false) :
    collect_target_files env target_file files target_file_list =
      .ok (files.reverse.map
        (fun file => env.g_file_resolve_relative_path target_file
          (env.g_file_get_basename file)) ++ target_file_list) := by
  induction files generalizing target_file_list with
  | nil => simp [collect_target_files]
  | cons file files ih =>
    have hf := h file (by simp)
    simp only [collect_target_files, hf, Bool.false_eq_true, if_false]
    rw [ih _ (fun other hmem => h other (List.mem_cons_of_mem _ hmem))]
    simp

theorem collect_and_launch_jobs (env : CatalogEnv) (launcher : Launcher)
    (source_file_list : List GFile) (target_file : GFile) (application : ThunarApplication) :
    created_jobs (thunar_application_collect_and_launch env launcher source_file_list
      target_file application).2 = [] ∨
    ∃ target_file_list,
      created_jobs (thunar_application_collect_and_launch env launcher source_file_list
        target_file application).2 = [launcher source_file_list target_file_list] := by
  unfold thunar_application_collect_and_launch
  by_cases hs : source_file_list = []
  · left; simp [hs, created_jobs]
  · simp only [hs, if_false]
    cases hc : collect_target_files env target_file source_file_list.reverse [] with
    | error err => left; simp [created_jobs]
    | ok target_file_list =>
      right
      exact ⟨target_file_list, launch_created_jobs _ _ _ _⟩

theorem unlink_collect_eq (env : CatalogEnv) (files : List ThunarFile) (path_list : List GFile)
    (permanently : Bool) (n_path_list : Nat) :
    unlink_collect env files (path_list, permanently, n_path_list) =
      (files.reverse.map env.thunar_file_get_file ++ path_list,
        permanently || files.any (fun file => !env.thunar_file_is_local file),
        n_path_list + files.length) := by
  induction files generalizing path_list permanently n_path_list with
  | nil => simp [unlink_collect]
  | cons file files ih =>
    simp only [unlink_collect]
    rw [ih]
    cases hl : env.thunar_file_is_local file <;> cases permanently <;>
      simp [hl, Nat.add_assoc, Nat.add_comm 1]

theorem unlink_files_eq (env : CatalogEnv) (shift_held : Bool) (response : Int)
    (file_list : List ThunarFile) (application : ThunarApplication) (hne : file_list ≠ []) :
    thunar_application_unlink_files env shift_held response file_list application =
      if (shift_held || file_list.any (fun file => !env.thunar_file_is_local file)) = true then
        if response = GTK_RESPONSE_YES then
          ((thunar_application_launch unlink_stub (file_list.map env.thunar_file_get_file)
              (file_list.map env.thunar_file_get_file) application).1,
            .question (unlink_message env file_list file_list.length) ::
              (thunar_application_launch unlink_stub (file_list.map env.thunar_file_get_file)
                (file_list.map env.thunar_file_get_file) application).2)
        else (application, [.question (unlink_message env file_list file_list.length)])
      else thunar_application_trash env (file_list.map env.thunar_file_get_file) application := by
  have hlen : file_list.length ≠ 0 := fun h => hne (List.length_eq_zero.1 h)
  unfold thunar_application_unlink_files
  rw [unlink_collect_eq]
  simp only [List.reverse_reverse, List.append_nil, List.length_reverse, Nat.zero_add,
    List.any_reverse, hlen, if_false]

theorem restore_collect_ok (env : CatalogEnv) (files : List ThunarFile)
    (source_path_list target_path_list : List GFile)
    (h : ∀ file ∈ files, env.thunar_file_get_original_path file ≠ none) :
    ∃ targets,
      restore_collect env files source_path_list target_path_list =
        .ok (source_path_list ++ files.map env.thunar_file_get_file,
          target_path_list ++ targets) ∧
      List.Forall₂
        (fun file target => ∃ original_uri,
          env.thunar_file_get_original_path file = some original_uri ∧
          target = env.g_file_new_for_commandline_arg original_uri)
        files targets := by
  induction files generalizing source_path_list target_path_list with
  | nil => exact ⟨[], by simp [restore_collect], List.Forall₂.nil⟩
  | cons file files ih =>
    cases ho : env.thunar_file_get_original_path file with
    | none => exact absurd ho (h file (by simp))
    | some original_uri =>
      obtain ⟨targets, hc, hall⟩ :=
        ih (source_path_list ++ [env.thunar_file_get_file file])
          (target_path_list ++ [env.g_file_new_for_commandline_arg original_uri])
          (fun other hmem => h other (List.mem_cons_of_mem _ hmem))
      refine ⟨env.g_file_new_for_commandline_arg original_uri :: targets, ?_,
        List.Forall₂.cons ⟨original_uri, ho, rfl⟩ hall⟩
      simp [restore_collect, ho, hc]

theorem restore_collect_missing (env : CatalogEnv) (front : List ThunarFile)
    (file : ThunarFile) (back : List ThunarFile) (source_path_list target_path_list : List GFile)
    (hfront : ∀ other ∈ front, env.thunar_file_get_original_path other ≠ none)
    (hfile : env.thunar_file_get_original_path file = none) :
    restore_collect env (front ++ file :: back) source_path_list target_path_list =
      .error (file,
        { domain := G_FILE_ERROR
          code := G_FILE_ERROR_INVAL
          message := "Failed to determine the original path for \"" ++
            env.thunar_file_get_display_name file ++ "\"" }) := by
  induction front generalizing source_path_list target_path_list with
  | nil => simp [restore_collect, hfile]
  | cons other front ih =>
    cases ho : env.thunar_file_get_original_path other with
    | none => exact absurd ho (hfront other (by simp))
    | some original_uri =>
      simp only [List.cons_append, restore_collect, ho]
      exact ih _ _ (fun another hmem => hfront another (List.mem_cons_of_mem _ hmem))

theorem first_missing_original (env : CatalogEnv) (files : List ThunarFile)
    (h : ∃ file ∈ files, env.thunar_file_get_original_path file = none) :
    ∃ front file back, files = front ++ file :: back ∧
      (∀ other ∈ front, env.thunar_file_get_original_path other ≠ none) ∧
      env.thunar_file_get_original_path file = none := by
  induction files with
  | nil =>
    obtain ⟨_, hmem, _⟩ := h
    cases hmem
  | cons first files ih =>
    cases ho : env.thunar_file_get_original_path first with
    | none => exact ⟨[], first, files, rfl, by simp, ho⟩
    | some original_uri =>
      have h' : ∃ file ∈ files, env.thunar_file_get_original_path file = none := by
        obtain ⟨file, hmem, hfile⟩ := h
        rcases List.mem_cons.1 hmem with heq | hmem'
        · rw [heq, ho] at hfile; cases hfile
        · exact ⟨file, hmem', hfile⟩
      obtain ⟨front, file, back, hsplit, hfront, hfile⟩ := ih h'
      refine ⟨first :: front, file, back, by rw [hsplit]; rfl, ?_, hfile⟩
      intro other hmem
      rcases List.mem_cons.1 hmem with heq | hmem'
      · rw [heq, ho]; simp
      · exact hfront other hmem'

/-! ## Claims on the operation catalog -/

/-- C17: `thunar_application_move_into`. When the target is the trash, no job is
built by the move constructor, and for a non-empty source list exactly one
job is built, by the trash constructor, from the source list as given. When
the target is not the trash, no job is built by any constructor but the move
constructor, and for a non-empty source list without a root node exactly one
job is built by it, from the source list and the targets resolved in the
target directory. -/
theorem C17_move_into_trash_redirects (env : CatalogEnv) (source_file_list : List GFile)
    (target_file : GFile) (application : ThunarApplication) :
    (env.thunar_g_file_is_trashed target_file = true →
      (∀ job ∈ created_jobs (thunar_application_move_into env source_file_list target_file
        application).2, job.constructor ≠ .move_files) ∧
      (source_file_list ≠ [] →
        created_jobs (thunar_application_move_into env source_file_list target_file
          application).2 = [thunar_io_jobs_trash_files source_file_list])) ∧
    (env.thunar_g_file_is_trashed target_file = false →
      (∀ job ∈ created_jobs (thunar_application_move_into env source_file_list target_file
        application).2, job.constructor = .move_files) ∧
      (source_file_list ≠ [] →
        (∀ file ∈ source_file_list, env.thunar_g_file_is_root file = false) →
        created_jobs (thunar_application_move_into env source_file_list target_file
          application).2 =
          [thunar_io_jobs_move_files source_file_list
            (source_file_list.map (fun file =>
              env.g_file_resolve_relative_path target_file
                (env.g_file_get_basename file)))])) := by
  constructor
  · intro ht
    simp only [thunar_application_move_into, ht, if_true, thunar_application_trash]
    by_cases hd : env.debug_checks = true ∧ source_file_list = []
    · simp [hd, created_jobs]
    · simp only [hd, if_false, launch_created_jobs]
      refine ⟨?_, fun _ => rfl⟩
      intro job hmem
      rw [List.mem_singleton] at hmem
      rw [hmem]
      simp [trash_stub, thunar_io_jobs_trash_files]
  · intro ht
    simp only [thunar_application_move_into, ht, Bool.false_eq_true, if_false]
    constructor
    · intro job hmem
      rcases collect_and_launch_jobs env thunar_io_jobs_move_files source_file_list target_file
        application with h | ⟨targets, h⟩
      · rw [h] at hmem; cases hmem
      · rw [h, List.mem_singleton] at hmem
        rw [hmem]; rfl
    · intro hne hroot
      have hroot' : ∀ file ∈ source_file_list.reverse,
          env.thunar_g_file_is_root file = false :=
        fun file hmem => hroot file (List.mem_reverse.1 hmem)
      simp only [thunar_application_collect_and_launch, hne, if_false,
        collect_no_root env target_file _ [] hroot', List.reverse_reverse, List.append_nil,
        launch_created_jobs]

/-- C17 at concrete requests: two files moved into the trash give one trash job
and no move job; moved into a directory they give one move job. -/
theorem C17_move_into_trash_redirects_witness :
    created_jobs (thunar_application_move_into example_catalog_env
      [{ uri := "a" }, { uri := "b" }] { uri := "trash:///" } {}).2 =
      [thunar_io_jobs_trash_files [{ uri := "a" }, { uri := "b" }]] ∧
    created_jobs (thunar_application_move_into example_catalog_env
      [{ uri := "a" }, { uri := "b" }] { uri := "file:///home/" } {}).2 =
      [thunar_io_jobs_move_files [{ uri := "a" }, { uri := "b" }]
        [{ uri := "file:///home/a" }, { uri := "file:///home/b" }]] :=
  ⟨((C17_move_into_trash_redirects example_catalog_env [{ uri := "a" }, { uri := "b" }]
      { uri := "trash:///" } {}).1 rfl).2 (by decide),
    (((C17_move_into_trash_redirects example_catalog_env [{ uri := "a" }, { uri := "b" }]
      { uri := "file:///home/" } {}).2 rfl).2 (by decide) (by decide)).trans (by decide)⟩

/-- C18: `thunar_application_unlink_files` on a non-empty list. If the shift
modifier is held or some item of the list, wherever it stands, is not local,
the permanent path is taken: the confirmation is asked for and no job is built
but by the delete constructor. Otherwise the call is
`thunar_application_trash` on the paths of all items in the order of the list:
one trash job on those paths, and no question asked. -/
theorem C18_unlink_permanent_iff_shift_or_nonlocal (env : CatalogEnv) (shift_held : Bool)
    (response : Int) (file_list : List ThunarFile) (application : ThunarApplication)
    (hne : file_list ≠ []) :
    ((shift_held = true ∨ ∃ file ∈ file_list, env.thunar_file_is_local file = false) →
      asked_questions (thunar_application_unlink_files env shift_held response file_list
        application).2 = [unlink_message env file_list file_list.length] ∧
      (∀ job ∈ created_jobs (thunar_application_unlink_files env shift_held response file_list
        application).2, job.constructor = .unlink_files)) ∧
    (¬ (shift_held = true ∨ ∃ file ∈ file_list, env.thunar_file_is_local file = false) →
      thunar_application_unlink_files env shift_held response file_list application =
        thunar_application_trash env (file_list.map env.thunar_file_get_file) application ∧
      created_jobs (thunar_application_unlink_files env shift_held response file_list
        application).2 =
        [thunar_io_jobs_trash_files (file_list.map env.thunar_file_get_file)] ∧
      asked_questions (thunar_application_unlink_files env shift_held response file_list
        application).2 = []) := by
  have hcond : (shift_held || file_list.any (fun file => !env.thunar_file_is_local file)) = true ↔
      (shift_held = true ∨ ∃ file ∈ file_list, env.thunar_file_is_local file = false) := by
    simp [List.any_eq_true]
  have hmap : file_list.map env.thunar_file_get_file ≠ [] := by
    intro h
    exact hne (List.map_eq_nil_iff.1 h)
  rw [unlink_files_eq env shift_held response file_list application hne]
  constructor
  · intro hperm
    rw [if_pos (hcond.2 hperm)]
    by_cases hr : response = GTK_RESPONSE_YES
    · rw [if_pos hr]
      simp [asked_questions, launch_asked_questions, created_jobs, launch_created_jobs,
        unlink_stub, thunar_io_jobs_unlink_files]
    · rw [if_neg hr]
      simp [asked_questions, created_jobs]
  · intro hperm
    have hb : ¬ (shift_held || file_list.any (fun file => !env.thunar_file_is_local file)) = true :=
      fun h => hperm (hcond.1 h)
    rw [if_neg hb]
    refine ⟨rfl, ?_, ?_⟩
    · simp [thunar_application_trash, hmap, launch_created_jobs, trash_stub]
    · simp [thunar_application_trash, hmap, launch_asked_questions]

/-- C18 at concrete requests, shift not held: of three items the last is not
local, and the question is asked; three local items go to the trash in order,
unasked. -/
theorem C18_unlink_permanent_iff_shift_or_nonlocal_witness :
    asked_questions (thunar_application_unlink_files example_catalog_env false
      GTK_RESPONSE_CANCEL [{ uri := "/x" }, { uri := "/y" }, { uri := "trash:///c" }] {}).2 ≠ [] ∧
    created_jobs (thunar_application_unlink_files example_catalog_env false
      GTK_RESPONSE_CANCEL [{ uri := "/x" }, { uri := "/y" }, { uri := "/z" }] {}).2 =
      [thunar_io_jobs_trash_files [{ uri := "/x" }, { uri := "/y" }, { uri := "/z" }]] :=
  ⟨by
      rw [((C18_unlink_permanent_iff_shift_or_nonlocal example_catalog_env false
        GTK_RESPONSE_CANCEL [{ uri := "/x" }, { uri := "/y" }, { uri := "trash:///c" }] {}
        (by decide)).1 (Or.inr ⟨{ uri := "trash:///c" }, by decide, by decide⟩)).1]
      exact List.cons_ne_nil _ _,
    ((C18_unlink_permanent_iff_shift_or_nonlocal example_catalog_env false
      GTK_RESPONSE_CANCEL [{ uri := "/x" }, { uri := "/y" }, { uri := "/z" }] {}
      (by decide)).2 (by decide)).2.1⟩

/-- C19: on the permanent path of `thunar_application_unlink_files` (non-empty
list, shift held or some item not local) the first thing done is to ask the one
confirmation. If the answer is yes, `thunar_application_launch` follows with
`unlink_stub`: one delete job, whose source list is the paths of all items in
the order of the list, as long as the list. On any other answer nothing
follows: no job of any kind, the application unchanged. -/
theorem C19_permanent_delete_needs_confirmation (env : CatalogEnv) (shift_held : Bool)
    (response : Int) (file_list : List ThunarFile) (application : ThunarApplication)
    (hne : file_list ≠ [])
    (hperm : shift_held = true ∨ ∃ file ∈ file_list, env.thunar_file_is_local file = false) :
    (thunar_application_unlink_files env shift_held response file_list application).2.head? =
      some (.question (unlink_message env file_list file_list.length)) ∧
    asked_questions (thunar_application_unlink_files env shift_held response file_list
      application).2 = [unlink_message env file_list file_list.length] ∧
    (response = GTK_RESPONSE_YES →
      thunar_application_unlink_files env shift_held response file_list application =
        ((thunar_application_launch unlink_stub (file_list.map env.thunar_file_get_file)
            (file_list.map env.thunar_file_get_file) application).1,
          .question (unlink_message env file_list file_list.length) ::
            (thunar_application_launch unlink_stub (file_list.map env.thunar_file_get_file)
              (file_list.map env.thunar_file_get_file) application).2) ∧
      created_jobs (thunar_application_unlink_files env shift_held response file_list
        application).2 =
        [thunar_io_jobs_unlink_files (file_list.map env.thunar_file_get_file)] ∧
      (file_list.map env.thunar_file_get_file).length = file_list.length) ∧
    (response ≠ GTK_RESPONSE_YES →
      thunar_application_unlink_files env shift_held response file_list application =
        (application, [.question (unlink_message env file_list file_list.length)]) ∧
      created_jobs (thunar_application_unlink_files env shift_held response file_list
        application).2 = []) := by
  have hcond : (shift_held || file_list.any (fun file => !env.thunar_file_is_local file)) = true := by
    simp only [Bool.or_eq_true, List.any_eq_true, Bool.not_eq_eq_eq_not, Bool.not_true]
    exact hperm
  rw [unlink_files_eq env shift_held response file_list application hne, if_pos hcond]
  by_cases hr : response = GTK_RESPONSE_YES
  · rw [if_pos hr]
    refine ⟨rfl, ?_, fun _ => ⟨rfl, ?_, by simp⟩, fun h => absurd hr h⟩
    · simp [asked_questions, launch_asked_questions]
    · simp [created_jobs, launch_created_jobs, unlink_stub]
  · rw [if_neg hr]
    exact ⟨rfl, rfl, fun h => absurd h hr, fun _ => ⟨rfl, rfl⟩⟩

/-- C19 at concrete requests with shift held: on "yes" one delete job on both
paths, on "cancel" no job at all. -/
theorem C19_permanent_delete_needs_confirmation_witness :
    created_jobs (thunar_application_unlink_files example_catalog_env true GTK_RESPONSE_YES
      [{ uri := "/x" }, { uri := "/y" }] {}).2 =
      [thunar_io_jobs_unlink_files [{ uri := "/x" }, { uri := "/y" }]] ∧
    created_jobs (thunar_application_unlink_files example_catalog_env true GTK_RESPONSE_CANCEL
      [{ uri := "/x" }, { uri := "/y" }] {}).2 = [] :=
  ⟨((C19_permanent_delete_needs_confirmation example_catalog_env true GTK_RESPONSE_YES
      [{ uri := "/x" }, { uri := "/y" }] {} (by decide) (Or.inl rfl)).2.2.1 rfl).2.1,
    ((C19_permanent_delete_needs_confirmation example_catalog_env true GTK_RESPONSE_CANCEL
      [{ uri := "/x" }, { uri := "/y" }] {} (by decide) (Or.inl rfl)).2.2.2 (by decide)).2⟩

/-- C20: `thunar_application_restore_files` builds a job exactly when every item
of the list has an original path. If an item has none, then for the first
such item in list order: no job is built, the application is unchanged, and
the one thing done is to show the error for that item. If all have one, one
restore job is launched; its source list is the paths of the items, its
target list is as long as the list, and the target at each position is the
original path of the item at that position. -/
theorem C20_restore_all_or_nothing (env : CatalogEnv) (trash_file_list : List ThunarFile)
    (application : ThunarApplication) :
    (created_jobs (thunar_application_restore_files env trash_file_list application).2 ≠ [] ↔
      ∀ file ∈ trash_file_list, env.thunar_file_get_original_path file ≠ none) ∧
    (∀ front file back, trash_file_list = front ++ file :: back →
      (∀ other ∈ front, env.thunar_file_get_original_path other ≠ none) →
      env.thunar_file_get_original_path file = none →
      thunar_application_restore_files env trash_file_list application =
        (application,
          [.show_error
            { domain := G_FILE_ERROR
              code := G_FILE_ERROR_INVAL
              message := "Failed to determine the original path for \"" ++
                env.thunar_file_get_display_name file ++ "\"" }
            ("Could not restore \"" ++ env.thunar_file_get_display_name file ++ "\"")]) ∧
      created_jobs (thunar_application_restore_files env trash_file_list application).2 = []) ∧
    ((∀ file ∈ trash_file_list, env.thunar_file_get_original_path file ≠ none) →
      ∃ targets,
        thunar_application_restore_files env trash_file_list application =
          thunar_application_launch thunar_io_jobs_restore_files
            (trash_file_list.map env.thunar_file_get_file) targets application ∧
        created_jobs (thunar_application_restore_files env trash_file_list application).2 =
          [thunar_io_jobs_restore_files (trash_file_list.map env.thunar_file_get_file)
            targets] ∧
        shown_errors (thunar_application_restore_files env trash_file_list application).2 = [] ∧
        (trash_file_list.map env.thunar_file_get_file).length = trash_file_list.length ∧
        targets.length = trash_file_list.length ∧
        List.Forall₂
          (fun file target => ∃ original_uri,
            env.thunar_file_get_original_path file = some original_uri ∧
            target = env.g_file_new_for_commandline_arg original_uri)
          trash_file_list targets) := by
  have hall : (∀ file ∈ trash_file_list, env.thunar_file_get_original_path file ≠ none) →
      ∃ targets,
        thunar_application_restore_files env trash_file_list application =
          thunar_application_launch thunar_io_jobs_restore_files
            (trash_file_list.map env.thunar_file_get_file) targets application ∧
        List.Forall₂
          (fun file target => ∃ original_uri,
            env.thunar_file_get_original_path file = some original_uri ∧
            target = env.g_file_new_for_commandline_arg original_uri)
          trash_file_list targets := by
    intro h
    obtain ⟨targets, hc, hf⟩ := restore_collect_ok env trash_file_list [] [] h
    refine ⟨targets, ?_, hf⟩
    simp only [List.nil_append] at hc
    simp only [thunar_application_restore_files, hc]
  have hmiss : ∀ front file back, trash_file_list = front ++ file :: back →
      (∀ other ∈ front, env.thunar_file_get_original_path other ≠ none) →
      env.thunar_file_get_original_path file = none →
      thunar_application_restore_files env trash_file_list application =
        (application,
          [.show_error
            { domain := G_FILE_ERROR
              code := G_FILE_ERROR_INVAL
              message := "Failed to determine the original path for \"" ++
                env.thunar_file_get_display_name file ++ "\"" }
            ("Could not restore \"" ++ env.thunar_file_get_display_name file ++ "\"")]) := by
    intro front file back hsplit hfront hfile
    simp only [thunar_application_restore_files, hsplit,
      restore_collect_missing env front file back [] [] hfront hfile]
  refine ⟨?_, ?_, ?_⟩
  · constructor
    · intro hjobs
      by_contra hnot
      have hex : ∃ file ∈ trash_file_list, env.thunar_file_get_original_path file = none := by
        by_contra hno
        apply hnot
        intro file hmem hnone
        exact hno ⟨file, hmem, hnone⟩
      obtain ⟨front, file, back, hsplit, hfront, hfile⟩ :=
        first_missing_original env trash_file_list hex
      rw [hmiss front file back hsplit hfront hfile] at hjobs
      exact hjobs rfl
    · intro h
      obtain ⟨targets, heq, _⟩ := hall h
      rw [heq, launch_created_jobs]
      exact List.cons_ne_nil _ _
  · intro front file back hsplit hfront hfile
    refine ⟨hmiss front file back hsplit hfront hfile, ?_⟩
    rw [hmiss front file back hsplit hfront hfile]
    rfl
  · intro h
    obtain ⟨targets, heq, hf⟩ := hall h
    refine ⟨targets, heq, ?_, ?_, by simp, hf.length_eq.symm, hf⟩
    · rw [heq, launch_created_jobs]
    · rw [heq, launch_shown_errors]

/-- C20 at concrete requests: of `a`, `c`, `b` in the trash, `c` has no original
path, so no job is built and one error is shown; `a` and `b` alone are restored
by one job to where they came from. -/
theorem C20_restore_all_or_nothing_witness :
    created_jobs (thunar_application_restore_files example_catalog_env
      [{ uri := "trash:///a" }, { uri := "trash:///c" }, { uri := "trash:///b" }] {}).2 = [] ∧
    (shown_errors (thunar_application_restore_files example_catalog_env
      [{ uri := "trash:///a" }, { uri := "trash:///c" }, { uri := "trash:///b" }] {}).2).length
      = 1 ∧
    created_jobs (thunar_application_restore_files example_catalog_env
      [{ uri := "trash:///a" }, { uri := "trash:///b" }] {}).2 =
      [thunar_io_jobs_restore_files [{ uri := "trash:///a" }, { uri := "trash:///b" }]
        [{ uri := "/home/a" }, { uri := "/home/b" }]] :=
  ⟨((C20_restore_all_or_nothing example_catalog_env
      [{ uri := "trash:///a" }, { uri := "trash:///c" }, { uri := "trash:///b" }] {}).2.1
      [{ uri := "trash:///a" }] { uri := "trash:///c" } [{ uri := "trash:///b" }] rfl
      (by decide) rfl).2,
    by
      rw [((C20_restore_all_or_nothing example_catalog_env
        [{ uri := "trash:///a" }, { uri := "trash:///c" }, { uri := "trash:///b" }] {}).2.1
        [{ uri := "trash:///a" }] { uri := "trash:///c" } [{ uri := "trash:///b" }] rfl
        (by decide) rfl).1]
      rfl,
    by decide⟩

/-! ## Claims on the further operations of the catalog -/

theorem collect_root (env : CatalogEnv) (target_file : GFile) (files : List GFile)
    (target_file_list : List GFile)
    (h : ∃ file ∈ files, env.thunar_g_file_is_root file = true) :
    collect_target_files env target_file files target_file_list =
      .error { domain := G_FILE_ERROR, code := G_FILE_ERROR_INVAL,
               message := "Invalid argument" } := by
  induction files generalizing target_file_list with
  | nil =>
    obtain ⟨_, hmem, _⟩ := h
    cases hmem
  | cons file files ih =>
    cases hr : env.thunar_g_file_is_root file with
    | true => simp [collect_target_files, hr]
    | false =>
      have h' : ∃ other ∈ files, env.thunar_g_file_is_root other = true := by
        obtain ⟨other, hmem, hroot⟩ := h
        rcases List.mem_cons.1 hmem with heq | hmem'
        · rw [heq, hr] at hroot; cases hroot
        · exact ⟨other, hmem', hroot⟩
      simp only [collect_target_files, hr, Bool.false_eq_true, if_false]
      exact ih _ h'

theorem collect_and_launch_no_root (env : CatalogEnv) (launcher : Launcher)
    (source_file_list : List GFile) (target_file : GFile) (application : ThunarApplication)
    (hne : source_file_list ≠ [])
    (hroot : ∀ file ∈ source_file_list, env.thunar_g_file_is_root file = false) :
    thunar_application_collect_and_launch env launcher source_file_list target_file
        application =
      thunar_application_launch launcher source_file_list
        (source_file_list.map (fun file =>
          env.g_file_resolve_relative_path target_file (env.g_file_get_basename file)))
        application := by
  have hroot' : ∀ file ∈ source_file_list.reverse, env.thunar_g_file_is_root file = false :=
    fun file hmem => hroot file (List.mem_reverse.1 hmem)
  simp only [thunar_application_collect_and_launch, hne, if_false,
    collect_no_root env target_file _ [] hroot', List.reverse_reverse, List.append_nil]

theorem collect_and_launch_root (env : CatalogEnv) (launcher : Launcher)
    (source_file_list : List GFile) (target_file : GFile) (application : ThunarApplication)
    (hroot : ∃ file ∈ source_file_list, env.thunar_g_file_is_root file = true) :
    thunar_application_collect_and_launch env launcher source_file_list target_file
        application =
      (application,
        [.show_error
          { domain := G_FILE_ERROR, code := G_FILE_ERROR_INVAL, message := "Invalid argument" }
          "Failed to launch operation"]) := by
  have hne : source_file_list ≠ [] := by
    intro h
    obtain ⟨_, hmem, _⟩ := hroot
    rw [h] at hmem
    cases hmem
  have hroot' : ∃ file ∈ source_file_list.reverse, env.thunar_g_file_is_root file = true := by
    obtain ⟨file, hmem, hr⟩ := hroot
    exact ⟨file, List.mem_reverse.2 hmem, hr⟩
  simp only [thunar_application_collect_and_launch, hne, if_false,
    collect_root env target_file _ [] hroot']

/-- C21: `thunar_application_empty_trash` first asks the one question. If the
answer is yes, `thunar_application_launch` follows with `unlink_stub` on the
list that holds the trash root and nothing else: one job, built by the delete
constructor from that one-element list. On any other answer nothing follows:
no job, the application unchanged. So a job is built exactly when the answer
is yes. -/
theorem C21_empty_trash_confirms_then_unlinks_root (env : CatalogEnv) (response : Int)
    (application : ThunarApplication) :
    (thunar_application_empty_trash env response application).2.head? =
      some (.question "Remove all files and folders from the Trash?") ∧
    asked_questions (thunar_application_empty_trash env response application).2 =
      ["Remove all files and folders from the Trash?"] ∧
    (created_jobs (thunar_application_empty_trash env response application).2 ≠ [] ↔
      response = GTK_RESPONSE_YES) ∧
    (response = GTK_RESPONSE_YES →
      created_jobs (thunar_application_empty_trash env response application).2 =
        [thunar_io_jobs_unlink_files [env.thunar_g_file_new_for_trash]] ∧
      (thunar_application_empty_trash env response application).1 =
        (thunar_application_launch unlink_stub [env.thunar_g_file_new_for_trash] []
          application).1) ∧
    (response ≠ GTK_RESPONSE_YES →
      thunar_application_empty_trash env response application =
        (application, [.question "Remove all files and folders from the Trash?"])) := by
  have hyes : response = GTK_RESPONSE_YES →
      thunar_application_empty_trash env response application =
        ((thunar_application_launch unlink_stub [env.thunar_g_file_new_for_trash] []
            application).1,
          .question "Remove all files and folders from the Trash?" ::
            (thunar_application_launch unlink_stub [env.thunar_g_file_new_for_trash] []
              application).2) := by
    intro hr
    simp only [thunar_application_empty_trash, if_pos hr]
  have hno : response ≠ GTK_RESPONSE_YES →
      thunar_application_empty_trash env response application =
        (application, [.question "Remove all files and folders from the Trash?"]) := by
    intro hr
    simp only [thunar_application_empty_trash, if_neg hr]
  by_cases hr : response = GTK_RESPONSE_YES
  · rw [hyes hr]
    refine ⟨rfl, ?_, ?_, fun _ => ⟨?_, rfl⟩, fun h => absurd hr h⟩
    · simp [asked_questions, launch_asked_questions]
    · simp [created_jobs, launch_created_jobs, hr]
    · simp [created_jobs, launch_created_jobs, unlink_stub]
  · rw [hno hr]
    refine ⟨rfl, rfl, ?_, fun h => absurd h hr, fun _ => rfl⟩
    simp [created_jobs, hr]

/-- C21 at concrete answers: "yes" gives the one delete job on the trash root,
"cancel" gives no job. -/
theorem C21_empty_trash_confirms_then_unlinks_root_witness :
    created_jobs (thunar_application_empty_trash example_catalog_env GTK_RESPONSE_YES {}).2 =
      [thunar_io_jobs_unlink_files [{ uri := "trash:///" }]] ∧
    thunar_application_empty_trash example_catalog_env GTK_RESPONSE_CANCEL {} =
      ({}, [.question "Remove all files and folders from the Trash?"]) :=
  ⟨((C21_empty_trash_confirms_then_unlinks_root example_catalog_env GTK_RESPONSE_YES
      {}).2.2.2.1 rfl).1,
    (C21_empty_trash_confirms_then_unlinks_root example_catalog_env GTK_RESPONSE_CANCEL
      {}).2.2.2.2 (by decide)⟩

/-- C22, as stated, fails: in a build without the argument checks the length
test of `thunar_application_copy_to` is not there, and the call, given two
sources and one target, builds the copy job from the two lists and adds it to
the progress dialog. -/
theorem C22_copy_to_unchecked_builds_job :
    ([{ uri := "a" }, { uri := "b" }] : List GFile).length ≠
      ([{ uri := "c" }] : List GFile).length ∧
    created_jobs (thunar_application_copy_to example_unchecked_env
      [{ uri := "a" }, { uri := "b" }] [{ uri := "c" }] {}).2 =
      [thunar_io_jobs_copy_files [{ uri := "a" }, { uri := "b" }] [{ uri := "c" }]] ∧
    (thunar_application_copy_to example_unchecked_env
      [{ uri := "a" }, { uri := "b" }] [{ uri := "c" }] {}).1.progress_dialog ≠
      ({} : ThunarApplication).progress_dialog ∧
    (thunar_application_copy_to example_unchecked_env
      [{ uri := "a" }, { uri := "b" }] [{ uri := "c" }] {}).1.show_dialogs_timer_id ≠
      ({} : ThunarApplication).show_dialogs_timer_id := by
  decide

/-- C22, amended: `thunar_application_copy_to`. With the argument checks in
force, for lists of different length the call returns at the check: no job is
built and the application, with its progress dialog and its show timer, is
what it was. For lists of the same length, checks or no checks, the call is
`thunar_application_launch` with the copy constructor: exactly one job, built
from the two lists. -/
theorem C22_copy_to_requires_equal_lengths (env : CatalogEnv)
    (source_file_list target_file_list : List GFile) (application : ThunarApplication) :
    (env.debug_checks = true → source_file_list.length ≠ target_file_list.length →
      thunar_application_copy_to env source_file_list target_file_list application =
        (application, []) ∧
      created_jobs (thunar_application_copy_to env source_file_list target_file_list
        application).2 = [] ∧
      (thunar_application_copy_to env source_file_list target_file_list
        application).1.progress_dialog = application.progress_dialog ∧
      (thunar_application_copy_to env source_file_list target_file_list
        application).1.show_dialogs_timer_id = application.show_dialogs_timer_id) ∧
    (source_file_list.length = target_file_list.length →
      thunar_application_copy_to env source_file_list target_file_list application =
        thunar_application_launch thunar_io_jobs_copy_files source_file_list target_file_list
          application ∧
      created_jobs (thunar_application_copy_to env source_file_list target_file_list
        application).2 = [thunar_io_jobs_copy_files source_file_list target_file_list]) := by
  constructor
  · intro hchecks hlen
    have : thunar_application_copy_to env source_file_list target_file_list application =
        (application, []) := by
      simp [thunar_application_copy_to, hchecks, hlen]
    rw [this]
    exact ⟨rfl, rfl, rfl, rfl⟩
  · intro hlen
    have : thunar_application_copy_to env source_file_list target_file_list application =
        thunar_application_launch thunar_io_jobs_copy_files source_file_list target_file_list
          application := by
      simp [thunar_application_copy_to, hlen]
    rw [this]
    exact ⟨rfl, launch_created_jobs _ _ _ _⟩

/-- C22, amended, at concrete calls: with the checks in force two sources and
one target give nothing; two and two give one copy job, also without the
checks. -/
theorem C22_copy_to_requires_equal_lengths_witness :
    thunar_application_copy_to example_catalog_env [{ uri := "a" }, { uri := "b" }]
      [{ uri := "c" }] {} = ({}, []) ∧
    created_jobs (thunar_application_copy_to example_unchecked_env
      [{ uri := "a" }, { uri := "b" }] [{ uri := "c" }, { uri := "d" }] {}).2 =
      [thunar_io_jobs_copy_files [{ uri := "a" }, { uri := "b" }]
        [{ uri := "c" }, { uri := "d" }]] :=
  ⟨((C22_copy_to_requires_equal_lengths example_catalog_env [{ uri := "a" }, { uri := "b" }]
      [{ uri := "c" }] {}).1 rfl (by decide)).1,
    ((C22_copy_to_requires_equal_lengths example_unchecked_env [{ uri := "a" }, { uri := "b" }]
      [{ uri := "c" }, { uri := "d" }] {}).2 rfl).2⟩

/-- C23: for a non-empty source list without a root node and any target
directory, `thunar_application_copy_into`, `thunar_application_link_into` and
`thunar_application_move_into` (target not the trash) are
`thunar_application_launch` with their constructor, the source list as given,
and the target list that holds, position by position and in the order of the
sources, the target directory resolved with the base name of the source; it
is as long as the source list. Each builds exactly that one job. -/
theorem C23_into_targets_follow_sources (env : CatalogEnv) (source_file_list : List GFile)
    (target_file : GFile) (application : ThunarApplication) (hne : source_file_list ≠ [])
    (hroot : ∀ file ∈ source_file_list, env.thunar_g_file_is_root file = false) :
    thunar_application_copy_into env source_file_list target_file application =
      thunar_application_launch thunar_io_jobs_copy_files source_file_list
        (source_file_list.map (fun file =>
          env.g_file_resolve_relative_path target_file (env.g_file_get_basename file)))
        application ∧
    thunar_application_link_into env source_file_list target_file application =
      thunar_application_launch thunar_io_jobs_link_files source_file_list
        (source_file_list.map (fun file =>
          env.g_file_resolve_relative_path target_file (env.g_file_get_basename file)))
        application ∧
    (env.thunar_g_file_is_trashed target_file = false →
      thunar_application_move_into env source_file_list target_file application =
        thunar_application_launch thunar_io_jobs_move_files source_file_list
          (source_file_list.map (fun file =>
            env.g_file_resolve_relative_path target_file (env.g_file_get_basename file)))
          application) ∧
    created_jobs (thunar_application_copy_into env source_file_list target_file
      application).2 =
      [{ constructor := .copy_files
         source_file_list := source_file_list
         target_file_list := source_file_list.map (fun file =>
          env.g_file_resolve_relative_path target_file (env.g_file_get_basename file)) }] ∧
    created_jobs (thunar_application_link_into env source_file_list target_file
      application).2 =
      [{ constructor := .link_files
         source_file_list := source_file_list
         target_file_list := source_file_list.map (fun file =>
          env.g_file_resolve_relative_path target_file (env.g_file_get_basename file)) }] ∧
    (env.thunar_g_file_is_trashed target_file = false →
      created_jobs (thunar_application_move_into env source_file_list target_file
        application).2 =
        [{ constructor := .move_files
           source_file_list := source_file_list
           target_file_list := source_file_list.map (fun file =>
            env.g_file_resolve_relative_path target_file (env.g_file_get_basename file)) }]) ∧
    (source_file_list.map (fun file =>
      env.g_file_resolve_relative_path target_file (env.g_file_get_basename file))).length =
      source_file_list.length ∧
    (∀ i : Nat,
      (source_file_list.map (fun file =>
        env.g_file_resolve_relative_path target_file (env.g_file_get_basename file)))[i]? =
        source_file_list[i]?.map (fun file =>
          env.g_file_resolve_relative_path target_file (env.g_file_get_basename file))) := by
  have hcopy := collect_and_launch_no_root env thunar_io_jobs_copy_files source_file_list
    target_file application hne hroot
  have hlink := collect_and_launch_no_root env thunar_io_jobs_link_files source_file_list
    target_file application hne hroot
  have hmove := collect_and_launch_no_root env thunar_io_jobs_move_files source_file_list
    target_file application hne hroot
  refine ⟨hcopy, hlink, ?_, ?_, ?_, ?_, by simp, fun i => by simp⟩
  · intro ht
    simp only [thunar_application_move_into, ht, Bool.false_eq_true, if_false]
    exact hmove
  · rw [thunar_application_copy_into, hcopy, launch_created_jobs]; rfl
  · rw [thunar_application_link_into, hlink, launch_created_jobs]; rfl
  · intro ht
    simp only [thunar_application_move_into, ht, Bool.false_eq_true, if_false]
    rw [hmove, launch_created_jobs]; rfl

/-- C23 at a concrete request: `a` and `b` copied into `file:///home/` go to
`file:///home/a` and `file:///home/b`, in that order. -/
theorem C23_into_targets_follow_sources_witness :
    created_jobs (thunar_application_copy_into example_catalog_env
      [{ uri := "a" }, { uri := "b" }] { uri := "file:///home/" } {}).2 =
      [{ constructor := .copy_files
         source_file_list := [{ uri := "a" }, { uri := "b" }]
         target_file_list := [{ uri := "file:///home/a" }, { uri := "file:///home/b" }] }] :=
  (C23_into_targets_follow_sources example_catalog_env [{ uri := "a" }, { uri := "b" }]
    { uri := "file:///home/" } {} (by decide) (by decide)).2.2.2.1.trans (by decide)

/-- C24: a source list that holds a root node, one or many, wherever they
stand: `thunar_application_copy_into`, `thunar_application_link_into` and
`thunar_application_move_into` (target not the trash) build no job, leave the
application (and with it the progress dialog) as it was, and show the error
once. An empty source list gives neither a job nor an error. -/
theorem C24_root_source_rejected_once (env : CatalogEnv) (source_file_list : List GFile)
    (target_file : GFile) (application : ThunarApplication) :
    ((∃ file ∈ source_file_list, env.thunar_g_file_is_root file = true) →
      thunar_application_copy_into env source_file_list target_file application =
        (application,
          [.show_error
            { domain := G_FILE_ERROR, code := G_FILE_ERROR_INVAL,
              message := "Invalid argument" }
            "Failed to launch operation"]) ∧
      thunar_application_link_into env source_file_list target_file application =
        (application,
          [.show_error
            { domain := G_FILE_ERROR, code := G_FILE_ERROR_INVAL,
              message := "Invalid argument" }
            "Failed to launch operation"]) ∧
      (env.thunar_g_file_is_trashed target_file = false →
        thunar_application_move_into env source_file_list target_file application =
          (application,
            [.show_error
              { domain := G_FILE_ERROR, code := G_FILE_ERROR_INVAL,
                message := "Invalid argument" }
              "Failed to launch operation"])) ∧
      created_jobs (thunar_application_copy_into env source_file_list target_file
        application).2 = [] ∧
      (shown_errors (thunar_application_copy_into env source_file_list target_file
        application).2).length = 1) ∧
    (source_file_list = [] →
      thunar_application_copy_into env source_file_list target_file application =
        (application, []) ∧
      thunar_application_link_into env source_file_list target_file application =
        (application, []) ∧
      (env.thunar_g_file_is_trashed target_file = false →
        thunar_application_move_into env source_file_list target_file application =
          (application, []))) := by
  constructor
  · intro hroot
    have hcopy := collect_and_launch_root env thunar_io_jobs_copy_files source_file_list
      target_file application hroot
    have hlink := collect_and_launch_root env thunar_io_jobs_link_files source_file_list
      target_file application hroot
    have hmove := collect_and_launch_root env thunar_io_jobs_move_files source_file_list
      target_file application hroot
    refine ⟨hcopy, hlink, ?_, ?_, ?_⟩
    · intro ht
      simp only [thunar_application_move_into, ht, Bool.false_eq_true, if_false]
      exact hmove
    · rw [thunar_application_copy_into, hcopy]; rfl
    · rw [thunar_application_copy_into, hcopy]; rfl
  · intro hnil
    subst hnil
    refine ⟨by simp [thunar_application_copy_into, thunar_application_collect_and_launch],
      by simp [thunar_application_link_into, thunar_application_collect_and_launch], ?_⟩
    intro ht
    simp [thunar_application_move_into, ht, thunar_application_collect_and_launch]

/-- C24 at a concrete request: two of three sources are the root; no job, one
error. -/
theorem C24_root_source_rejected_once_witness :
    thunar_application_copy_into example_catalog_env
      [{ uri := "file:///" }, { uri := "a" }, { uri := "file:///" }] { uri := "file:///home/" }
      {} =
      ({}, [.show_error
          { domain := G_FILE_ERROR, code := G_FILE_ERROR_INVAL, message := "Invalid argument" }
          "Failed to launch operation"]) :=
  ((C24_root_source_rejected_once example_catalog_env
    [{ uri := "file:///" }, { uri := "a" }, { uri := "file:///" }] { uri := "file:///home/" }
    {}).1 ⟨{ uri := "file:///" }, by decide, rfl⟩).1

/-! ## Claims on windows, timers and the remaining behaviour -/

theorem launch_windows (launcher : Launcher) (source_file_list target_file_list : List GFile)
    (application : ThunarApplication) :
    (thunar_application_launch launcher source_file_list target_file_list
      application).1.windows =
      if application.progress_dialog = none then
        GtkWindow.progress_dialog :: application.windows
      else application.windows := by
  unfold thunar_application_launch thunar_application_get_progress_dialog
  cases hd : application.progress_dialog with
  | none =>
    by_cases ht : application.show_dialogs_timer_id = 0 <;>
      simp [ht, thunar_progress_dialog_has_jobs, thunar_progress_dialog_new,
        thunar_application_take_window, thunar_progress_dialog_add_job, g_source_attach]
  | some dialog =>
    cases hj : dialog.jobs <;> by_cases ht : application.show_dialogs_timer_id = 0 <;>
      simp [hj, ht, thunar_progress_dialog_has_jobs, thunar_progress_dialog_add_job,
        g_source_attach, thunar_application_show_dialogs, gtk_window_present]

theorem step_dialog_registered (event : ProgressEvent) (application : ThunarApplication)
    (h : dialog_registered application) :
    dialog_registered (progress_step event application).1 := by
  unfold dialog_registered at h ⊢
  cases event with
  | launch launcher source_file_list target_file_list =>
    simp only [progress_step]
    intro _
    rw [launch_windows]
    by_cases hd : application.progress_dialog = none
    · simp [hd]
    · simp only [hd, if_false]
      exact h hd
  | show_timeout =>
    simp only [progress_step]
    by_cases ht : application.show_dialogs_timer_id = 0
    · simpa [ht] using h
    · simp only [ht, if_false]
      cases hd : application.progress_dialog with
      | none =>
        simp [thunar_application_show_dialogs, hd, thunar_application_show_dialogs_destroy]
      | some dialog =>
        have := h (by simp [hd])
        simp [thunar_application_show_dialogs, hd, thunar_application_show_dialogs_destroy,
          this]
  | job_finished job =>
    simp only [progress_step]
    cases hd : application.progress_dialog with
    | none => simp [hd]
    | some dialog =>
      have hreg := h (by simp [hd])
      simp only
      cases hf : thunar_progress_dialog_job_finished dialog job with
      | none => simp [window_destroyed_fst]
      | some dialog' => simp [hreg]

theorem run_dialog_registered (events : List ProgressEvent) (application : ThunarApplication)
    (h : dialog_registered application) :
    dialog_registered (progress_run events application) := by
  induction events generalizing application with
  | nil => exact h
  | cons event events ih => exact ih _ (step_dialog_registered event application h)

/-- C25: when a controlled window is destroyed, the list of windows loses it (its
first entry equal to the window; in a list without repetition the window is
gone), and the main loop is asked to quit exactly when the list is empty
afterwards and the daemon flag is off; with the daemon flag on nothing is
asked for. The shared progress dialog is a controlled window: creating it puts
it on the list, and in every state reached by launches, timer firings and ends
of jobs a progress dialog that exists is on the list. -/
theorem C25_last_window_quits_unless_daemon (window : GtkWindow)
    (application : ThunarApplication) (events : List ProgressEvent)
    (hreg : window ∈ application.windows) :
    (thunar_application_window_destroyed window application).1 =
      { application with windows := application.windows.erase window } ∧
    (application.windows.Nodup →
      window ∉ (thunar_application_window_destroyed window application).1.windows) ∧
    ((thunar_application_window_destroyed window application).2 = [.main_quit] ↔
      ((thunar_application_window_destroyed window application).1.windows = [] ∧
        application.daemon = false)) ∧
    ((thunar_application_window_destroyed window application).2 ≠ [.main_quit] →
      (thunar_application_window_destroyed window application).2 = []) ∧
    (application.daemon = true →
      (thunar_application_window_destroyed window application).2 = []) ∧
    (application.progress_dialog = none →
      GtkWindow.progress_dialog ∈
        (thunar_application_get_progress_dialog application).2.windows) ∧
    ((progress_run events thunar_application_init).progress_dialog ≠ none →
      GtkWindow.progress_dialog ∈ (progress_run events thunar_application_init).windows) := by
  have _registered := hreg
  refine ⟨window_destroyed_fst _ _, ?_, ?_, ?_, ?_, ?_, ?_⟩
  · intro hnd
    rw [window_destroyed_fst]
    exact List.Nodup.not_mem_erase hnd
  · rw [window_destroyed_fst]
    by_cases hc : application.windows.erase window = [] ∧ application.daemon = false
    · simp [thunar_application_window_destroyed, hc]
    · have h2 : (thunar_application_window_destroyed window application).2 = [] := by
        simp only [thunar_application_window_destroyed]
        rw [if_neg hc]
      rw [h2]
      constructor
      · intro h; cases h
      · intro h; exact absurd h hc
  · simp only [thunar_application_window_destroyed]
    split <;> simp
  · intro hd
    simp [thunar_application_window_destroyed, hd]
  · intro hd
    simp [thunar_application_get_progress_dialog, hd, thunar_application_take_window]
  · exact run_dialog_registered events thunar_application_init
      (by simp [dialog_registered, thunar_application_init])

/-- C25 at concrete states: the last window goes and the application is no
daemon, so the main loop is asked to quit; as a daemon it is not. -/
theorem C25_last_window_quits_unless_daemon_witness :
    (thunar_application_window_destroyed (.window 1) { windows := [.window 1] }).2 =
      [.main_quit] ∧
    (thunar_application_window_destroyed (.window 1)
      { windows := [.window 1], daemon := true }).2 = [] :=
  ⟨(C25_last_window_quits_unless_daemon (.window 1) { windows := [.window 1] } []
      (by decide)).2.2.1.2 (by decide),
    (C25_last_window_quits_unless_daemon (.window 1) { windows := [.window 1], daemon := true }
      [] (by decide)).2.2.2.2.1 rfl⟩

/-- C26: the exit of the handler process, that is the child watch callback with
its destroy notification. The pending list is unchanged and the watch handle
is cleared. The idle task is attached exactly when none was attached and the
list is non-empty; otherwise the idle handle and the source counter are as
before. In every state reached from the initial one in which a handler is
running: after the exit with an empty list neither handle is set, and after
the exit with a non-empty list the idle handle is set and the watch handle is
not. -/
theorem C26_handler_exit_reschedules (application : ThunarApplication)
    (events : List VolmanEvent) :
    (thunar_application_volman_watch_destroy
      (thunar_application_volman_watch application)).volman_udis = application.volman_udis ∧
    (thunar_application_volman_watch_destroy
      (thunar_application_volman_watch application)).volman_watch_id = 0 ∧
    (application.volman_idle_id = 0 ∧ application.volman_udis ≠ [] →
      thunar_application_volman_watch_destroy (thunar_application_volman_watch application) =
        { application with
          volman_idle_id := application.source_seq + 1
          volman_watch_id := 0
          source_seq := application.source_seq + 1 }) ∧
    (¬ (application.volman_idle_id = 0 ∧ application.volman_udis ≠ []) →
      thunar_application_volman_watch_destroy (thunar_application_volman_watch application) =
        { application with volman_watch_id := 0 }) ∧
    ((volman_run events thunar_application_init).volman_watch_id ≠ 0 →
      ((volman_run events thunar_application_init).volman_udis = [] →
        (volman_step .child_exit (volman_run events thunar_application_init)).1.volman_idle_id
          = 0 ∧
        (volman_step .child_exit (volman_run events thunar_application_init)).1.volman_watch_id
          = 0) ∧
      ((volman_run events thunar_application_init).volman_udis ≠ [] →
        (volman_step .child_exit (volman_run events thunar_application_init)).1.volman_idle_id
          ≠ 0 ∧
        (volman_step .child_exit (volman_run events thunar_application_init)).1.volman_watch_id
          = 0)) := by
  refine ⟨?_, ?_, ?_, ?_, ?_⟩
  · simp [thunar_application_volman_watch_destroy, watch_udis]
  · simp [thunar_application_volman_watch_destroy]
  · intro h
    simp [thunar_application_volman_watch_destroy, thunar_application_volman_watch, h,
      g_source_attach]
  · intro h
    simp [thunar_application_volman_watch_destroy, thunar_application_volman_watch, h]
  · intro hw
    have hone := run_one_handle events thunar_application_init
      (by simp [one_handle, thunar_application_init])
    have hidle : (volman_run events thunar_application_init).volman_idle_id = 0 := by
      by_contra hne
      exact hone ⟨hne, hw⟩
    simp only [volman_step, hw, if_false, thunar_application_volman_watch_destroy,
      watch_idle_id]
    constructor
    · intro hq
      simp [hq, hidle]
    · intro hq
      simp [hq, hidle]

/-- C26 on a concrete run: `a` and `b` are added, the handler for `b` is spawned
and exits; `a` is still pending and exactly the idle handle is set. -/
theorem C26_handler_exit_reschedules_witness :
    (volman_step .child_exit
      (volman_run [.uevent "add" "/sys/a", .uevent "add" "/sys/b", .idle true true]
        thunar_application_init)).1.volman_idle_id ≠ 0 ∧
    (volman_step .child_exit
      (volman_run [.uevent "add" "/sys/a", .uevent "add" "/sys/b", .idle true true]
        thunar_application_init)).1.volman_watch_id = 0 :=
  ((C26_handler_exit_reschedules {}
    [.uevent "add" "/sys/a", .uevent "add" "/sys/b", .idle true true]).2.2.2.2
      (by decide)).2 (by decide)

theorem launch_count_timeouts (launcher : Launcher)
    (source_file_list target_file_list : List GFile) (application : ThunarApplication) :
    count_timeouts (thunar_application_launch launcher source_file_list target_file_list
      application).2 =
      if active_jobs application = [] ∧ application.show_dialogs_timer_id = 0 then 1 else 0 := by
  rw [launch_effects]
  by_cases hj : active_jobs application = [] <;>
    by_cases ht : application.show_dialogs_timer_id = 0 <;>
    simp [hj, ht, count_timeouts]

theorem job_finished_timer (job : ThunarJob) (application : ThunarApplication) :
    (progress_step (.job_finished job) application).1.show_dialogs_timer_id =
      application.show_dialogs_timer_id ∧
    count_timeouts (progress_step (.job_finished job) application).2 = 0 := by
  simp only [progress_step]
  split
  · exact ⟨rfl, rfl⟩
  · split
    · exact ⟨rfl, rfl⟩
    · rw [window_destroyed_fst]
      refine ⟨rfl, ?_⟩
      simp only [thunar_application_window_destroyed]
      split <;> rfl

theorem show_timeout_timer (application : ThunarApplication) :
    (progress_step .show_timeout application).1.show_dialogs_timer_id = 0 ∧
    count_timeouts (progress_step .show_timeout application).2 = 0 := by
  simp only [progress_step]
  by_cases ht : application.show_dialogs_timer_id = 0
  · simp [ht, count_timeouts]
  · cases hd : application.progress_dialog <;>
      simp [ht, thunar_application_show_dialogs, hd, thunar_application_show_dialogs_destroy,
        count_timeouts]

theorem show_dialogs_keep (application : ThunarApplication) :
    (thunar_application_show_dialogs application).keep = false := by
  unfold thunar_application_show_dialogs
  cases application.progress_dialog <;> rfl

theorem step_pending_show_timers (event : ProgressEvent) (application : ThunarApplication) :
    (if application.show_dialogs_timer_id = 0 then 0 else 1) +
        count_timeouts (progress_step event application).2 -
        (match event with
          | .show_timeout =>
            if application.show_dialogs_timer_id = 0 then 0
            else if (thunar_application_show_dialogs application).keep then 0 else 1
          | _ => 0) =
      if (progress_step event application).1.show_dialogs_timer_id = 0 then 0 else 1 := by
  cases event with
  | launch launcher source_file_list target_file_list =>
    have h1 := launch_count_timeouts launcher source_file_list target_file_list application
    have h2 := launch_timer_id launcher source_file_list target_file_list application
    simp only [progress_step, h1, h2]
    by_cases hj : active_jobs application = [] <;>
      by_cases ht : application.show_dialogs_timer_id = 0 <;>
      simp [hj, ht]
  | show_timeout =>
    have h := show_timeout_timer application
    simp only [h.1, h.2, show_dialogs_keep]
    by_cases ht : application.show_dialogs_timer_id = 0 <;> simp [ht]
  | job_finished job =>
    have h := job_finished_timer job application
    simp only [h.1, h.2]
    simp

theorem run_pending_show_timers (events : List ProgressEvent) (application : ThunarApplication) :
    pending_show_timers events application
        (if application.show_dialogs_timer_id = 0 then 0 else 1) =
      if (progress_run events application).show_dialogs_timer_id = 0 then 0 else 1 := by
  induction events generalizing application with
  | nil => rfl
  | cons event events ih =>
    simp only [pending_show_timers, progress_run]
    rw [step_pending_show_timers event application]
    exact ih _

/-- C27: the show timer is one-shot and never doubled. `thunar_application_launch`
adds a timeout source only when `show_dialogs_timer_id` is 0 (and the dialog had
no job); with a non-zero handle it adds none and leaves the handle alone. The
timeout callback returns `FALSE` in every state, and the destroy notification
sets the handle to 0. So, counting from the initial state, at most one show
timer is attached after every sequence of launches, timer firings and ends
of jobs: one if the handle is non-zero, none if it is 0. -/
theorem C27_show_timer_one_shot (launcher : Launcher)
    (source_file_list target_file_list : List GFile) (application : ThunarApplication)
    (events : List ProgressEvent) :
    count_timeouts (thunar_application_launch launcher source_file_list target_file_list
      application).2 =
      (if active_jobs application = [] ∧ application.show_dialogs_timer_id = 0 then 1 else 0) ∧
    (application.show_dialogs_timer_id ≠ 0 →
      count_timeouts (thunar_application_launch launcher source_file_list target_file_list
        application).2 = 0 ∧
      (thunar_application_launch launcher source_file_list target_file_list
        application).1.show_dialogs_timer_id = application.show_dialogs_timer_id) ∧
    (thunar_application_show_dialogs application).keep = false ∧
    (thunar_application_show_dialogs_destroy application).show_dialogs_timer_id = 0 ∧
    (progress_step .show_timeout application).1.show_dialogs_timer_id = 0 ∧
    pending_show_timers events thunar_application_init 0 ≤ 1 ∧
    pending_show_timers events thunar_application_init 0 =
      (if (progress_run events thunar_application_init).show_dialogs_timer_id = 0 then 0
       else 1) := by
  have hrun := run_pending_show_timers events thunar_application_init
  have h0 : (if thunar_application_init.show_dialogs_timer_id = 0 then 0 else 1) = 0 := rfl
  rw [h0] at hrun
  refine ⟨launch_count_timeouts _ _ _ _, ?_, ?_, rfl, ?_, ?_, hrun⟩
  · intro ht
    rw [launch_count_timeouts, launch_timer_id]
    simp [ht]
  · exact show_dialogs_keep application
  · exact (show_timeout_timer application).1
  · rw [hrun]
    split <;> omega

/-- C27 on a concrete run: three launches in a row attach one timer, not
three. -/
theorem C27_show_timer_one_shot_witness :
    pending_show_timers
      [.launch thunar_io_jobs_copy_files [{ uri := "a" }] [{ uri := "b" }],
       .launch thunar_io_jobs_copy_files [{ uri := "c" }] [{ uri := "d" }],
       .launch thunar_io_jobs_copy_files [{ uri := "e" }] [{ uri := "f" }]]
      thunar_application_init 0 = 1 :=
  (C27_show_timer_one_shot thunar_io_jobs_copy_files [] [] {}
    [.launch thunar_io_jobs_copy_files [{ uri := "a" }] [{ uri := "b" }],
     .launch thunar_io_jobs_copy_files [{ uri := "c" }] [{ uri := "d" }],
     .launch thunar_io_jobs_copy_files [{ uri := "e" }] [{ uri := "f" }]]).2.2.2.2.2.2.trans
    (by decide)

/-- C28: no pending device is stranded. In every state reached from the initial
one by any sequence of uevents, idle dispatches (any preference value, any
spawn outcome) and handler exits, a non-empty pending list comes with the idle
handle or the watch handle set. -/
theorem C28_pending_device_never_stranded (events : List VolmanEvent)
    (hpending : (volman_run events thunar_application_init).volman_udis ≠ []) :
    (volman_run events thunar_application_init).volman_idle_id ≠ 0 ∨
    (volman_run events thunar_application_init).volman_watch_id ≠ 0 :=
  run_not_stranded events thunar_application_init
    (by simp [not_stranded, thunar_application_init]) hpending

/-- C28 on a concrete run: after a failed spawn for `b`, `a` is still pending
and the idle handle is still set. -/
theorem C28_pending_device_never_stranded_witness :
    (volman_run [.uevent "add" "/sys/a", .uevent "add" "/sys/b", .idle true false]
      thunar_application_init).volman_idle_id ≠ 0 ∨
    (volman_run [.uevent "add" "/sys/a", .uevent "add" "/sys/b", .idle true false]
      thunar_application_init).volman_watch_id ≠ 0 :=
  C28_pending_device_never_stranded
    [.uevent "add" "/sys/a", .uevent "add" "/sys/b", .idle true false] (by decide)

/-- C29: what the open action returns has no part in what follows a successful
resolve. Whatever error `thunar_file_launch` reports, the completion does what
it does when the open action succeeds: the target is handed to the open
action, the head of the queue is removed and the rest kept in order, a poke
is started for the new head if there is one, and no error is shown. -/
theorem C29_open_failure_is_ignored (file : ThunarFile) (target_file : Option ThunarFile)
    (launch_error : Option GError) (application : ThunarApplication) :
    thunar_application_process_files_finish file target_file none launch_error application =
      thunar_application_process_files_finish file target_file none none application ∧
    (thunar_application_process_files_finish file target_file none launch_error
      application).1 =
      { application with files_to_launch := application.files_to_launch.tail } ∧
    (thunar_application_process_files_finish file target_file none launch_error
      application).2 =
      .file_launch target_file ::
        (application.files_to_launch.tail.head?.map LaunchEffect.poke_file).toList ∧
    shown_file_errors (thunar_application_process_files_finish file target_file none
      launch_error application).2 = [] ∧
    (∀ head rest, application.files_to_launch = head :: rest →
      (thunar_application_process_files_finish file target_file none launch_error
        application).1.files_to_launch = rest ∧
      started_pokes (thunar_application_process_files_finish file target_file none
        launch_error application).2 = rest.head?.toList) := by
  have hfin : thunar_application_process_files_finish file target_file none launch_error
      application =
      ({ application with files_to_launch := application.files_to_launch.tail },
        .file_launch target_file ::
          (application.files_to_launch.tail.head?.map LaunchEffect.poke_file).toList) := by
    rw [finish_success]
    cases application.files_to_launch.tail <;> rfl
  refine ⟨by rw [finish_success, finish_success], by rw [hfin], by rw [hfin], ?_, ?_⟩
  · rw [hfin]
    cases application.files_to_launch.tail <;> rfl
  · intro head rest hq
    rw [hfin, hq]
    cases rest <;> simp [started_pokes]

/-- C29 at a concrete completion: the open action on `/A` fails; `/A` leaves the
queue all the same and the poke for `/B` is started. -/
theorem C29_open_failure_is_ignored_witness :
    thunar_application_process_files_finish { uri := "/A" } (some { uri := "/A" }) none
      (some { domain := G_IO_ERROR, code := 0, message := "failed" })
      { files_to_launch := [{ uri := "/A" }, { uri := "/B" }] } =
      ({ files_to_launch := [{ uri := "/B" }] },
        [.file_launch (some { uri := "/A" }), .poke_file { uri := "/B" }]) :=
  (C29_open_failure_is_ignored { uri := "/A" } (some { uri := "/A" })
    (some { domain := G_IO_ERROR, code := 0, message := "failed" })
    { files_to_launch := [{ uri := "/A" }, { uri := "/B" }] }).1.trans (by decide)

theorem idle_runs_detached (fuel : Nat) (application : ThunarApplication)
    (h : application.volman_idle_id = 0) :
    volman_idle_runs fuel application = (0, application) := by
  cases fuel with
  | zero => rfl
  | succ fuel => simp [volman_idle_runs, h]

theorem step_idle_failed_spawn (application : ThunarApplication) (udi : String)
    (rest : List String) (hi : application.volman_idle_id ≠ 0)
    (hw : application.volman_watch_id = 0) (hq : application.volman_udis = udi :: rest) :
    (volman_step (.idle true false) application).1 =
      if rest = [] then { application with volman_udis := [], volman_idle_id := 0 }
      else { application with volman_udis := rest } := by
  simp only [volman_step, hi, if_false]
  cases rest with
  | nil =>
    simp [thunar_application_volman_idle, hw, hq, thunar_application_volman_idle_destroy]
  | cons next rest =>
    simp [thunar_application_volman_idle, hw, hq]

theorem idle_runs_drain (fuel : Nat) (application : ThunarApplication)
    (hi : application.volman_idle_id ≠ 0) (hw : application.volman_watch_id = 0)
    (hq : application.volman_udis ≠ []) (hfuel : application.volman_udis.length ≤ fuel) :
    volman_idle_runs fuel application =
      (application.volman_udis.length,
        { application with volman_udis := [], volman_idle_id := 0 }) := by
  induction fuel generalizing application with
  | zero =>
    have : application.volman_udis = [] := List.length_eq_zero.1 (Nat.le_zero.1 hfuel)
    exact absurd this hq
  | succ fuel ih =>
    cases hu : application.volman_udis with
    | nil => exact absurd hu hq
    | cons udi rest =>
      simp only [volman_idle_runs, hi, if_false]
      rw [step_idle_failed_spawn application udi rest hi hw hu]
      cases rest with
      | nil =>
        simp only [if_true]
        rw [idle_runs_detached fuel _ rfl]
        simp
      | cons next rest =>
        simp only [reduceCtorEq, if_false]
        have hlen : (next :: rest).length ≤ fuel := by
          rw [hu] at hfuel
          simp only [List.length_cons] at hfuel ⊢
          omega
        rw [ih { application with volman_udis := next :: rest } hi hw (by simp) hlen]
        simp

/-- C30: the retry loop of the idle task ends. With volume management enabled
and no handler running, one run of the callback on a non-empty pending list
makes the list shorter by exactly one, whether the spawn succeeds or not. So
with every spawn failing and no uevent in between, a scheduled task with `n`
pending ids (`n` at least one) runs its body exactly `n` times (given room for
at least `n` dispatches); then the list is empty, the callback has returned
`FALSE` and the idle source is gone, so that no further run follows. -/
theorem C30_retry_loop_terminates (application : ThunarApplication) (ok : Bool) (fuel : Nat)
    (hw : application.volman_watch_id = 0) (hq : application.volman_udis ≠ []) :
    (thunar_application_volman_idle true ok application).application.volman_udis.length + 1 =
      application.volman_udis.length ∧
    (application.volman_idle_id ≠ 0 → application.volman_udis.length ≤ fuel →
      volman_idle_runs fuel application =
        (application.volman_udis.length,
          { application with volman_udis := [], volman_idle_id := 0 }) ∧
      (volman_idle_runs fuel application).2.volman_udis = [] ∧
      (volman_idle_runs fuel application).2.volman_idle_id = 0 ∧
      volman_idle_runs (fuel + 1) application = volman_idle_runs fuel application) := by
  constructor
  · rw [idle_udis]
    cases hu : application.volman_udis with
    | nil => exact absurd hu hq
    | cons udi rest => simp [hw]
  · intro hi hfuel
    have h1 := idle_runs_drain fuel application hi hw hq hfuel
    have h2 := idle_runs_drain (fuel + 1) application hi hw hq (Nat.le_succ_of_le hfuel)
    refine ⟨h1, by rw [h1], by rw [h1], by rw [h1, h2]⟩

/-- C30 on a concrete state: three ids pending, every spawn fails; the body runs
three times and leaves nothing pending and nothing scheduled. -/
theorem C30_retry_loop_terminates_witness :
    volman_idle_runs 10
      { volman_udis := ["/sys/c", "/sys/b", "/sys/a"], volman_idle_id := 1, source_seq := 1 } =
      (3, { volman_udis := [], volman_idle_id := 0, source_seq := 1 }) :=
  ((C30_retry_loop_terminates
    { volman_udis := ["/sys/c", "/sys/b", "/sys/a"], volman_idle_id := 1, source_seq := 1 }
    false 10 rfl (by decide)).2 (by decide) (by decide)).1

end Thunar
